import Mathlib

/-!
# Moonlight-Switch input manager

A shallow embedding of `app/src/streaming/InputManager.cpp`: the controller
snapshot builder, the diff-and-dispatch loop, the quiescence pass, the remap
table, the rumble cache and the pointer/scroll/touch dispatch of
`MoonlightInputManager`, followed by theorems about them.

Stateful member functions become functions from a state to a state and the list
of protocol events they transmit, in call order. Values the functions read from
the platform layer, the transport or the settings store are arguments.
Single-precision floats are modelled bit-exactly (`F32`).
-/

/-! ## IEEE-754 binary32 -/

/-- IEEE-754 binary32 value, represented by its 32-bit pattern
(sign bit 31, exponent field bits 30..23, fraction bits 22..0). -/
structure F32 where
  bits : Nat
deriving DecidableEq, Repr

namespace F32

/-- Number of binary digits of `n`, computed with `fuel` halving steps. -/
def bitLenAux : Nat → Nat → Nat
  | 0, _ => 0
  | fuel + 1, n => if n = 0 then 0 else bitLenAux fuel (n / 2) + 1

/-- Number of binary digits of `n` (0 for 0). -/
def bitLen (n : Nat) : Nat := bitLenAux n n

def signBit (f : F32) : Bool := decide (f.bits / 2 ^ 31 % 2 = 1)

def expField (f : F32) : Nat := f.bits / 2 ^ 23 % 256

def frac (f : F32) : Nat := f.bits % 2 ^ 23

def isNaN (f : F32) : Bool := decide (f.expField = 255) && decide (f.frac ≠ 0)

def isInf (f : F32) : Bool := decide (f.expField = 255) && decide (f.frac = 0)

/-- Magnitude in units of 2^-149 (the smallest subnormal). An infinity gets a
value above every finite magnitude, so that one comparison orders all
non-NaN values. -/
def mag (f : F32) : Nat :=
  if f.expField = 0 then f.frac else (2 ^ 23 + f.frac) * 2 ^ (f.expField - 1)

/-- Signed magnitude in units of 2^-149. -/
def toUnits (f : F32) : Int := if f.signBit then -(f.mag : Int) else (f.mag : Int)

/-- The default quiet NaN; every NaN result is reported as this pattern. -/
def qNaN : F32 := ⟨0x7FC00000⟩

def inf (negative : Bool) : F32 := ⟨(if negative then 2 ^ 31 else 0) + 0x7F800000⟩

def zero (negative : Bool) : F32 := ⟨if negative then 2 ^ 31 else 0⟩

/-- Round the non-negative rational `num / den` to the nearest binary32
magnitude, ties to even; the result is the bit pattern without the sign bit.
`k` estimates the binary exponent of the quotient from the digit counts, `e`
is that exponent, `q` the exponent of the last kept digit (never below that of the subnormals), `m` the kept digits. Because the
exponent field sits directly above the fraction, a carry out of the fraction
and the step from subnormal to normal are both plain additions. -/
def roundMag (num den : Nat) : Nat :=
  if num = 0 ∨ den = 0 then 0 else
  let k : Int := (bitLen num : Int) - (bitLen den : Int)
  let e : Int := if den * 2 ^ k.toNat ≤ num * 2 ^ (-k).toNat then k else k - 1
  let q : Int := max (e - 23) (-149)
  let n := num * 2 ^ (-q).toNat
  let d := den * 2 ^ q.toNat
  let m := n / d
  let r := n % d
  let m1 := if d < 2 * r ∨ (2 * r = d ∧ m % 2 = 1) then m + 1 else m
  let pattern := (q + 149).toNat * 2 ^ 23 + m1
  if 0x7F800000 ≤ pattern then 0x7F800000 else pattern

def ofSignMag (negative : Bool) (num den : Nat) : F32 :=
  ⟨(if negative then 2 ^ 31 else 0) + roundMag num den⟩

def neg (f : F32) : F32 := ⟨if f.signBit then f.bits - 2 ^ 31 else f.bits + 2 ^ 31⟩

/-- The function std::fabs on float: clears the sign bit. -/
def fabs (f : F32) : F32 := ⟨f.bits % 2 ^ 31⟩

def add (x y : F32) : F32 :=
  if x.isNaN || y.isNaN then qNaN
  else if x.isInf then (if y.isInf && (x.signBit != y.signBit) then qNaN else x)
  else if y.isInf then y
  else
    let s := x.toUnits + y.toUnits
    if s = 0 then zero (x.signBit && y.signBit)
    else ofSignMag (decide (s < 0)) s.natAbs (2 ^ 149)

def sub (x y : F32) : F32 := add x (neg y)

def mul (x y : F32) : F32 :=
  let sg := x.signBit != y.signBit
  if x.isNaN || y.isNaN then qNaN
  else if x.isInf || y.isInf then
    (if x.mag = 0 ∨ y.mag = 0 then qNaN else inf sg)
  else ofSignMag sg (x.mag * y.mag) (2 ^ 149 * 2 ^ 149)

def div (x y : F32) : F32 :=
  let sg := x.signBit != y.signBit
  if x.isNaN || y.isNaN then qNaN
  else if x.isInf then (if y.isInf then qNaN else inf sg)
  else if y.isInf then zero sg
  else if y.mag = 0 then (if x.mag = 0 then qNaN else inf sg)
  else ofSignMag sg x.mag y.mag

/-- The comparison `x < y`; false when either side is a NaN. -/
def lt (x y : F32) : Bool := !(x.isNaN || y.isNaN) && decide (x.toUnits < y.toUnits)

/-- The comparison `x > y`. -/
def gt (x y : F32) : Bool := lt y x

/-- The comparison `x <= y`; false when either side is a NaN. -/
def le (x y : F32) : Bool := !(x.isNaN || y.isNaN) && decide (x.toUnits ≤ y.toUnits)

/-- The comparison `x >= y`. -/
def ge (x y : F32) : Bool := le y x

/-- The comparison `x != y`; true when either side is a NaN. -/
def ne (x y : F32) : Bool := x.isNaN || y.isNaN || decide (x.toUnits ≠ y.toUnits)

/-- Conversion of an integer to float (round to nearest, ties to even). -/
def ofInt (n : Int) : F32 := ofSignMag (decide (n < 0)) n.natAbs 1

/-- Truncation of a float toward zero, as an unbounded integer. -/
def trunc (f : F32) : Int :=
  if f.signBit then -((f.mag / 2 ^ 149 : Nat) : Int) else ((f.mag / 2 ^ 149 : Nat) : Int)

/-- The conversion `static_cast<short>(f)`: truncation toward zero. A value
outside the range of short (undefined behaviour in C++) is wrapped to 16 bits. -/
def toShort (f : F32) : Int := (f.trunc + 32768) % 65536 - 32768

/-- The conversion `static_cast<unsigned char>(f)`: truncation toward zero. A
value outside 0..255 (undefined behaviour in C++) is wrapped to 8 bits. -/
def toUChar (f : F32) : Nat := (f.trunc % 256).toNat

/-- The conversion of a float to unsigned short: truncation toward zero, a
value outside 0..65535 (undefined behaviour in C++) wrapped to 16 bits. -/
def toUShort (f : F32) : Nat := (f.trunc % 65536).toNat

end F32

/-- The bit pattern of a float read as a signed 32-bit int: `*(int *)&f`. -/
def floatBitsToInt (f : F32) : Int :=
  if f.bits % 2 ^ 32 < 2 ^ 31 then (f.bits % 2 ^ 32 : Nat) else ((f.bits % 2 ^ 32 : Nat) : Int) - 2 ^ 32

/-- A signed 32-bit int read as a float: `*(float *)&i`. -/
def intBitsToFloat (i : Int) : F32 := ⟨(i % 2 ^ 32).toNat⟩

/-- The function `fsqrt_`: halve the bit pattern, add the magic constant, and
refine the estimate with one Newton step. -/
def fsqrt_ (f : F32) : F32 :=
  let i : Int := floatBitsToInt f
  let i : Int := (i >>> 1) + 0x1fbb67ae
  let f1 : F32 := intBitsToFloat i
  F32.mul ⟨0x3F000000⟩ (F32.add f1 (F32.div f f1))

namespace Moonlight

/-! ## Constants of headers outside the sources

`Limelight.h` (the transport library) and the borealis headers are not part of
the sources, so the numeric values of their enumerators are parameters. -/

/-- Button-flag constants of `Limelight.h`. -/
structure ButtonFlags where
  A_FLAG : Nat
  B_FLAG : Nat
  X_FLAG : Nat
  Y_FLAG : Nat
  UP_FLAG : Nat
  DOWN_FLAG : Nat
  LEFT_FLAG : Nat
  RIGHT_FLAG : Nat
  BACK_FLAG : Nat
  PLAY_FLAG : Nat
  LB_FLAG : Nat
  RB_FLAG : Nat
  LS_CLK_FLAG : Nat
  RS_CLK_FLAG : Nat
  SPECIAL_FLAG : Nat

/-- Enumerators of `brls::ControllerButton` used by the input manager, and the
number `_BUTTON_MAX` of buttons. -/
structure ControllerButtons where
  BUTTON_LT : Nat
  BUTTON_RT : Nat
  BUTTON_UP : Nat
  BUTTON_DOWN : Nat
  BUTTON_LEFT : Nat
  BUTTON_RIGHT : Nat
  BUTTON_A : Nat
  BUTTON_B : Nat
  BUTTON_X : Nat
  BUTTON_Y : Nat
  BUTTON_BACK : Nat
  BUTTON_START : Nat
  BUTTON_LB : Nat
  BUTTON_RB : Nat
  BUTTON_LSB : Nat
  BUTTON_RSB : Nat
  BUTTON_GUIDE : Nat
  _BUTTON_MAX : Nat

/-- Enumerators of `brls::ControllerAxis`, and the number `_AXES_MAX` of axes. -/
structure ControllerAxes where
  LEFT_X : Nat
  LEFT_Y : Nat
  RIGHT_X : Nat
  RIGHT_Y : Nat
  LEFT_Z : Nat
  RIGHT_Z : Nat
  _AXES_MAX : Nat

/-- Enumerators of `BrlsKeyboardScancode` used by the input manager. -/
structure KeyCodes where
  BRLS_KBD_KEY_SPACE : Int
  BRLS_KBD_KEY_LAST : Int
  BRLS_KBD_KEY_F1 : Int
  BRLS_KBD_KEY_F12 : Int
  BRLS_KBD_KEY_KP_0 : Int
  BRLS_KBD_KEY_KP_9 : Int
  BRLS_KBD_KEY_BACKSPACE : Int
  BRLS_KBD_KEY_SEMICOLON : Int
  BRLS_KBD_KEY_EQUAL : Int
  BRLS_KBD_KEY_COMMA : Int
  BRLS_KBD_KEY_MINUS : Int
  BRLS_KBD_KEY_PERIOD : Int
  BRLS_KBD_KEY_WORLD_1 : Int
  BRLS_KBD_KEY_SLASH : Int
  BRLS_KBD_KEY_GRAVE_ACCENT : Int
  BRLS_KBD_KEY_LEFT_BRACKET : Int
  BRLS_KBD_KEY_BACKSLASH : Int
  BRLS_KBD_KEY_RIGHT_BRACKET : Int
  BRLS_KBD_KEY_APOSTROPHE : Int
  BRLS_KBD_KEY_TAB : Int
  BRLS_KBD_KEY_CAPS_LOCK : Int
  BRLS_KBD_KEY_LEFT_SHIFT : Int
  BRLS_KBD_KEY_RIGHT_SHIFT : Int
  BRLS_KBD_KEY_LEFT_CONTROL : Int
  BRLS_KBD_KEY_RIGHT_CONTROL : Int
  BRLS_KBD_KEY_LEFT_ALT : Int
  BRLS_KBD_KEY_RIGHT_ALT : Int
  BRLS_KBD_KEY_ENTER : Int
  BRLS_KBD_KEY_LEFT_SUPER : Int
  BRLS_KBD_KEY_RIGHT_SUPER : Int
  BRLS_KBD_KEY_ESCAPE : Int
  BRLS_KBD_KEY_KP_ADD : Int
  BRLS_KBD_KEY_KP_DECIMAL : Int
  BRLS_KBD_KEY_KP_DIVIDE : Int
  BRLS_KBD_KEY_KP_MULTIPLY : Int
  BRLS_KBD_KEY_KP_ENTER : Int
  BRLS_KBD_KEY_NUM_LOCK : Int
  BRLS_KBD_KEY_SCROLL_LOCK : Int
  BRLS_KBD_KEY_PAGE_UP : Int
  BRLS_KBD_KEY_PAGE_DOWN : Int
  BRLS_KBD_KEY_END : Int
  BRLS_KBD_KEY_HOME : Int
  BRLS_KBD_KEY_LEFT : Int
  BRLS_KBD_KEY_UP : Int
  BRLS_KBD_KEY_RIGHT : Int
  BRLS_KBD_KEY_DOWN : Int
  BRLS_KBD_KEY_PRINT_SCREEN : Int
  BRLS_KBD_KEY_INSERT : Int
  BRLS_KBD_KEY_DELETE : Int

/-- Everything the input manager takes from its build and its libraries: the
header constants, whether `__SWITCH__` is defined, the transport's
`LI_ERR_UNSUPPORTED` code, the number of clock ticks of
`std::chrono::high_resolution_clock` in one millisecond, and the library
function `std::powf`. -/
structure Platform where
  flags : ButtonFlags
  buttons : ControllerButtons
  axes : ControllerAxes
  keys : KeyCodes
  isSwitch : Bool
  LI_ERR_UNSUPPORTED : Int
  clockTicksPerMs : Int
  powf : F32 → F32 → F32

/-! ## Settings -/

/-- The values the input manager reads from `Settings::instance()`.
`mapping` is the key-to-target table of the currently selected
`KeyMappingLayout` (a map with unique keys, given as its list of entries). -/
structure Settings where
  deadzone_stick_left : F32
  deadzone_stick_right : F32
  guide_key_buttons : List Nat
  touchscreen_mouse_mode : Bool
  swap_mouse_scroll : Bool
  swap_mouse_keys : Bool
  mouse_speed_multiplier : Int
  rumble_force : F32
  mapping : List (Nat × Nat)

/-! ## Data model -/

/-- Modelled from the spec: the struct `GamepadState` is declared in
`InputManager.hpp`, which is not part of the sources. Its fields are the ones
the source reads and writes: a button bitmask (kept as its 32-bit pattern), two
unsigned 8-bit triggers and four signed 16-bit stick axes. -/
structure GamepadState where
  buttonFlags : Nat
  leftTrigger : Nat
  rightTrigger : Nat
  leftStickX : Int
  leftStickY : Int
  rightStickX : Int
  rightStickY : Int
deriving DecidableEq, Repr

/-- Modelled from the spec: a default-constructed `GamepadState` (the member
initialisers are in `InputManager.hpp`); the spec has it all-zero. -/
def GamepadState.zero : GamepadState := ⟨0, 0, 0, 0, 0, 0, 0⟩

/-- Modelled from the spec: `GamepadState::is_equal` is defined in
`InputManager.hpp`; the spec has the packed state compared field for field. -/
def GamepadState.is_equal (a b : GamepadState) : Bool := decide (a = b)

/-- The struct `brls::ControllerState`: one flag per button and one float per
axis. -/
structure ControllerState where
  buttons : Nat → Bool
  axes : Nat → F32

/-- A value-initialised `brls::ControllerState{}`. -/
def ControllerState.empty : ControllerState := ⟨fun _ => false, fun _ => F32.zero false⟩

/-- One entry of `rumbleCache`: four unsigned 16-bit magnitudes. -/
structure RumbleValues where
  lowFreqMotor : Nat
  highFreqMotor : Nat
  leftTriggerMotor : Nat
  rightTriggerMotor : Nat
deriving DecidableEq, Repr

/-- The struct `MouseStateS` of `handleInput`. -/
structure MouseStateS where
  scroll_y : F32
  l_pressed : Bool
  m_pressed : Bool
  r_pressed : Bool
deriving DecidableEq, Repr

/-- The struct `brls::RawMouseState`, as far as `handleInput` reads it. -/
structure RawMouseState where
  leftButton : Bool
  middleButton : Bool
  rightButton : Bool
deriving DecidableEq, Repr

inductive TouchPhase where
  | START
  | STAY
  | END
  | NONE
deriving DecidableEq, Repr

/-- One entry of `brls::Application::currentTouchState`, as far as
`handleInput` reads it. `foreignView` is the value of
`touch.view && touch.view->hasParent() &&
dynamic_cast<StreamingView*>(touch.view->getParent()) == nullptr`. -/
structure TouchState where
  fingerId : Int
  phase : TouchPhase
  x : F32
  y : F32
  foreignView : Bool
deriving DecidableEq, Repr

/-! ## Protocol events -/

inductive ButtonAction where
  | BUTTON_ACTION_PRESS
  | BUTTON_ACTION_RELEASE
deriving DecidableEq, Repr

inductive MouseButton where
  | BUTTON_MOUSE_LEFT
  | BUTTON_MOUSE_MIDDLE
  | BUTTON_MOUSE_RIGHT
deriving DecidableEq, Repr

inductive KeyAction where
  | KEY_ACTION_DOWN
  | KEY_ACTION_UP
deriving DecidableEq, Repr

inductive TouchEventType where
  | LI_TOUCH_EVENT_DOWN
  | LI_TOUCH_EVENT_MOVE
  | LI_TOUCH_EVENT_UP
  | LI_TOUCH_EVENT_CANCEL
deriving DecidableEq, Repr

/-- One call of a sending function of the transport library, with its
arguments. Arguments that are the same constant at every call site are left
out: the controller type and capabilities of `LiSendControllerArrivalEvent`
(`LI_CTYPE_UNKNOWN`, `0`, rumble, accelerometer and gyroscope), and the
pressure, contact area and rotation of `LiSendTouchEvent`
(`0, 0, 0, LI_ROT_UNKNOWN`). -/
inductive Event where
  | LiSendMultiControllerEvent (controllerNumber : Nat) (activeGamepadMask : Nat)
      (state : GamepadState)
  | LiSendControllerArrivalEvent (controllerNumber : Nat) (activeGamepadMask : Nat)
  | LiSendMouseButtonEvent (action : ButtonAction) (button : MouseButton)
  | LiSendTouchEvent (eventType : TouchEventType) (pointerId : Int) (x y : F32)
  | LiSendKeyboardEvent (keyCode : Int) (keyAction : KeyAction) (modifiers : Nat)
  | LiSendScrollEvent (scrollClicks : Int)
  | LiSendMouseMoveEvent (deltaX deltaY : Int)
  | LiSendMousePositionEvent (x y referenceWidth referenceHeight : Int)
deriving DecidableEq, Repr

/-- One call of `sendRumble` of the platform input manager: the two-parameter
form of `handleRumble` or the four-parameter form of `handleRumbleTriggers`. -/
inductive RumbleCommand where
  | sendRumble2 (controller lowFreqMotor highFreqMotor : Nat)
  | sendRumble4 (controller lowFreqMotor highFreqMotor leftTriggerMotor
      rightTriggerMotor : Nat)
deriving DecidableEq, Repr

/-- A pending `brls::PanGestureStatus`, as far as `handleInput` reads it: the
drag delta. -/
structure PanDelta where
  x : F32
  y : F32
deriving DecidableEq, Repr

/-- The mutable state of `MoonlightInputManager` together with the
function-local statics of `handleControllers` (`lastControllerCount`) and
`handleInput` (`lastMouseState`, `timeStamp`). `timeStamp` is `none` until the
first `handleInput` call initialises it. `activeTouchIDs` lists the keys of the
map in iteration order (ascending, each key once). -/
structure InputState where
  inputDropped : Bool
  lastGamepadStates : Nat → GamepadState
  mappingButtons : Nat → Nat
  rumbleCache : Nat → RumbleValues
  activeTouchIDs : List Int
  panStatus : Option PanDelta
  lastControllerCount : Nat
  lastMouseState : MouseStateS
  timeStamp : Option Int

/-- Modelled from the spec: the state at the start of a streaming session. The
member initialisers are in `InputManager.hpp`; the spec has every cache
all-zero or empty and the remap table the identity. -/
def InputState.init : InputState where
  inputDropped := false
  lastGamepadStates := fun _ => GamepadState.zero
  mappingButtons := fun i => i
  rumbleCache := fun _ => ⟨0, 0, 0, 0⟩
  activeTouchIDs := []
  panStatus := none
  lastControllerCount := 0
  lastMouseState := ⟨F32.zero false, false, false, false⟩
  timeStamp := none

/-! ## Remap table -/

/-- The function `reloadButtonMappingLayout`: every entry below `_BUTTON_MAX`
is overwritten, with the layout's target when the layout has the key
(`layout.mapping.count(i) == 1`) and with the index itself otherwise. -/
def reloadButtonMappingLayout (P : Platform) (cfg : Settings) (s : InputState) : InputState :=
  { s with
    mappingButtons :=
      (List.range P.buttons._BUTTON_MAX).foldl
        (fun table i =>
          match cfg.mapping.lookup i with
          | some target => Function.update table i target
          | none => Function.update table i i)
        s.mappingButtons }

/-- The function `mapController`: buttons start all false, the axes below
`_AXES_MAX` are copied, and every raw button is or-ed into the entry its table
entry names. -/
def mapController (P : Platform) (mappingButtons : Nat → Nat) (controller : ControllerState) :
    ControllerState where
  axes := fun i => if i < P.axes._AXES_MAX then controller.axes i else F32.zero false
  buttons :=
    (List.range P.buttons._BUTTON_MAX).foldl
      (fun buttons i =>
        Function.update buttons (mappingButtons i)
          (buttons (mappingButtons i) || controller.buttons i))
      (fun _ => false)

/-! ## Rumble -/

/-- The function `handleRumble`: scale both magnitudes, store them in the
cache entry of the controller and forward the two stored values. -/
def handleRumble (cfg : Settings) (controller lowFreqMotor highFreqMotor : Nat)
    (s : InputState) : InputState × RumbleCommand :=
  let rumbleMultiplier := cfg.rumble_force
  let entry := s.rumbleCache controller
  let entry := { entry with
    lowFreqMotor := F32.toUShort (F32.mul (F32.ofInt lowFreqMotor) rumbleMultiplier) }
  let entry := { entry with
    highFreqMotor := F32.toUShort (F32.mul (F32.ofInt highFreqMotor) rumbleMultiplier) }
  ({ s with rumbleCache := Function.update s.rumbleCache controller entry },
    RumbleCommand.sendRumble2 controller entry.lowFreqMotor entry.highFreqMotor)

/-- The function `handleRumbleTriggers`: scale both trigger magnitudes, store
them in the cache entry of the controller and forward all four stored values. -/
def handleRumbleTriggers (cfg : Settings) (controllerNumber leftTriggerMotor rightTriggerMotor : Nat)
    (s : InputState) : InputState × RumbleCommand :=
  let rumbleMultiplier := cfg.rumble_force
  let entry := s.rumbleCache controllerNumber
  let entry := { entry with
    leftTriggerMotor := F32.toUShort (F32.mul (F32.ofInt leftTriggerMotor) rumbleMultiplier) }
  let entry := { entry with
    rightTriggerMotor := F32.toUShort (F32.mul (F32.ofInt rightTriggerMotor) rumbleMultiplier) }
  ({ s with rumbleCache := Function.update s.rumbleCache controllerNumber entry },
    RumbleCommand.sendRumble4 controllerNumber entry.lowFreqMotor entry.highFreqMotor
      entry.leftTriggerMotor entry.rightTriggerMotor)

/-! ## Keyboard codes -/

/-- Conversion of an int to short (two's complement, 16 bits). -/
def toShortInt (n : Int) : Int := (n + 32768) % 65536 - 32768

/-- The function `glfwKeyToVKKey`: the two ranges first, then the switch (its
case labels are distinct enumerators, so the order of the tests below is
immaterial), then the default. The result is converted to the return type
short. -/
def glfwKeyToVKKey (K : KeyCodes) (key : Int) : Int :=
  if K.BRLS_KBD_KEY_F1 ≤ key ∧ key ≤ K.BRLS_KBD_KEY_F12 then
    toShortInt (key - K.BRLS_KBD_KEY_F1 + 0x70)
  else if K.BRLS_KBD_KEY_KP_0 ≤ key ∧ key ≤ K.BRLS_KBD_KEY_KP_9 then
    toShortInt (key - K.BRLS_KBD_KEY_KP_0 + 0x60)
  else if key = K.BRLS_KBD_KEY_BACKSPACE then 0x08
  else if key = K.BRLS_KBD_KEY_SEMICOLON then 0xBA
  else if key = K.BRLS_KBD_KEY_EQUAL then 0xBB
  else if key = K.BRLS_KBD_KEY_COMMA then 0xBC
  else if key = K.BRLS_KBD_KEY_MINUS then 0xBD
  else if key = K.BRLS_KBD_KEY_PERIOD then 0xBE
  else if key = K.BRLS_KBD_KEY_WORLD_1 then 0xE2
  else if key = K.BRLS_KBD_KEY_SLASH then 0xBF
  else if key = K.BRLS_KBD_KEY_GRAVE_ACCENT then 0xC0
  else if key = K.BRLS_KBD_KEY_LEFT_BRACKET then 0xDB
  else if key = K.BRLS_KBD_KEY_BACKSLASH then 0xDC
  else if key = K.BRLS_KBD_KEY_RIGHT_BRACKET then 0xDD
  else if key = K.BRLS_KBD_KEY_APOSTROPHE then 0xDE
  else if key = K.BRLS_KBD_KEY_TAB then 0x09
  else if key = K.BRLS_KBD_KEY_CAPS_LOCK then 0x14
  else if key = K.BRLS_KBD_KEY_LEFT_SHIFT then 0xA0
  else if key = K.BRLS_KBD_KEY_RIGHT_SHIFT then 0xA1
  else if key = K.BRLS_KBD_KEY_LEFT_CONTROL then 0xA2
  else if key = K.BRLS_KBD_KEY_RIGHT_CONTROL then 0xA3
  else if key = K.BRLS_KBD_KEY_LEFT_ALT then 0xA4
  else if key = K.BRLS_KBD_KEY_RIGHT_ALT then 0xA5
  else if key = K.BRLS_KBD_KEY_ENTER then 0x0D
  else if key = K.BRLS_KBD_KEY_LEFT_SUPER then 0x5B
  else if key = K.BRLS_KBD_KEY_RIGHT_SUPER then 0x5C
  else if key = K.BRLS_KBD_KEY_ESCAPE then 0x1B
  else if key = K.BRLS_KBD_KEY_KP_ADD then 0x6B
  else if key = K.BRLS_KBD_KEY_KP_DECIMAL then 0x6E
  else if key = K.BRLS_KBD_KEY_KP_DIVIDE then 0x6F
  else if key = K.BRLS_KBD_KEY_KP_MULTIPLY then 0x6A
  else if key = K.BRLS_KBD_KEY_KP_ENTER then 0x0D
  else if key = K.BRLS_KBD_KEY_NUM_LOCK then 0x90
  else if key = K.BRLS_KBD_KEY_SCROLL_LOCK then 0x91
  else if key = K.BRLS_KBD_KEY_PAGE_UP then 0x21
  else if key = K.BRLS_KBD_KEY_PAGE_DOWN then 0x22
  else if key = K.BRLS_KBD_KEY_END then 0x23
  else if key = K.BRLS_KBD_KEY_HOME then 0x24
  else if key = K.BRLS_KBD_KEY_LEFT then 0x25
  else if key = K.BRLS_KBD_KEY_UP then 0x26
  else if key = K.BRLS_KBD_KEY_RIGHT then 0x27
  else if key = K.BRLS_KBD_KEY_DOWN then 0x28
  else if key = K.BRLS_KBD_KEY_PRINT_SCREEN then 0x2C
  else if key = K.BRLS_KBD_KEY_INSERT then 0x2D
  else if key = K.BRLS_KBD_KEY_DELETE then 0x2E
  else toShortInt key

/-! ## Quiescence -/

/-- The function `controllersToMap`, on the connected-controller count. -/
def controllersToMap (controllersCount : Nat) : Nat :=
  match controllersCount with
  | 0 => 0x0
  | 1 => 0x1
  | 2 => 0x3
  | 3 => 0x7
  | _ => 0xF

/-- The key codes `BRLS_KBD_KEY_SPACE, ..., BRLS_KBD_KEY_LAST - 1` visited by
the keyboard loop of `dropInput`, in order. -/
def keyboardRange (K : KeyCodes) : List Int :=
  (List.range (K.BRLS_KBD_KEY_LAST - K.BRLS_KBD_KEY_SPACE).toNat).map
    (fun (k : Nat) => K.BRLS_KBD_KEY_SPACE + (k : Int))

/-- The function `dropInput`. `controllersCount` is the connected-controller
count reported by the platform and `sendResult i` the value
`LiSendMultiControllerEvent` returns for slot `i` during this call. Returns the
new state and the events sent, in order. -/
def dropInput (P : Platform) (controllersCount : Nat) (sendResult : Nat → Int)
    (s : InputState) : InputState × List Event :=
  if s.inputDropped then (s, [])
  else
    let gamepadState := GamepadState.zero
    let gamepads : Bool × List Event :=
      (List.range controllersCount).foldl
        (fun acc i =>
          (acc.1 && decide (sendResult i = 0),
            acc.2 ++ [Event.LiSendMultiControllerEvent i (controllersToMap controllersCount)
              gamepadState]))
        (true, [])
    let res := gamepads.1
    let mouse := [Event.LiSendMouseButtonEvent ButtonAction.BUTTON_ACTION_RELEASE
      MouseButton.BUTTON_MOUSE_LEFT]
    let touches := s.activeTouchIDs.map
      (fun id => Event.LiSendTouchEvent TouchEventType.LI_TOUCH_EVENT_CANCEL id
        (F32.zero false) (F32.zero false))
    let keys := (keyboardRange P.keys).map
      (fun i => Event.LiSendKeyboardEvent (glfwKeyToVKKey P.keys i) KeyAction.KEY_ACTION_UP 0)
    ({ s with activeTouchIDs := [], inputDropped := res },
      gamepads.2 ++ mouse ++ touches ++ keys)

/-! ## Gamepad snapshot builder -/

/-- The 32-bit complement `~k` of a flag constant. -/
def complement32 (k : Nat) : Nat := 0xFFFFFFFF ^^^ k

/-- The macro `SET_GAME_PAD_STATE(LIMELIGHT_KEY, GAMEPAD_BUTTON)` applied to
`buttonFlags`, where `held` is `controller.buttons[GAMEPAD_BUTTON]`. -/
def SET_GAME_PAD_STATE (buttonFlags LIMELIGHT_KEY : Nat) (held : Bool) : Nat :=
  if held then buttonFlags ||| LIMELIGHT_KEY else buttonFlags &&& complement32 LIMELIGHT_KEY

/-- The trigger value of `getControllerState`: the axis when it is greater
than 0, otherwise 1 or 0 by the trigger button. -/
def triggerAxis (axis : F32) (button : Bool) : F32 :=
  if F32.gt axis (F32.zero false) then axis
  else if button then F32.ofInt 1 else F32.zero false

/-- The value of `magnitude` in `getControllerState` for a stick at `(x, y)`:
`fsqrt_(std::powf(x, 2) + std::powf(y, 2))`. -/
def stickMagnitude (P : Platform) (x y : F32) : F32 :=
  fsqrt_ (F32.add (P.powf x (F32.ofInt 2)) (P.powf y (F32.ofInt 2)))

/-- The part "Truncate dead zones" of `getControllerState`, on the mapped
controller: the values of `leftXAxis`, `leftYAxis`, `rightXAxis` and
`rightYAxis` after the two dead-zone tests. -/
def truncateDeadZones (P : Platform) (cfg : Settings) (controller : ControllerState) :
    F32 × F32 × F32 × F32 :=
  let leftStickDeadzone := cfg.deadzone_stick_left
  let rightStickDeadzone := cfg.deadzone_stick_right
  let leftXAxis := controller.axes P.axes.LEFT_X
  let leftYAxis := controller.axes P.axes.LEFT_Y
  let rightXAxis := controller.axes P.axes.RIGHT_X
  let rightYAxis := controller.axes P.axes.RIGHT_Y
  let left : F32 × F32 :=
    if F32.gt leftStickDeadzone (F32.zero false) then
      let magnitude := stickMagnitude P leftXAxis leftYAxis
      if F32.lt magnitude leftStickDeadzone then (F32.zero false, F32.zero false)
      else (leftXAxis, leftYAxis)
    else (leftXAxis, leftYAxis)
  let right : F32 × F32 :=
    if F32.gt rightStickDeadzone (F32.zero false) then
      let magnitude := stickMagnitude P rightXAxis rightYAxis
      if F32.lt magnitude rightStickDeadzone then (F32.zero false, F32.zero false)
      else (rightXAxis, rightYAxis)
    else (rightXAxis, rightYAxis)
  (left.1, left.2, right.1, right.2)

/-- The value of `guideCombo` in `getControllerState`: the configured set is
not empty and every button of it is held. -/
def guideCombo (cfg : Settings) (controller : ControllerState) : Bool :=
  cfg.guide_key_buttons.foldl (fun combo key => combo && controller.buttons key)
    (!cfg.guide_key_buttons.isEmpty)

/-- The value of `gamepadState.buttonFlags` in `getControllerState` after the
last `SET_GAME_PAD_STATE` line, before the guide handling. -/
def packButtons (P : Platform) (controller : ControllerState) : Nat :=
  let B := P.buttons
  let F := P.flags
  let a := B.BUTTON_A
  let b := B.BUTTON_B
  let x := B.BUTTON_X
  let y := B.BUTTON_Y
  let flags := 0
  let flags := SET_GAME_PAD_STATE flags F.UP_FLAG (controller.buttons B.BUTTON_UP)
  let flags := SET_GAME_PAD_STATE flags F.DOWN_FLAG (controller.buttons B.BUTTON_DOWN)
  let flags := SET_GAME_PAD_STATE flags F.LEFT_FLAG (controller.buttons B.BUTTON_LEFT)
  let flags := SET_GAME_PAD_STATE flags F.RIGHT_FLAG (controller.buttons B.BUTTON_RIGHT)
  let flags :=
    if P.isSwitch then
      let flags := SET_GAME_PAD_STATE flags F.A_FLAG (controller.buttons b)
      let flags := SET_GAME_PAD_STATE flags F.B_FLAG (controller.buttons a)
      let flags := SET_GAME_PAD_STATE flags F.X_FLAG (controller.buttons y)
      SET_GAME_PAD_STATE flags F.Y_FLAG (controller.buttons x)
    else
      let flags := SET_GAME_PAD_STATE flags F.A_FLAG (controller.buttons a)
      let flags := SET_GAME_PAD_STATE flags F.B_FLAG (controller.buttons b)
      let flags := SET_GAME_PAD_STATE flags F.X_FLAG (controller.buttons x)
      SET_GAME_PAD_STATE flags F.Y_FLAG (controller.buttons y)
  let flags := SET_GAME_PAD_STATE flags F.BACK_FLAG (controller.buttons B.BUTTON_BACK)
  let flags := SET_GAME_PAD_STATE flags F.PLAY_FLAG (controller.buttons B.BUTTON_START)
  let flags := SET_GAME_PAD_STATE flags F.LB_FLAG (controller.buttons B.BUTTON_LB)
  let flags := SET_GAME_PAD_STATE flags F.RB_FLAG (controller.buttons B.BUTTON_RB)
  let flags := SET_GAME_PAD_STATE flags F.LS_CLK_FLAG (controller.buttons B.BUTTON_LSB)
  SET_GAME_PAD_STATE flags F.RS_CLK_FLAG (controller.buttons B.BUTTON_RSB)

/-- The function `getControllerState`. `rawController` is the snapshot
`updateControllerState` delivers for slot `controllerNum`;
`lastGamepadStates` and `mappingButtons` are the members of that name. -/
def getControllerState (P : Platform) (cfg : Settings) (lastGamepadStates : Nat → GamepadState)
    (mappingButtons : Nat → Nat) (rawController : ControllerState) (controllerNum : Nat)
    (specialKey : Bool) : GamepadState :=
  let controller := mapController P mappingButtons rawController
  let lzAxis := triggerAxis (controller.axes P.axes.LEFT_Z) (controller.buttons P.buttons.BUTTON_LT)
  let rzAxis := triggerAxis (controller.axes P.axes.RIGHT_Z) (controller.buttons P.buttons.BUTTON_RT)
  let sticks := truncateDeadZones P cfg controller
  let leftXAxis := sticks.1
  let leftYAxis := sticks.2.1
  let rightXAxis := sticks.2.2.1
  let rightYAxis := sticks.2.2.2
  let gamepadState : GamepadState :=
    { buttonFlags := 0
      leftTrigger :=
        F32.toUChar (F32.mul (F32.ofInt 0xFF) (if !specialKey then lzAxis else F32.zero false))
      rightTrigger :=
        F32.toUChar (F32.mul (F32.ofInt 0xFF) (if !specialKey then rzAxis else F32.zero false))
      leftStickX :=
        F32.toShort (F32.mul (F32.ofInt 0x7FFF) (if !specialKey then leftXAxis else F32.zero false))
      leftStickY :=
        F32.toShort
          (F32.mul (F32.ofInt (-0x7FFF)) (if !specialKey then leftYAxis else F32.zero false))
      rightStickX :=
        F32.toShort
          (F32.mul (F32.ofInt 0x7FFF) (if !specialKey then rightXAxis else F32.zero false))
      rightStickY :=
        F32.toShort
          (F32.mul (F32.ofInt (-0x7FFF)) (if !specialKey then rightYAxis else F32.zero false)) }
  let gamepadState := { gamepadState with buttonFlags := packButtons P controller }
  let guideCombo := guideCombo cfg controller
  let gamepadState :=
    if guideCombo ∨ (lastGamepadStates controllerNum).buttonFlags &&& P.flags.SPECIAL_FLAG ≠ 0 then
      { gamepadState with buttonFlags := 0 }
    else gamepadState
  let guidePressed := guideCombo || controller.buttons P.buttons.BUTTON_GUIDE
  { gamepadState with
    buttonFlags := SET_GAME_PAD_STATE gamepadState.buttonFlags P.flags.SPECIAL_FLAG guidePressed }

/-! ## Diff and dispatch -/

/-- The body of the loop of `handleControllers` for slot `i`, on the state and
the events sent so far. -/
def handleControllersBody (P : Platform) (cfg : Settings) (controllersCount : Nat)
    (rawControllers : Nat → ControllerState) (specialKey : Bool)
    (acc : InputState × List Event) (i : Nat) : InputState × List Event :=
  let s := acc.1
  let mappedControllersCount := controllersToMap controllersCount
  let gamepadState :=
    getControllerState P cfg s.lastGamepadStates s.mappingButtons (rawControllers i) i specialKey
  if !(gamepadState.is_equal (s.lastGamepadStates i)) then
    let s := { s with lastGamepadStates := Function.update s.lastGamepadStates i gamepadState }
    let arrival : InputState × List Event :=
      if s.lastControllerCount ≠ controllersCount then
        ({ s with lastControllerCount := controllersCount },
          (List.range controllersCount).map
            (fun j => Event.LiSendControllerArrivalEvent j mappedControllersCount))
      else (s, [])
    (arrival.1,
      acc.2 ++ arrival.2 ++
        [Event.LiSendMultiControllerEvent i mappedControllersCount gamepadState])
  else acc

/-- The function `handleControllers`. `controllersCount` is the
connected-controller count and `rawControllers i` the snapshot
`updateControllerState` delivers for slot `i`. The value
`LiSendMultiControllerEvent` returns is only logged. -/
def handleControllers (P : Platform) (cfg : Settings) (controllersCount : Nat)
    (rawControllers : Nat → ControllerState) (specialKey : Bool) (s : InputState) :
    InputState × List Event :=
  (List.range controllersCount).foldl
    (handleControllersBody P cfg controllersCount rawControllers specialKey) (s, [])

/-! ## Pointer, scroll and touch dispatch -/

/-- What the platform layer, the clock and the transport deliver during one
call of `handleInput`: the connected-controller count, the per-slot and the
unified controller snapshot, the mouse snapshot, the number of raw touch
states (`states.size()`), the list `Application::currentTouchState`, the
values `(float) Application::contentWidth` and `contentHeight`, the clock
reading `timeNow` in clock ticks, and the value `LiSendTouchEvent` returns for
the touch at each index. -/
structure TickInput where
  controllersCount : Nat
  rawControllers : Nat → ControllerState
  unifiedController : ControllerState
  mouse : RawMouseState
  touchStatesCount : Nat
  currentTouchState : List TouchState
  contentWidth : F32
  contentHeight : F32
  timeNow : Int
  touchResult : Nat → Int

/-- The value of `mouseState` in `handleInput` after the scroll swap.
`controller` is the mapped unified controller. -/
def computeMouseState (P : Platform) (cfg : Settings) (controller : ControllerState)
    (mouse : RawMouseState) (specialKey : Bool) : MouseStateS :=
  let stickScrolling :=
    if specialKey then F32.add (controller.axes P.axes.LEFT_Y) (controller.axes P.axes.RIGHT_Y)
    else F32.zero false
  let mouseState : MouseStateS :=
    if !cfg.touchscreen_mouse_mode then
      { scroll_y := stickScrolling
        l_pressed := (specialKey && controller.buttons P.buttons.BUTTON_RT) || mouse.leftButton
        m_pressed := mouse.middleButton
        r_pressed := (specialKey && controller.buttons P.buttons.BUTTON_LT) || mouse.rightButton }
    else
      { scroll_y := F32.zero false
        l_pressed := mouse.leftButton
        m_pressed := mouse.middleButton
        r_pressed := mouse.rightButton }
  if cfg.swap_mouse_scroll then
    { mouseState with scroll_y := F32.mul mouseState.scroll_y (F32.ofInt (-1)) }
  else mouseState

/-- The three pointer-button tests of `handleInput`: the updated
`lastMouseState` and the events sent. -/
def mouseButtonEvents (cfg : Settings) (mouseState lastMouseState : MouseStateS) :
    MouseStateS × List Event :=
  let press (pressed : Bool) : ButtonAction :=
    if pressed then ButtonAction.BUTTON_ACTION_PRESS else ButtonAction.BUTTON_ACTION_RELEASE
  let left : MouseStateS × List Event :=
    if mouseState.l_pressed ≠ lastMouseState.l_pressed then
      let lb :=
        if cfg.swap_mouse_keys then MouseButton.BUTTON_MOUSE_RIGHT
        else MouseButton.BUTTON_MOUSE_LEFT
      ({ lastMouseState with l_pressed := mouseState.l_pressed },
        [Event.LiSendMouseButtonEvent (press mouseState.l_pressed) lb])
    else (lastMouseState, [])
  let middle : MouseStateS × List Event :=
    if mouseState.m_pressed ≠ left.1.m_pressed then
      ({ left.1 with m_pressed := mouseState.m_pressed },
        left.2 ++ [Event.LiSendMouseButtonEvent (press mouseState.m_pressed)
          MouseButton.BUTTON_MOUSE_MIDDLE])
    else left
  if mouseState.r_pressed ≠ middle.1.r_pressed then
    let rb :=
      if cfg.swap_mouse_keys then MouseButton.BUTTON_MOUSE_LEFT
      else MouseButton.BUTTON_MOUSE_RIGHT
    ({ middle.1 with r_pressed := mouseState.r_pressed },
      middle.2 ++ [Event.LiSendMouseButtonEvent (press mouseState.r_pressed) rb])
  else middle

/-- The value of `duration` in `handleInput`: the whole milliseconds between
the stored `timeStamp` and `timeNow` (`duration_cast` truncates toward zero).
At the first call `timeStamp` is initialised with `timeNow`. -/
def scrollDuration (P : Platform) (timeNow : Int) (timeStamp : Option Int) : Int :=
  Int.tdiv (timeNow - timeStamp.getD timeNow) P.clockTicksPerMs

/-- The scroll test of `handleInput`:
`scroll_y != 0 && (float) duration > 550 - std::fabs(scroll_y) * 500`. -/
def scrollDue (scroll_y : F32) (duration : Int) : Bool :=
  F32.ne scroll_y (F32.zero false) &&
    F32.gt (F32.ofInt duration)
      (F32.sub (F32.ofInt 550) (F32.mul (F32.fabs scroll_y) (F32.ofInt 500)))

/-- The scroll part of `handleInput`: the new `timeStamp`, the new
`lastMouseState` and the events sent. -/
def scrollEvents (P : Platform) (timeNow : Int) (mouseState : MouseStateS)
    (timeStamp : Option Int) (lastMouseState : MouseStateS) :
    Option Int × MouseStateS × List Event :=
  let stamp := timeStamp.getD timeNow
  let duration := scrollDuration P timeNow timeStamp
  if scrollDue mouseState.scroll_y duration then
    (some timeNow, { lastMouseState with scroll_y := mouseState.scroll_y },
      [Event.LiSendScrollEvent
        (if F32.gt mouseState.scroll_y (F32.zero false) then 1 else -1)])
  else (some stamp, lastMouseState, [])

/-- The value of `multiplier` for pan gestures:
`get_mouse_speed_multiplier() / 100.f * 1.5f + 0.5f`. -/
def panMultiplier (cfg : Settings) : F32 :=
  F32.add
    (F32.mul (F32.div (F32.ofInt cfg.mouse_speed_multiplier) (F32.ofInt 100)) ⟨0x3FC00000⟩)
    ⟨0x3F000000⟩

/-- Insertion of a key into `activeTouchIDs` (a map: keys ascending, an
existing key is kept). -/
def touchInsert (id : Int) : List Int → List Int
  | [] => [id]
  | k :: ks =>
    if id < k then id :: k :: ks
    else if id = k then k :: ks
    else k :: touchInsert id ks

/-- Removal of a key from `activeTouchIDs`. -/
def touchErase (id : Int) (ids : List Int) : List Int := ids.filter (fun k => k ≠ id)

/-- The protocol event type the switch of `handleInput` chooses for a phase. -/
def touchEventType : TouchPhase → TouchEventType
  | TouchPhase.START => TouchEventType.LI_TOUCH_EVENT_DOWN
  | TouchPhase.STAY => TouchEventType.LI_TOUCH_EVENT_MOVE
  | TouchPhase.END => TouchEventType.LI_TOUCH_EVENT_UP
  | TouchPhase.NONE => TouchEventType.LI_TOUCH_EVENT_CANCEL

/-- The touch loop of `handleInput` from index `i` on, over the remaining
touches: the final `activeTouchIDs` and all events sent. A touch on a foreign
view ends the whole function. -/
def handleTouches (P : Platform) (t : TickInput) :
    Nat → List TouchState → List Int → List Event → List Int × List Event
  | _, [], ids, events => (ids, events)
  | i, touch :: rest, ids, events =>
    if touch.foreignView then (ids, events)
    else
      let eventType := touchEventType touch.phase
      let ids :=
        if touch.phase ≠ TouchPhase.NONE then touchInsert touch.fingerId ids
        else touchErase touch.fingerId ids
      let sent :=
        Event.LiSendTouchEvent eventType touch.fingerId (F32.div touch.x t.contentWidth)
          (F32.div touch.y t.contentHeight)
      let fallback : List Event :=
        if t.touchResult i = P.LI_ERR_UNSUPPORTED ∧ i = 0 then
          (if touch.phase ≠ TouchPhase.NONE then
            [Event.LiSendMousePositionEvent (F32.toShort touch.x) (F32.toShort touch.y)
              (F32.toShort t.contentWidth) (F32.toShort t.contentHeight)]
          else []) ++
          (if touch.phase = TouchPhase.START then
            [Event.LiSendMouseButtonEvent ButtonAction.BUTTON_ACTION_PRESS
              MouseButton.BUTTON_MOUSE_LEFT]
          else []) ++
          (if touch.phase = TouchPhase.END then
            [Event.LiSendMouseButtonEvent ButtonAction.BUTTON_ACTION_RELEASE
              MouseButton.BUTTON_MOUSE_LEFT]
          else [])
        else []
      handleTouches P t (i + 1) rest ids (events ++ [sent] ++ fallback)

/-- The value of `specialKey` in `handleInput`:
`!ignoreTouch && !touchscreen_mouse_mode() && states.size() == 1`. -/
def specialKeyOf (cfg : Settings) (t : TickInput) (ignoreTouch : Bool) : Bool :=
  !ignoreTouch && !cfg.touchscreen_mouse_mode && decide (t.touchStatesCount = 1)

/-- The value of `mouseState.scroll_y` that a `handleInput` call computes. -/
def scrollValue (P : Platform) (cfg : Settings) (t : TickInput) (ignoreTouch : Bool)
    (s : InputState) : F32 :=
  (computeMouseState P cfg (mapController P s.mappingButtons t.unifiedController) t.mouse
    (specialKeyOf cfg t ignoreTouch)).scroll_y

/-- The first part of `handleInput`, up to and including the scroll test: the
gamepad pass, the pointer-button tests and the scroll test. Returns the state
and the events sent so far. -/
def handleInputPointer (P : Platform) (cfg : Settings) (t : TickInput) (ignoreTouch : Bool)
    (s : InputState) : InputState × List Event :=
  let s := { s with inputDropped := false }
  let controller := mapController P s.mappingButtons t.unifiedController
  let specialKey := specialKeyOf cfg t ignoreTouch
  let gamepads := handleControllers P cfg t.controllersCount t.rawControllers specialKey s
  let s := gamepads.1
  let mouseState := computeMouseState P cfg controller t.mouse specialKey
  let buttons := mouseButtonEvents cfg mouseState s.lastMouseState
  let scroll := scrollEvents P t.timeNow mouseState s.timeStamp buttons.1
  ({ s with lastMouseState := scroll.2.1, timeStamp := scroll.1 },
    gamepads.2 ++ buttons.2 ++ scroll.2.2)

/-- The last part of `handleInput`, after the scroll test: the pending pan
gesture when pointer emulation is on, the touch loop in dedicated touch mode. -/
def handleInputTouch (P : Platform) (cfg : Settings) (t : TickInput) (ignoreTouch : Bool)
    (acc : InputState × List Event) : InputState × List Event :=
  let s := acc.1
  let events := acc.2
  if !cfg.touchscreen_mouse_mode then
    if ignoreTouch then (s, events)
    else
      match s.panStatus with
      | some delta =>
        let multiplier := panMultiplier cfg
        ({ s with panStatus := none },
          events ++
            [Event.LiSendMouseMoveEvent (F32.toShort (F32.mul (F32.neg delta.x) multiplier))
              (F32.toShort (F32.mul (F32.neg delta.y) multiplier))])
      | none => (s, events)
  else
    let touches := handleTouches P t 0 t.currentTouchState s.activeTouchIDs []
    ({ s with activeTouchIDs := touches.1 }, events ++ touches.2)

/-- The function `handleInput`. Returns the new state and the events sent, in
order. -/
def handleInput (P : Platform) (cfg : Settings) (t : TickInput) (ignoreTouch : Bool)
    (s : InputState) : InputState × List Event :=
  handleInputTouch P cfg t ignoreTouch (handleInputPointer P cfg t ignoreTouch s)

/-- The function `updateTouchScreenPanDelta`. -/
def updateTouchScreenPanDelta (panStatus : PanDelta) (s : InputState) : InputState :=
  { s with panStatus := some panStatus }

/-! ## Traces -/

/-- The state last transmitted for `slot` after one more event: the state of a
`LiSendMultiControllerEvent` for that slot, otherwise the one before. -/
def latestFor (slot : Nat) (latest : GamepadState) (e : Event) : GamepadState :=
  match e with
  | Event.LiSendMultiControllerEvent controllerNumber _ state =>
    if controllerNumber = slot then state else latest
  | _ => latest

/-- The state carried by the most recent `LiSendMultiControllerEvent` for
`slot` in a trace of events, the zero state when the trace has none. -/
def lastTransmitted (slot : Nat) (events : List Event) : GamepadState :=
  events.foldl (latestFor slot) GamepadState.zero

/-- The controller-state events for `slot` in a trace of events. -/
def controllerEventsOf (slot : Nat) (events : List Event) : List Event :=
  events.filter
    (fun e =>
      match e with
      | Event.LiSendMultiControllerEvent controllerNumber _ _ => decide (controllerNumber = slot)
      | _ => false)

/-- The touch events for pointer `id` in a trace of events. -/
def touchEventsOf (id : Int) (events : List Event) : List Event :=
  events.filter
    (fun e =>
      match e with
      | Event.LiSendTouchEvent _ pointerId _ _ => decide (pointerId = id)
      | _ => false)

/-- The scroll events in a trace of events. -/
def scrollEventsOf (events : List Event) : List Event :=
  events.filter
    (fun e =>
      match e with
      | Event.LiSendScrollEvent _ => true
      | _ => false)

/-- One call on the input manager that transmits controller states, with the
values the platform and the transport deliver during it. -/
inductive Call where
  | handleControllers (cfg : Settings) (controllersCount : Nat)
      (rawControllers : Nat → ControllerState) (specialKey : Bool)
  | dropInput (controllersCount : Nat) (sendResult : Nat → Int)

/-- Run a sequence of calls from a state, collecting the events sent. -/
def runCalls (P : Platform) : List Call → InputState × List Event → InputState × List Event
  | [], acc => acc
  | Call.handleControllers cfg n raws specialKey :: rest, acc =>
    let r := handleControllers P cfg n raws specialKey acc.1
    runCalls P rest (r.1, acc.2 ++ r.2)
  | Call.dropInput n sendResult :: rest, acc =>
    let r := dropInput P n sendResult acc.1
    runCalls P rest (r.1, acc.2 ++ r.2)

/-! ## Sessions -/

/-- One call on the input manager, with the values the settings store, the
platform and the transport deliver during it. -/
inductive ManagerCall where
  | handleRumble (cfg : Settings) (controller lowFreqMotor highFreqMotor : Nat)
  | handleRumbleTriggers (cfg : Settings)
      (controllerNumber leftTriggerMotor rightTriggerMotor : Nat)
  | handleInput (cfg : Settings) (t : TickInput) (ignoreTouch : Bool)
  | handleControllers (cfg : Settings) (controllersCount : Nat)
      (rawControllers : Nat → ControllerState) (specialKey : Bool)
  | dropInput (controllersCount : Nat) (sendResult : Nat → Int)
  | reloadButtonMappingLayout (cfg : Settings)
  | updateTouchScreenPanDelta (panStatus : PanDelta)

/-- The state after one call. -/
def applyCall (P : Platform) (s : InputState) : ManagerCall → InputState
  | ManagerCall.handleRumble cfg c lo hi => (handleRumble cfg c lo hi s).1
  | ManagerCall.handleRumbleTriggers cfg c l r => (handleRumbleTriggers cfg c l r s).1
  | ManagerCall.handleInput cfg t ignoreTouch => (handleInput P cfg t ignoreTouch s).1
  | ManagerCall.handleControllers cfg n raws specialKey =>
    (handleControllers P cfg n raws specialKey s).1
  | ManagerCall.dropInput n sendResult => (dropInput P n sendResult s).1
  | ManagerCall.reloadButtonMappingLayout cfg => reloadButtonMappingLayout P cfg s
  | ManagerCall.updateTouchScreenPanDelta panStatus => updateTouchScreenPanDelta panStatus s

/-- The state after a sequence of calls. -/
def runSession (P : Platform) (calls : List ManagerCall) (s : InputState) : InputState :=
  calls.foldl (applyCall P) s

/-- Whether a call is a main-motor request (`handleRumble`) for slot `c`. -/
def isMainMotorRequestFor (c : Nat) : ManagerCall → Bool
  | ManagerCall.handleRumble _ controller _ _ => decide (controller = c)
  | _ => false

/-- The pointer-button events in a trace of events. -/
def mouseButtonEventsOf (events : List Event) : List Event :=
  events.filter
    (fun e =>
      match e with
      | Event.LiSendMouseButtonEvent _ _ => true
      | _ => false)

/-- The arrival events in a trace of events. -/
def arrivalEventsOf (events : List Event) : List Event :=
  events.filter
    (fun e =>
      match e with
      | Event.LiSendControllerArrivalEvent _ _ => true
      | _ => false)

/-- The connected slots whose state, as `handleControllers` builds it in a
tick, differs from the state cached for them before the tick, in order. -/
def changedSlots (P : Platform) (cfg : Settings) (controllersCount : Nat)
    (rawControllers : Nat → ControllerState) (specialKey : Bool) (s : InputState) : List Nat :=
  (List.range controllersCount).filter
    (fun i => decide (getControllerState P cfg s.lastGamepadStates s.mappingButtons
      (rawControllers i) i specialKey ≠ s.lastGamepadStates i))

/-- The last touch with finger id `id` that the touch loop of `handleInput`
processes in a frame: the loop goes through the touches in order and stops for
good at the first touch on a foreign view. -/
def lastTouchFor (id : Int) : List TouchState → Option TouchState
  | [] => none
  | touch :: rest =>
    if touch.foreignView then none
    else
      match lastTouchFor id rest with
      | some later => some later
      | none => if touch.fingerId = id then some touch else none

/-- The pointer events the touch loop of `handleInput` sends after the touch
event of the touch at index `i`: none unless `LiSendTouchEvent` returned
`LI_ERR_UNSUPPORTED` and `i` is 0, otherwise the cursor position (unless the
phase is `NONE`), a left press on `START` and a left release on `END`. -/
def touchFallback (P : Platform) (t : TickInput) (i : Nat) (touch : TouchState) : List Event :=
  if t.touchResult i = P.LI_ERR_UNSUPPORTED ∧ i = 0 then
    (if touch.phase ≠ TouchPhase.NONE then
      [Event.LiSendMousePositionEvent (F32.toShort touch.x) (F32.toShort touch.y)
        (F32.toShort t.contentWidth) (F32.toShort t.contentHeight)]
    else []) ++
    (if touch.phase = TouchPhase.START then
      [Event.LiSendMouseButtonEvent ButtonAction.BUTTON_ACTION_PRESS
        MouseButton.BUTTON_MOUSE_LEFT]
    else []) ++
    (if touch.phase = TouchPhase.END then
      [Event.LiSendMouseButtonEvent ButtonAction.BUTTON_ACTION_RELEASE
        MouseButton.BUTTON_MOUSE_LEFT]
    else [])
  else []

/-- The type of the touch event last sent for pointer `id` after one more
event: the type of a `LiSendTouchEvent` for that pointer, otherwise the one
before. -/
def touchTypeStep (id : Int) (latest : Option TouchEventType) (e : Event) :
    Option TouchEventType :=
  match e with
  | Event.LiSendTouchEvent eventType pointerId _ _ =>
    if pointerId = id then some eventType else latest
  | _ => latest

/-- The type of the touch event last sent for pointer `id` in a trace of
events, `none` when the trace has no touch event for it. -/
def lastTouchEventType (id : Int) (events : List Event) : Option TouchEventType :=
  events.foldl (touchTypeStep id) none

/-- The state and the trace of protocol events after one more call. The rumble
requests, the remap reload and the pan update send no protocol event. -/
def applyCallTrace (P : Platform) (acc : InputState × List Event) :
    ManagerCall → InputState × List Event
  | ManagerCall.handleInput cfg t ignoreTouch =>
    ((handleInput P cfg t ignoreTouch acc.1).1, acc.2 ++ (handleInput P cfg t ignoreTouch acc.1).2)
  | ManagerCall.handleControllers cfg n raws specialKey =>
    ((handleControllers P cfg n raws specialKey acc.1).1,
      acc.2 ++ (handleControllers P cfg n raws specialKey acc.1).2)
  | ManagerCall.dropInput n sendResult =>
    ((dropInput P n sendResult acc.1).1, acc.2 ++ (dropInput P n sendResult acc.1).2)
  | call => (applyCall P acc.1 call, acc.2)

/-- The state and the trace of protocol events after a sequence of calls from
the initial state. -/
def sessionTrace (P : Platform) (calls : List ManagerCall) : InputState × List Event :=
  calls.foldl (applyCallTrace P) (InputState.init, [])

/-- Pointer-button edge detection as the specification words it: for each of
the left, middle and right button, one event when the state `now` differs
from the state `before` (a press when it became true, a release when it
became false) and none otherwise. With `swap_mouse_keys` the left state is
reported on the right protocol button and the right state on the left one. -/
def pointerButtonEdges (cfg : Settings) (now before : MouseStateS) : List Event :=
  (if now.l_pressed ≠ before.l_pressed then
    [Event.LiSendMouseButtonEvent
      (if now.l_pressed then ButtonAction.BUTTON_ACTION_PRESS
        else ButtonAction.BUTTON_ACTION_RELEASE)
      (if cfg.swap_mouse_keys then MouseButton.BUTTON_MOUSE_RIGHT
        else MouseButton.BUTTON_MOUSE_LEFT)]
  else []) ++
  (if now.m_pressed ≠ before.m_pressed then
    [Event.LiSendMouseButtonEvent
      (if now.m_pressed then ButtonAction.BUTTON_ACTION_PRESS
        else ButtonAction.BUTTON_ACTION_RELEASE)
      MouseButton.BUTTON_MOUSE_MIDDLE]
  else []) ++
  (if now.r_pressed ≠ before.r_pressed then
    [Event.LiSendMouseButtonEvent
      (if now.r_pressed then ButtonAction.BUTTON_ACTION_PRESS
        else ButtonAction.BUTTON_ACTION_RELEASE)
      (if cfg.swap_mouse_keys then MouseButton.BUTTON_MOUSE_LEFT
        else MouseButton.BUTTON_MOUSE_RIGHT)]
  else [])

/-- The value of `mouseState` that a `handleInput` call computes. -/
def mouseStateOf (P : Platform) (cfg : Settings) (t : TickInput) (ignoreTouch : Bool)
    (s : InputState) : MouseStateS :=
  computeMouseState P cfg (mapController P s.mappingButtons t.unifiedController) t.mouse
    (specialKeyOf cfg t ignoreTouch)

/-- The pointer-button events of the touch fallback in a `handleInput` tick:
in dedicated touch mode, those of the fallback of the first touch of the frame
unless it is on a foreign view; none with pointer emulation. -/
def fallbackButtonEvents (P : Platform) (cfg : Settings) (t : TickInput) : List Event :=
  if cfg.touchscreen_mouse_mode then
    match t.currentTouchState with
    | [] => []
    | first :: _ =>
      if first.foreignView then [] else mouseButtonEventsOf (touchFallback P t 0 first)
  else []

/-- The case labels of the switch of `glfwKeyToVKKey` with the values they
return, in the order of the source. -/
def keyTable (K : KeyCodes) : List (Int × Int) :=
  [(K.BRLS_KBD_KEY_BACKSPACE, 0x08), (K.BRLS_KBD_KEY_SEMICOLON, 0xBA),
    (K.BRLS_KBD_KEY_EQUAL, 0xBB), (K.BRLS_KBD_KEY_COMMA, 0xBC),
    (K.BRLS_KBD_KEY_MINUS, 0xBD), (K.BRLS_KBD_KEY_PERIOD, 0xBE),
    (K.BRLS_KBD_KEY_WORLD_1, 0xE2), (K.BRLS_KBD_KEY_SLASH, 0xBF),
    (K.BRLS_KBD_KEY_GRAVE_ACCENT, 0xC0), (K.BRLS_KBD_KEY_LEFT_BRACKET, 0xDB),
    (K.BRLS_KBD_KEY_BACKSLASH, 0xDC), (K.BRLS_KBD_KEY_RIGHT_BRACKET, 0xDD),
    (K.BRLS_KBD_KEY_APOSTROPHE, 0xDE), (K.BRLS_KBD_KEY_TAB, 0x09),
    (K.BRLS_KBD_KEY_CAPS_LOCK, 0x14), (K.BRLS_KBD_KEY_LEFT_SHIFT, 0xA0),
    (K.BRLS_KBD_KEY_RIGHT_SHIFT, 0xA1), (K.BRLS_KBD_KEY_LEFT_CONTROL, 0xA2),
    (K.BRLS_KBD_KEY_RIGHT_CONTROL, 0xA3), (K.BRLS_KBD_KEY_LEFT_ALT, 0xA4),
    (K.BRLS_KBD_KEY_RIGHT_ALT, 0xA5), (K.BRLS_KBD_KEY_ENTER, 0x0D),
    (K.BRLS_KBD_KEY_LEFT_SUPER, 0x5B), (K.BRLS_KBD_KEY_RIGHT_SUPER, 0x5C),
    (K.BRLS_KBD_KEY_ESCAPE, 0x1B), (K.BRLS_KBD_KEY_KP_ADD, 0x6B),
    (K.BRLS_KBD_KEY_KP_DECIMAL, 0x6E), (K.BRLS_KBD_KEY_KP_DIVIDE, 0x6F),
    (K.BRLS_KBD_KEY_KP_MULTIPLY, 0x6A), (K.BRLS_KBD_KEY_KP_ENTER, 0x0D),
    (K.BRLS_KBD_KEY_NUM_LOCK, 0x90), (K.BRLS_KBD_KEY_SCROLL_LOCK, 0x91),
    (K.BRLS_KBD_KEY_PAGE_UP, 0x21), (K.BRLS_KBD_KEY_PAGE_DOWN, 0x22),
    (K.BRLS_KBD_KEY_END, 0x23), (K.BRLS_KBD_KEY_HOME, 0x24),
    (K.BRLS_KBD_KEY_LEFT, 0x25), (K.BRLS_KBD_KEY_UP, 0x26),
    (K.BRLS_KBD_KEY_RIGHT, 0x27), (K.BRLS_KBD_KEY_DOWN, 0x28),
    (K.BRLS_KBD_KEY_PRINT_SCREEN, 0x2C), (K.BRLS_KBD_KEY_INSERT, 0x2D),
    (K.BRLS_KBD_KEY_DELETE, 0x2E)]

/-- A switch over a table of case labels: the value of the first label equal
to `key`, the default when no label is. -/
def switchLookup (fallback : Int) (key : Int) : List (Int × Int) → Int
  | [] => fallback
  | (label, value) :: rest => if key = label then value else switchLookup fallback key rest

/-- What the key-code enumeration must satisfy for the text of
`glfwKeyToVKKey` to mean what it says: the function keys and the keypad digits
are contiguous blocks (`F12 = F1 + 11`, `KP_9 = KP_0 + 9`) that do not
overlap, the case labels of the switch are pairwise distinct (C++ demands
it), and no case label lies inside one of the two blocks. -/
def keyCodesWellFormed (K : KeyCodes) : Prop :=
  K.BRLS_KBD_KEY_F12 = K.BRLS_KBD_KEY_F1 + 11 ∧
    K.BRLS_KBD_KEY_KP_9 = K.BRLS_KBD_KEY_KP_0 + 9 ∧
    (K.BRLS_KBD_KEY_F12 < K.BRLS_KBD_KEY_KP_0 ∨ K.BRLS_KBD_KEY_KP_9 < K.BRLS_KBD_KEY_F1) ∧
    ((keyTable K).map Prod.fst).Nodup ∧
    ∀ label ∈ (keyTable K).map Prod.fst,
      ¬ (K.BRLS_KBD_KEY_F1 ≤ label ∧ label ≤ K.BRLS_KBD_KEY_F12) ∧
        ¬ (K.BRLS_KBD_KEY_KP_0 ≤ label ∧ label ≤ K.BRLS_KBD_KEY_KP_9)

/-- The right-hand side of the scroll test of `handleInput`:
`550 - std::fabs(scroll_y) * 500`, in milliseconds. -/
def scrollThreshold (scroll_y : F32) : F32 :=
  F32.sub (F32.ofInt 550) (F32.mul (F32.fabs scroll_y) (F32.ofInt 500))

/-- The formula the specification gives for the trigger byte,
`round(255 × clamp(v, 0, 1))`, on the exact value of the float `v` (in units
of 2^-149, so that 1 is `2 ^ 149`); a half rounds up. -/
def quantizeTriggerSpec (v : F32) : Int :=
  let one : Int := 2 ^ 149
  let clamped : Int := max 0 (min v.toUnits one)
  (2 * 255 * clamped + one) / (2 * one)

/-! ## Example values

Concrete constants and inputs on which the theorems below are evaluated. The
flag values are those of the published `Limelight.h`, the key codes those of
GLFW (which `BrlsKeyboardScancode` mirrors); the button and axis numbers are an
example assignment. -/

def exampleFlags : ButtonFlags where
  A_FLAG := 0x1000
  B_FLAG := 0x2000
  X_FLAG := 0x4000
  Y_FLAG := 0x8000
  UP_FLAG := 0x0001
  DOWN_FLAG := 0x0002
  LEFT_FLAG := 0x0004
  RIGHT_FLAG := 0x0008
  PLAY_FLAG := 0x0010
  BACK_FLAG := 0x0020
  LS_CLK_FLAG := 0x0040
  RS_CLK_FLAG := 0x0080
  LB_FLAG := 0x0100
  RB_FLAG := 0x0200
  SPECIAL_FLAG := 0x0400

def exampleButtons : ControllerButtons where
  BUTTON_LT := 0
  BUTTON_LB := 1
  BUTTON_LSB := 2
  BUTTON_UP := 3
  BUTTON_RIGHT := 4
  BUTTON_DOWN := 5
  BUTTON_LEFT := 6
  BUTTON_BACK := 7
  BUTTON_GUIDE := 8
  BUTTON_START := 9
  BUTTON_RSB := 10
  BUTTON_Y := 11
  BUTTON_B := 12
  BUTTON_A := 13
  BUTTON_X := 14
  BUTTON_RB := 15
  BUTTON_RT := 16
  _BUTTON_MAX := 17

def exampleAxes : ControllerAxes where
  LEFT_X := 0
  LEFT_Y := 1
  RIGHT_X := 2
  RIGHT_Y := 3
  LEFT_Z := 4
  RIGHT_Z := 5
  _AXES_MAX := 6

def exampleKeys : KeyCodes where
  BRLS_KBD_KEY_SPACE := 32
  BRLS_KBD_KEY_LAST := 348
  BRLS_KBD_KEY_F1 := 290
  BRLS_KBD_KEY_F12 := 301
  BRLS_KBD_KEY_KP_0 := 320
  BRLS_KBD_KEY_KP_9 := 329
  BRLS_KBD_KEY_BACKSPACE := 259
  BRLS_KBD_KEY_SEMICOLON := 59
  BRLS_KBD_KEY_EQUAL := 61
  BRLS_KBD_KEY_COMMA := 44
  BRLS_KBD_KEY_MINUS := 45
  BRLS_KBD_KEY_PERIOD := 46
  BRLS_KBD_KEY_WORLD_1 := 161
  BRLS_KBD_KEY_SLASH := 47
  BRLS_KBD_KEY_GRAVE_ACCENT := 96
  BRLS_KBD_KEY_LEFT_BRACKET := 91
  BRLS_KBD_KEY_BACKSLASH := 92
  BRLS_KBD_KEY_RIGHT_BRACKET := 93
  BRLS_KBD_KEY_APOSTROPHE := 39
  BRLS_KBD_KEY_TAB := 258
  BRLS_KBD_KEY_CAPS_LOCK := 280
  BRLS_KBD_KEY_LEFT_SHIFT := 340
  BRLS_KBD_KEY_RIGHT_SHIFT := 344
  BRLS_KBD_KEY_LEFT_CONTROL := 341
  BRLS_KBD_KEY_RIGHT_CONTROL := 345
  BRLS_KBD_KEY_LEFT_ALT := 342
  BRLS_KBD_KEY_RIGHT_ALT := 346
  BRLS_KBD_KEY_ENTER := 257
  BRLS_KBD_KEY_LEFT_SUPER := 343
  BRLS_KBD_KEY_RIGHT_SUPER := 347
  BRLS_KBD_KEY_ESCAPE := 256
  BRLS_KBD_KEY_KP_ADD := 334
  BRLS_KBD_KEY_KP_DECIMAL := 330
  BRLS_KBD_KEY_KP_DIVIDE := 331
  BRLS_KBD_KEY_KP_MULTIPLY := 332
  BRLS_KBD_KEY_KP_ENTER := 335
  BRLS_KBD_KEY_NUM_LOCK := 282
  BRLS_KBD_KEY_SCROLL_LOCK := 281
  BRLS_KBD_KEY_PAGE_UP := 266
  BRLS_KBD_KEY_PAGE_DOWN := 267
  BRLS_KBD_KEY_END := 269
  BRLS_KBD_KEY_HOME := 268
  BRLS_KBD_KEY_LEFT := 263
  BRLS_KBD_KEY_UP := 265
  BRLS_KBD_KEY_RIGHT := 262
  BRLS_KBD_KEY_DOWN := 264
  BRLS_KBD_KEY_PRINT_SCREEN := 283
  BRLS_KBD_KEY_INSERT := 260
  BRLS_KBD_KEY_DELETE := 261

/-- An example platform: a non-Switch build, a nanosecond clock, and for
`std::powf` the correctly rounded square (every call site passes exponent 2). -/
def examplePlatform : Platform where
  flags := exampleFlags
  buttons := exampleButtons
  axes := exampleAxes
  keys := exampleKeys
  isSwitch := false
  LI_ERR_UNSUPPORTED := -5501
  clockTicksPerMs := 1000000
  powf := fun x _ => F32.mul x x

/-- Example settings: no dead zones, the guide combo BACK + START, pointer
emulation (no dedicated touch mode), no swaps, an empty remap layout. -/
def exampleSettings : Settings where
  deadzone_stick_left := F32.zero false
  deadzone_stick_right := F32.zero false
  guide_key_buttons := [7, 9]
  touchscreen_mouse_mode := false
  swap_mouse_scroll := false
  swap_mouse_keys := false
  mouse_speed_multiplier := 100
  rumble_force := ⟨0x3F000000⟩
  mapping := []

/-- A raw controller snapshot with exactly the listed buttons held and all
axes at rest. -/
def heldButtons (held : List Nat) : ControllerState where
  buttons := fun b => decide (b ∈ held)
  axes := fun _ => F32.zero false

/-- The state of the quiescence scenario: touch ids 3 and 7 active and slot 0
cached in the middle of a press on button A. -/
def quiescenceExample : InputState :=
  { InputState.init with
    activeTouchIDs := [3, 7]
    lastGamepadStates := fun _ => ⟨0x1000, 0, 0, 0, 0, 0, 0⟩ }

/-- A tick of the scroll scenario: no controller connected as a gamepad, one
touch point (so pointer emulation is on), the unified controller's vertical
stick axes at `leftY` and `rightY`, and the clock at `timeNow` nanoseconds. -/
def scrollTick (leftY rightY : F32) (timeNow : Int) : TickInput where
  controllersCount := 0
  rawControllers := fun _ => ControllerState.empty
  unifiedController :=
    { buttons := fun _ => false
      axes := fun i => if i = 1 then leftY else if i = 3 then rightY else F32.zero false }
  mouse := ⟨false, false, false⟩
  touchStatesCount := 1
  currentTouchState := []
  contentWidth := F32.ofInt 1280
  contentHeight := F32.ofInt 720
  timeNow := timeNow
  touchResult := fun _ => 0

/-- Settings of the dead-zone example: the left threshold is 0.6, the right
threshold 0. -/
def deadzoneSettings : Settings := { exampleSettings with deadzone_stick_left := ⟨0x3F19999A⟩ }

/-- A controller of the dead-zone example: the left stick at (0.5, 0.25), whose
computed magnitude is about 0.559, and the right stick at (0.5, 0.5). -/
def deadzoneController : ControllerState where
  buttons := fun _ => false
  axes := fun i =>
    if i = 0 then ⟨0x3F000000⟩
    else if i = 1 then ⟨0x3E800000⟩
    else if i = 2 then ⟨0x3F000000⟩
    else if i = 3 then ⟨0x3F000000⟩
    else F32.zero false

/-- Settings of the touch examples: dedicated touch mode. -/
def touchSettings : Settings := { exampleSettings with touchscreen_mouse_mode := true }

/-- A tick of the touch examples: no controller, the touches `touches` on the
streaming view of a 1280 x 720 window, and `result0` returned by
`LiSendTouchEvent` for every touch. -/
def touchTick (touches : List TouchState) (result0 : Int) : TickInput where
  controllersCount := 0
  rawControllers := fun _ => ControllerState.empty
  unifiedController := ControllerState.empty
  mouse := ⟨false, false, false⟩
  touchStatesCount := touches.length
  currentTouchState := touches
  contentWidth := F32.ofInt 1280
  contentHeight := F32.ofInt 720
  timeNow := 0
  touchResult := fun _ => result0

/-- A touch of the touch examples: finger `id` in phase `phase` at (640, 360). -/
def touchAt (id : Int) (phase : TouchPhase) : TouchState :=
  ⟨id, phase, F32.ofInt 640, F32.ofInt 360, false⟩

/-- A tick of the pointer examples: no controller, no touch, the left mouse
button held. -/
def clickTick : TickInput := { touchTick [] 0 with mouse := ⟨true, false, false⟩ }

/-- A raw controller snapshot with no button held, the left trigger axis at
`lz` and the left stick at `(x, y)`. -/
def analogController (lz x y : F32) : ControllerState where
  buttons := fun _ => false
  axes := fun i =>
    if i = 4 then lz else if i = 0 then x else if i = 1 then y else F32.zero false

/-! # Theorems -/

set_option maxRecDepth 16000

/-! ## Auxiliary facts about traces, floats and flags -/

/-- Folding "overwrite entry `i` with `f i`" over the indices below `n` gives
`f` below `n` and leaves the other entries alone. -/
theorem foldl_update_range {β : Type} (f : Nat → β) (init : Nat → β) (n j : Nat) :
    (List.range n).foldl (fun table i => Function.update table i (f i)) init j =
      if j < n then f j else init j := by
  induction n with
  | zero => simp
  | succ n ih =>
    rw [List.range_succ, List.foldl_append]
    simp only [List.foldl_cons, List.foldl_nil]
    by_cases hj : j = n
    · subst hj
      simp
    · rw [Function.update_noteq hj, ih]
      by_cases hlt : j < n
      · simp [hlt, Nat.lt_succ_of_lt hlt]
      · have : ¬ j < n + 1 := by omega
        simp [hlt, this]

/-- A float that is at most `y` is not greater than `y`. -/
theorem f32_gt_eq_false_of_le (x y : F32) (h : F32.le x y = true) : F32.gt x y = false := by
  unfold F32.le at h
  unfold F32.gt F32.lt
  simp only [Bool.and_eq_true, Bool.not_eq_true', Bool.or_eq_false_iff, decide_eq_true_eq] at h
  obtain ⟨⟨hx, hy⟩, hle⟩ := h
  simp only [hx, hy, Bool.or_self, Bool.not_false, Bool.true_and, decide_eq_false_iff_not]
  omega

/-- A float that is at least `y` is not less than `y`. -/
theorem f32_lt_eq_false_of_ge (x y : F32) (h : F32.ge x y = true) : F32.lt x y = false := by
  unfold F32.ge F32.le at h
  unfold F32.lt
  simp only [Bool.and_eq_true, Bool.not_eq_true', Bool.or_eq_false_iff, decide_eq_true_eq] at h
  obtain ⟨⟨hy, hx⟩, hle⟩ := h
  simp only [hx, hy, Bool.or_self, Bool.not_false, Bool.true_and, decide_eq_false_iff_not]
  omega

/-- Setting a flag that is not zero leaves a state that tests positive for it. -/
theorem or_and_self_ne_zero (x k : Nat) (hk : k ≠ 0) : (x ||| k) &&& k ≠ 0 := by
  obtain ⟨i, hi⟩ := Nat.ne_zero_implies_bit_true hk
  intro h0
  have hbit : ((x ||| k) &&& k).testBit i = true := by
    rw [Nat.testBit_and, Nat.testBit_or, hi]
    simp
  rw [h0, Nat.zero_testBit] at hbit
  exact Bool.false_ne_true hbit

/-- Clearing a 32-bit flag leaves a state that tests negative for it. -/
theorem and_complement32_and_self (x k : Nat) (hk : k < 2 ^ 32) :
    (x &&& complement32 k) &&& k = 0 := by
  apply Nat.eq_of_testBit_eq
  intro i
  rw [Nat.zero_testBit, Nat.testBit_and, Nat.testBit_and]
  unfold complement32
  rw [Nat.testBit_xor]
  have hmask : (0xFFFFFFFF : Nat) = 2 ^ 32 - 1 := by norm_num
  rw [hmask, Nat.testBit_two_pow_sub_one]
  by_cases hi : i < 32
  · cases hbit : k.testBit i <;> simp [hi]
  · have hfalse : k.testBit i = false := by
      apply Nat.testBit_lt_two_pow
      calc k < 2 ^ 32 := hk
        _ ≤ 2 ^ i := Nat.pow_le_pow_right (by decide) (by omega)
    simp [hfalse]

/-- The touch events of a concatenated trace. -/
theorem touchEventsOf_append (id : Int) (a b : List Event) :
    touchEventsOf id (a ++ b) = touchEventsOf id a ++ touchEventsOf id b := by
  simp [touchEventsOf]

/-- The controller-state events of a concatenated trace. -/
theorem controllerEventsOf_append (slot : Nat) (a b : List Event) :
    controllerEventsOf slot (a ++ b) = controllerEventsOf slot a ++ controllerEventsOf slot b := by
  simp [controllerEventsOf]

/-- The scroll events of a concatenated trace. -/
theorem scrollEventsOf_append (a b : List Event) :
    scrollEventsOf (a ++ b) = scrollEventsOf a ++ scrollEventsOf b := by
  simp [scrollEventsOf]

/-- A run of events none of which is a touch event has no touch event for any id. -/
theorem touchEventsOf_map_other (id : Int) {α : Type} (l : List α) (f : α → Event)
    (hf : ∀ a ty k x y, f a ≠ Event.LiSendTouchEvent ty k x y) :
    touchEventsOf id (l.map f) = [] := by
  unfold touchEventsOf
  rw [List.filter_eq_nil_iff]
  intro e he
  rw [List.mem_map] at he
  obtain ⟨a, _, rfl⟩ := he
  cases hfa : f a with
  | LiSendTouchEvent ty k x y => exact absurd hfa (hf a ty k x y)
  | _ => simp

/-- A run of events none of which is a controller-state event has none for any slot. -/
theorem controllerEventsOf_map_other (slot : Nat) {α : Type} (l : List α) (f : α → Event)
    (hf : ∀ a i m g, f a ≠ Event.LiSendMultiControllerEvent i m g) :
    controllerEventsOf slot (l.map f) = [] := by
  unfold controllerEventsOf
  rw [List.filter_eq_nil_iff]
  intro e he
  rw [List.mem_map] at he
  obtain ⟨a, _, rfl⟩ := he
  cases hfa : f a with
  | LiSendMultiControllerEvent i m g => exact absurd hfa (hf a i m g)
  | _ => simp

/-- A run of events none of which is a scroll event has no scroll event. -/
theorem scrollEventsOf_map_other {α : Type} (l : List α) (f : α → Event)
    (hf : ∀ a n, f a ≠ Event.LiSendScrollEvent n) :
    scrollEventsOf (l.map f) = [] := by
  unfold scrollEventsOf
  rw [List.filter_eq_nil_iff]
  intro e he
  rw [List.mem_map] at he
  obtain ⟨a, _, rfl⟩ := he
  cases hfa : f a with
  | LiSendScrollEvent n => exact absurd hfa (hf a n)
  | _ => simp

/-- Among the cancels sent for a duplicate-free list of ids, an id has exactly
one touch event when it is in the list and none otherwise. -/
theorem touchEventsOf_cancels (id : Int) (ids : List Int) (hT : ids.Nodup) :
    touchEventsOf id
        (ids.map (fun k => Event.LiSendTouchEvent TouchEventType.LI_TOUCH_EVENT_CANCEL k
          (F32.zero false) (F32.zero false))) =
      if id ∈ ids then
        [Event.LiSendTouchEvent TouchEventType.LI_TOUCH_EVENT_CANCEL id
          (F32.zero false) (F32.zero false)]
      else [] := by
  induction ids with
  | nil => simp [touchEventsOf]
  | cons k ks ih =>
    have hk : k ∉ ks := (List.nodup_cons.mp hT).1
    have ih := ih (List.nodup_cons.mp hT).2
    simp only [touchEventsOf] at ih ⊢
    simp only [List.map_cons, List.filter_cons, List.mem_cons]
    by_cases hid : k = id
    · subst hid
      simp only [decide_True, if_true, true_or]
      rw [ih, if_neg hk]
    · have hid2 : ¬ id = k := fun h => hid h.symm
      simp only [hid, decide_False, hid2, false_or]
      simpa using ih

/-- Among the controller-state events sent for the slots below `n`, a slot has
exactly one when it is below `n` and none otherwise. -/
theorem controllerEventsOf_slots (slot n mask : Nat) (g : GamepadState) :
    controllerEventsOf slot
        ((List.range n).map (fun i => Event.LiSendMultiControllerEvent i mask g)) =
      if slot < n then [Event.LiSendMultiControllerEvent slot mask g] else [] := by
  induction n with
  | zero => simp [controllerEventsOf]
  | succ n ih =>
    rw [List.range_succ, List.map_append, controllerEventsOf_append, ih]
    by_cases hs : slot < n
    · have h1 : slot < n + 1 := Nat.lt_succ_of_lt hs
      have h2 : ¬ n = slot := by omega
      simp [controllerEventsOf, hs, h1, h2]
    · by_cases he : n = slot
      · subst he
        simp [controllerEventsOf]
      · have h1 : ¬ slot < n + 1 := by omega
        simp [controllerEventsOf, hs, h1, he]

/-- The keyboard loop visits every key code from `BRLS_KBD_KEY_SPACE` up to but
not including `BRLS_KBD_KEY_LAST` exactly once, and no other. -/
theorem keyboardRange_count (K : KeyCodes) (key : Int) :
    (keyboardRange K).count key =
      if K.BRLS_KBD_KEY_SPACE ≤ key ∧ key < K.BRLS_KBD_KEY_LAST then 1 else 0 := by
  unfold keyboardRange
  have hnd : ((List.range (K.BRLS_KBD_KEY_LAST - K.BRLS_KBD_KEY_SPACE).toNat).map
      (fun k : Nat => K.BRLS_KBD_KEY_SPACE + (k : Int))).Nodup := by
    apply List.Nodup.map _ (List.nodup_range _)
    intro a b hab
    simp only at hab
    omega
  by_cases hk : K.BRLS_KBD_KEY_SPACE ≤ key ∧ key < K.BRLS_KBD_KEY_LAST
  · rw [if_pos hk]
    apply List.count_eq_one_of_mem hnd
    rw [List.mem_map]
    refine ⟨(key - K.BRLS_KBD_KEY_SPACE).toNat, ?_, ?_⟩
    · rw [List.mem_range]; omega
    · omega
  · rw [if_neg hk]
    apply List.count_eq_zero_of_not_mem
    rw [List.mem_map]
    rintro ⟨k, hk1, hk2⟩
    rw [List.mem_range] at hk1
    apply hk
    omega

/-- Only the controller-state events of the slot matter for the state last
transmitted for it. -/
theorem lastTransmitted_fold_filter (slot : Nat) (b : List Event) :
    ∀ latest : GamepadState,
      b.foldl (latestFor slot) latest = (controllerEventsOf slot b).foldl (latestFor slot) latest := by
  induction b with
  | nil => intro latest; rfl
  | cons e rest ih =>
    intro latest
    unfold controllerEventsOf at ih ⊢
    cases e with
    | LiSendMultiControllerEvent i m g =>
      by_cases hi : i = slot
      · simp only [List.foldl_cons, List.filter_cons, hi, decide_True, if_true, latestFor]
        exact ih g
      · simp only [List.foldl_cons, List.filter_cons, hi, decide_False, if_false, latestFor]
        exact ih latest
    | _ => simpa [List.filter_cons, latestFor] using ih latest

/-- Events that carry no controller state for the slot leave its last
transmitted state alone. -/
theorem lastTransmitted_append_nil (slot : Nat) (a b : List Event)
    (hb : controllerEventsOf slot b = []) :
    lastTransmitted slot (a ++ b) = lastTransmitted slot a := by
  unfold lastTransmitted
  rw [List.foldl_append, lastTransmitted_fold_filter slot b, hb]
  rfl

/-- After a run of events with one controller-state event for the slot, the
state last transmitted for it is the state of that event. -/
theorem lastTransmitted_append_single (slot mask : Nat) (g : GamepadState) (a b : List Event)
    (hb : controllerEventsOf slot b = [Event.LiSendMultiControllerEvent slot mask g]) :
    lastTransmitted slot (a ++ b) = g := by
  unfold lastTransmitted
  rw [List.foldl_append, lastTransmitted_fold_filter slot b, hb]
  simp [latestFor]

/-! ## The snapshot builder -/

/-- The dead-zone test on the left stick, as `truncateDeadZones` performs it. -/
theorem truncateDeadZones_left (P : Platform) (cfg : Settings) (c : ControllerState) :
    ((truncateDeadZones P cfg c).1, (truncateDeadZones P cfg c).2.1) =
      if F32.gt cfg.deadzone_stick_left (F32.zero false) = true ∧
          F32.lt (stickMagnitude P (c.axes P.axes.LEFT_X) (c.axes P.axes.LEFT_Y))
            cfg.deadzone_stick_left = true
      then (F32.zero false, F32.zero false)
      else (c.axes P.axes.LEFT_X, c.axes P.axes.LEFT_Y) := by
  unfold truncateDeadZones
  by_cases h1 : F32.gt cfg.deadzone_stick_left (F32.zero false) = true
  · by_cases h2 : F32.lt (stickMagnitude P (c.axes P.axes.LEFT_X) (c.axes P.axes.LEFT_Y))
        cfg.deadzone_stick_left = true
    · simp [h1, h2]
    · simp [h1, h2]
  · simp [h1]

/-- The dead-zone test on the right stick, as `truncateDeadZones` performs it. -/
theorem truncateDeadZones_right (P : Platform) (cfg : Settings) (c : ControllerState) :
    ((truncateDeadZones P cfg c).2.2.1, (truncateDeadZones P cfg c).2.2.2) =
      if F32.gt cfg.deadzone_stick_right (F32.zero false) = true ∧
          F32.lt (stickMagnitude P (c.axes P.axes.RIGHT_X) (c.axes P.axes.RIGHT_Y))
            cfg.deadzone_stick_right = true
      then (F32.zero false, F32.zero false)
      else (c.axes P.axes.RIGHT_X, c.axes P.axes.RIGHT_Y) := by
  unfold truncateDeadZones
  by_cases h1 : F32.gt cfg.deadzone_stick_right (F32.zero false) = true
  · by_cases h2 : F32.lt (stickMagnitude P (c.axes P.axes.RIGHT_X) (c.axes P.axes.RIGHT_Y))
        cfg.deadzone_stick_right = true
    · simp [h1, h2]
    · simp [h1, h2]
  · simp [h1]

/-- The button flags `getControllerState` returns: the packed buttons, wiped
when the guide combo is held or the cached state has the special flag, then
the special flag set or cleared by the guide. -/
theorem getControllerState_buttonFlags (P : Platform) (cfg : Settings)
    (lastGamepadStates : Nat → GamepadState) (mappingButtons : Nat → Nat)
    (rawController : ControllerState) (controllerNum : Nat) (specialKey : Bool) :
    (getControllerState P cfg lastGamepadStates mappingButtons rawController controllerNum
        specialKey).buttonFlags =
      SET_GAME_PAD_STATE
        (if guideCombo cfg (mapController P mappingButtons rawController) = true ∨
            (lastGamepadStates controllerNum).buttonFlags &&& P.flags.SPECIAL_FLAG ≠ 0
          then 0 else packButtons P (mapController P mappingButtons rawController))
        P.flags.SPECIAL_FLAG
        (guideCombo cfg (mapController P mappingButtons rawController) ||
          (mapController P mappingButtons rawController).buttons P.buttons.BUTTON_GUIDE) := by
  unfold getControllerState
  simp only
  split <;> rfl

/-- The snapshot builder reads the cache only at the slot it is asked for. -/
theorem getControllerState_congr (P : Platform) (cfg : Settings) (L1 L2 : Nat → GamepadState)
    (mappingButtons : Nat → Nat) (raw : ControllerState) (n : Nat) (specialKey : Bool)
    (h : L1 n = L2 n) :
    getControllerState P cfg L1 mappingButtons raw n specialKey =
      getControllerState P cfg L2 mappingButtons raw n specialKey := by
  unfold getControllerState
  rw [h]

/-! ## The diff-and-dispatch loop -/

/-- One iteration of the loop of `handleControllers`: the cache entry of the
slot becomes the freshly built state, the remap table is untouched, and a
controller-state event is added exactly when the built state differs from the
cached one. -/
theorem handleControllersBody_spec (P : Platform) (cfg : Settings) (n : Nat)
    (raws : Nat → ControllerState) (specialKey : Bool) (acc : InputState × List Event)
    (i : Nat) :
    (handleControllersBody P cfg n raws specialKey acc i).1.lastGamepadStates =
        Function.update acc.1.lastGamepadStates i
          (getControllerState P cfg acc.1.lastGamepadStates acc.1.mappingButtons (raws i) i
            specialKey) ∧
      (handleControllersBody P cfg n raws specialKey acc i).1.mappingButtons =
        acc.1.mappingButtons ∧
      ∀ slot, controllerEventsOf slot (handleControllersBody P cfg n raws specialKey acc i).2 =
        controllerEventsOf slot acc.2 ++
          if slot = i ∧
              getControllerState P cfg acc.1.lastGamepadStates acc.1.mappingButtons (raws i) i
                specialKey ≠ acc.1.lastGamepadStates i
          then [Event.LiSendMultiControllerEvent i (controllersToMap n)
            (getControllerState P cfg acc.1.lastGamepadStates acc.1.mappingButtons (raws i) i
              specialKey)]
          else [] := by
  unfold handleControllersBody
  simp only [GamepadState.is_equal]
  by_cases hEq : getControllerState P cfg acc.1.lastGamepadStates acc.1.mappingButtons (raws i) i
      specialKey = acc.1.lastGamepadStates i
  · simp only [hEq, decide_True, Bool.not_true, Bool.false_eq_true, if_false, ne_eq,
      not_true_eq_false, and_false, List.append_nil, Function.update_eq_self, true_and]
    intro slot
    trivial
  · simp only [hEq, decide_False, Bool.not_false, if_true, ne_eq, not_false_eq_true, and_true]
    refine ⟨?_, ?_, ?_⟩
    · split <;> rfl
    · split <;> rfl
    · intro slot
      rw [controllerEventsOf_append, controllerEventsOf_append]
      have harr : controllerEventsOf slot
          (if acc.1.lastControllerCount ≠ n then
            (({ acc.1 with
                  lastGamepadStates := Function.update acc.1.lastGamepadStates i
                    (getControllerState P cfg acc.1.lastGamepadStates acc.1.mappingButtons
                      (raws i) i specialKey),
                  lastControllerCount := n } : InputState),
              (List.range n).map
                (fun j => Event.LiSendControllerArrivalEvent j (controllersToMap n)))
          else
            (({ acc.1 with
                  lastGamepadStates := Function.update acc.1.lastGamepadStates i
                    (getControllerState P cfg acc.1.lastGamepadStates acc.1.mappingButtons
                      (raws i) i specialKey) } : InputState), ([] : List Event))).2 = [] := by
        split
        · exact controllerEventsOf_map_other slot _ _ (by intros; simp)
        · rfl
      rw [harr, List.append_nil]
      congr 1
      by_cases hs : slot = i
      · subst hs
        simp [controllerEventsOf]
      · have hs2 : ¬ i = slot := fun h => hs h.symm
        simp [controllerEventsOf, hs, hs2]

/-- The loop of `handleControllers` over the slots below `k`: every such slot
holds its freshly built state, the later slots and the remap table are
untouched, and a slot has a controller-state event exactly when its built
state differs from the one cached before the call. -/
theorem handleControllers_prefix (P : Platform) (cfg : Settings) (n : Nat)
    (raws : Nat → ControllerState) (specialKey : Bool) (s0 : InputState) (k : Nat) :
    ((List.range k).foldl (handleControllersBody P cfg n raws specialKey)
        (s0, [])).1.mappingButtons = s0.mappingButtons ∧
      (∀ j, ((List.range k).foldl (handleControllersBody P cfg n raws specialKey)
          (s0, [])).1.lastGamepadStates j =
        if j < k then
          getControllerState P cfg s0.lastGamepadStates s0.mappingButtons (raws j) j specialKey
        else s0.lastGamepadStates j) ∧
      ∀ slot, controllerEventsOf slot
          ((List.range k).foldl (handleControllersBody P cfg n raws specialKey) (s0, [])).2 =
        if slot < k ∧
            getControllerState P cfg s0.lastGamepadStates s0.mappingButtons (raws slot) slot
              specialKey ≠ s0.lastGamepadStates slot
        then [Event.LiSendMultiControllerEvent slot (controllersToMap n)
          (getControllerState P cfg s0.lastGamepadStates s0.mappingButtons (raws slot) slot
            specialKey)]
        else [] := by
  induction k with
  | zero =>
    refine ⟨rfl, ?_, ?_⟩
    · intro j; simp
    · intro slot; simp [controllerEventsOf]
  | succ k ih =>
    obtain ⟨ihm, ihc, ihe⟩ := ih
    rw [List.range_succ, List.foldl_append]
    simp only [List.foldl_cons, List.foldl_nil]
    obtain ⟨bc, bm, be⟩ := handleControllersBody_spec P cfg n raws specialKey
      ((List.range k).foldl (handleControllersBody P cfg n raws specialKey) (s0, [])) k
    have hk : ((List.range k).foldl (handleControllersBody P cfg n raws specialKey)
        (s0, [])).1.lastGamepadStates k = s0.lastGamepadStates k := by
      rw [ihc k, if_neg (Nat.lt_irrefl k)]
    have hG : getControllerState P cfg
        ((List.range k).foldl (handleControllersBody P cfg n raws specialKey)
          (s0, [])).1.lastGamepadStates
        ((List.range k).foldl (handleControllersBody P cfg n raws specialKey)
          (s0, [])).1.mappingButtons (raws k) k specialKey =
        getControllerState P cfg s0.lastGamepadStates s0.mappingButtons (raws k) k
          specialKey := by
      rw [ihm]
      exact getControllerState_congr P cfg _ _ _ _ _ _ hk
    rw [hG] at bc be
    rw [hk] at be
    refine ⟨bm.trans ihm, ?_, ?_⟩
    · intro j
      rw [bc]
      by_cases hj : j = k
      · subst hj
        simp
      · rw [Function.update_noteq hj, ihc j]
        by_cases hlt : j < k
        · simp [hlt, Nat.lt_succ_of_lt hlt]
        · have : ¬ j < k + 1 := by omega
          simp [hlt, this]
    · intro slot
      rw [be slot, ihe slot]
      by_cases hs : slot = k
      · subst hs
        simp
      · by_cases hlt : slot < k
        · simp [hs, hlt, Nat.lt_succ_of_lt hlt]
        · have : ¬ slot < k + 1 := by omega
          simp [hs, hlt, this]

/-- The effect of `handleControllers` on the cache, the remap table and the
controller-state events of each slot. -/
theorem handleControllers_spec (P : Platform) (cfg : Settings) (n : Nat)
    (raws : Nat → ControllerState) (specialKey : Bool) (s0 : InputState) :
    (handleControllers P cfg n raws specialKey s0).1.mappingButtons = s0.mappingButtons ∧
      (∀ j, (handleControllers P cfg n raws specialKey s0).1.lastGamepadStates j =
        if j < n then
          getControllerState P cfg s0.lastGamepadStates s0.mappingButtons (raws j) j specialKey
        else s0.lastGamepadStates j) ∧
      ∀ slot, controllerEventsOf slot (handleControllers P cfg n raws specialKey s0).2 =
        if slot < n ∧
            getControllerState P cfg s0.lastGamepadStates s0.mappingButtons (raws slot) slot
              specialKey ≠ s0.lastGamepadStates slot
        then [Event.LiSendMultiControllerEvent slot (controllersToMap n)
          (getControllerState P cfg s0.lastGamepadStates s0.mappingButtons (raws slot) slot
            specialKey)]
        else [] :=
  handleControllers_prefix P cfg n raws specialKey s0 n

/-- One iteration of the loop of `handleControllers` changes no member other
than `lastGamepadStates` and `lastControllerCount`, and sends no scroll event. -/
theorem handleControllersBody_frame (P : Platform) (cfg : Settings) (n : Nat)
    (raws : Nat → ControllerState) (specialKey : Bool) (acc : InputState × List Event)
    (i : Nat) :
    (handleControllersBody P cfg n raws specialKey acc i).1.inputDropped = acc.1.inputDropped ∧
      (handleControllersBody P cfg n raws specialKey acc i).1.rumbleCache = acc.1.rumbleCache ∧
      (handleControllersBody P cfg n raws specialKey acc i).1.activeTouchIDs =
        acc.1.activeTouchIDs ∧
      (handleControllersBody P cfg n raws specialKey acc i).1.panStatus = acc.1.panStatus ∧
      (handleControllersBody P cfg n raws specialKey acc i).1.lastMouseState =
        acc.1.lastMouseState ∧
      (handleControllersBody P cfg n raws specialKey acc i).1.timeStamp = acc.1.timeStamp ∧
      scrollEventsOf (handleControllersBody P cfg n raws specialKey acc i).2 =
        scrollEventsOf acc.2 := by
  unfold handleControllersBody
  simp only
  split
  · split
    · refine ⟨rfl, rfl, rfl, rfl, rfl, rfl, ?_⟩
      rw [scrollEventsOf_append, scrollEventsOf_append,
        scrollEventsOf_map_other _ _ (by intros; simp)]
      simp [scrollEventsOf]
    · refine ⟨rfl, rfl, rfl, rfl, rfl, rfl, ?_⟩
      simp [scrollEventsOf]
  · exact ⟨rfl, rfl, rfl, rfl, rfl, rfl, rfl⟩

/-- The function `handleControllers` changes no member other than
`lastGamepadStates` and `lastControllerCount`, and sends no scroll event. -/
theorem handleControllers_frame (P : Platform) (cfg : Settings) (n : Nat)
    (raws : Nat → ControllerState) (specialKey : Bool) (s : InputState) :
    (handleControllers P cfg n raws specialKey s).1.inputDropped = s.inputDropped ∧
      (handleControllers P cfg n raws specialKey s).1.rumbleCache = s.rumbleCache ∧
      (handleControllers P cfg n raws specialKey s).1.activeTouchIDs = s.activeTouchIDs ∧
      (handleControllers P cfg n raws specialKey s).1.panStatus = s.panStatus ∧
      (handleControllers P cfg n raws specialKey s).1.lastMouseState = s.lastMouseState ∧
      (handleControllers P cfg n raws specialKey s).1.timeStamp = s.timeStamp ∧
      scrollEventsOf (handleControllers P cfg n raws specialKey s).2 = [] := by
  unfold handleControllers
  suffices h : ∀ k,
      ((List.range k).foldl (handleControllersBody P cfg n raws specialKey) (s, [])).1.inputDropped
          = s.inputDropped ∧
        ((List.range k).foldl (handleControllersBody P cfg n raws specialKey) (s, [])).1.rumbleCache
          = s.rumbleCache ∧
        ((List.range k).foldl (handleControllersBody P cfg n raws specialKey)
          (s, [])).1.activeTouchIDs = s.activeTouchIDs ∧
        ((List.range k).foldl (handleControllersBody P cfg n raws specialKey) (s, [])).1.panStatus
          = s.panStatus ∧
        ((List.range k).foldl (handleControllersBody P cfg n raws specialKey)
          (s, [])).1.lastMouseState = s.lastMouseState ∧
        ((List.range k).foldl (handleControllersBody P cfg n raws specialKey) (s, [])).1.timeStamp
          = s.timeStamp ∧
        scrollEventsOf
          ((List.range k).foldl (handleControllersBody P cfg n raws specialKey) (s, [])).2 = [] from
    h n
  intro k
  induction k with
  | zero => exact ⟨rfl, rfl, rfl, rfl, rfl, rfl, rfl⟩
  | succ k ih =>
    rw [List.range_succ, List.foldl_append]
    simp only [List.foldl_cons, List.foldl_nil]
    obtain ⟨b1, b2, b3, b4, b5, b6, b7⟩ := handleControllersBody_frame P cfg n raws specialKey
      ((List.range k).foldl (handleControllersBody P cfg n raws specialKey) (s, [])) k
    obtain ⟨i1, i2, i3, i4, i5, i6, i7⟩ := ih
    exact ⟨b1.trans i1, b2.trans i2, b3.trans i3, b4.trans i4, b5.trans i5, b6.trans i6,
      b7.trans i7⟩

/-- A `handleControllers` tick keeps every cache entry equal to the state last
transmitted for its slot. -/
theorem handleControllers_keeps_cache (P : Platform) (cfg : Settings) (n : Nat)
    (raws : Nat → ControllerState) (specialKey : Bool) (acc : InputState × List Event)
    (hinv : ∀ slot, acc.1.lastGamepadStates slot = lastTransmitted slot acc.2) (slot : Nat) :
    (handleControllers P cfg n raws specialKey acc.1).1.lastGamepadStates slot =
      lastTransmitted slot (acc.2 ++ (handleControllers P cfg n raws specialKey acc.1).2) := by
  obtain ⟨_, hc, he⟩ := handleControllers_spec P cfg n raws specialKey acc.1
  rw [hc slot]
  by_cases hlt : slot < n
  · by_cases hne : getControllerState P cfg acc.1.lastGamepadStates acc.1.mappingButtons
        (raws slot) slot specialKey = acc.1.lastGamepadStates slot
    · have hnil : controllerEventsOf slot (handleControllers P cfg n raws specialKey acc.1).2 =
          [] := by
        rw [he slot, if_neg]
        exact fun h => h.2 hne
      rw [if_pos hlt, lastTransmitted_append_nil slot _ _ hnil, hne, hinv slot]
    · have hone := he slot
      rw [if_pos ⟨hlt, hne⟩] at hone
      rw [if_pos hlt, lastTransmitted_append_single slot _ _ _ _ hone]
  · have hnil : controllerEventsOf slot (handleControllers P cfg n raws specialKey acc.1).2 =
        [] := by
      rw [he slot, if_neg]
      exact fun h => hlt h.1
    rw [if_neg hlt, lastTransmitted_append_nil slot _ _ hnil, hinv slot]

/-- On the diff-and-dispatch path the cache invariant of C1 holds: after any
sequence of `handleControllers` ticks from the initial state, every cache entry
equals the state last transmitted for its slot (the zero state when none was). -/
theorem handleControllers_cache_invariant (P : Platform)
    (ticks : List (Settings × Nat × (Nat → ControllerState) × Bool)) (slot : Nat) :
    (runCalls P (ticks.map (fun c => Call.handleControllers c.1 c.2.1 c.2.2.1 c.2.2.2))
        (InputState.init, [])).1.lastGamepadStates slot =
      lastTransmitted slot
        (runCalls P (ticks.map (fun c => Call.handleControllers c.1 c.2.1 c.2.2.1 c.2.2.2))
          (InputState.init, [])).2 := by
  suffices h : ∀ (ticks : List (Settings × Nat × (Nat → ControllerState) × Bool))
      (acc : InputState × List Event),
      (∀ slot, acc.1.lastGamepadStates slot = lastTransmitted slot acc.2) →
      ∀ slot,
        (runCalls P (ticks.map (fun c => Call.handleControllers c.1 c.2.1 c.2.2.1 c.2.2.2))
            acc).1.lastGamepadStates slot =
          lastTransmitted slot
            (runCalls P (ticks.map (fun c => Call.handleControllers c.1 c.2.1 c.2.2.1 c.2.2.2))
              acc).2 from
    h ticks (InputState.init, []) (fun _ => rfl) slot
  intro ticks
  induction ticks with
  | nil => intro acc hinv slot; exact hinv slot
  | cons c rest ih =>
    intro acc hinv slot
    simp only [List.map_cons, runCalls]
    exact ih
      ((handleControllers P c.1 c.2.1 c.2.2.1 c.2.2.2 acc.1).1,
        acc.2 ++ (handleControllers P c.1 c.2.1 c.2.2.1 c.2.2.2 acc.1).2)
      (fun sl => handleControllers_keeps_cache P c.1 c.2.1 c.2.2.1 c.2.2.2 acc hinv sl) slot

/-! ## The quiescence pass -/

/-- The controller loop of `dropInput` sends one event per slot and keeps
`res` true exactly while every slot reports 0. -/
theorem dropInput_loop (sendResult : Nat → Int) (E : Nat → Event) (n : Nat) :
    (List.range n).foldl
        (fun (acc : Bool × List Event) i => (acc.1 && decide (sendResult i = 0), acc.2 ++ [E i]))
        (true, []) =
      (decide (∀ i, i < n → sendResult i = 0), (List.range n).map E) := by
  induction n with
  | zero => simp
  | succ n ih =>
    rw [List.range_succ, List.foldl_append, ih]
    simp only [List.foldl_cons, List.foldl_nil, List.map_append, List.map_cons, List.map_nil,
      Prod.mk.injEq, and_true]
    rw [Bool.eq_iff_iff]
    simp only [Bool.and_eq_true, decide_eq_true_eq]
    constructor
    · rintro ⟨h, hn⟩ i hi
      rcases Nat.lt_succ_iff_lt_or_eq.mp hi with h1 | h1
      · exact h i h1
      · rw [h1]; exact hn
    · intro h
      exact ⟨fun i hi => h i (Nat.lt_succ_of_lt hi), h n (Nat.lt_succ_self n)⟩

/-- The events of one full quiescence pass over `n` controllers and the
active touch ids `ids`. -/
theorem dropInput_pass (P : Platform) (n : Nat) (sendResult : Nat → Int) (s : InputState)
    (h : s.inputDropped = false) :
    dropInput P n sendResult s =
      ({ s with activeTouchIDs := [], inputDropped := decide (∀ i, i < n → sendResult i = 0) },
        (List.range n).map
            (fun i => Event.LiSendMultiControllerEvent i (controllersToMap n) GamepadState.zero) ++
          [Event.LiSendMouseButtonEvent ButtonAction.BUTTON_ACTION_RELEASE
            MouseButton.BUTTON_MOUSE_LEFT] ++
          s.activeTouchIDs.map
            (fun id => Event.LiSendTouchEvent TouchEventType.LI_TOUCH_EVENT_CANCEL id
              (F32.zero false) (F32.zero false)) ++
          (keyboardRange P.keys).map
            (fun key => Event.LiSendKeyboardEvent (glfwKeyToVKKey P.keys key)
              KeyAction.KEY_ACTION_UP 0)) := by
  unfold dropInput
  rw [if_neg (by simp [h])]
  simp only [dropInput_loop]

/-! ## The remap table -/

/-- The loop of `reloadButtonMappingLayout` writes, at every index, the
layout target when there is one and the index otherwise. -/
theorem reloadButtonMappingLayout_fold (P : Platform) (cfg : Settings) (s : InputState) :
    (reloadButtonMappingLayout P cfg s).mappingButtons =
      (List.range P.buttons._BUTTON_MAX).foldl
        (fun table i => Function.update table i ((cfg.mapping.lookup i).getD i))
        s.mappingButtons := by
  unfold reloadButtonMappingLayout
  simp only
  congr 1
  funext table i
  cases cfg.mapping.lookup i <;> rfl

/-! ## The pointer and scroll dispatch -/

/-- The pointer-button tests send pointer-button events only. -/
theorem mouseButtonEvents_mem (cfg : Settings) (mouseState lastMouseState : MouseStateS)
    (e : Event) (he : e ∈ (mouseButtonEvents cfg mouseState lastMouseState).2) :
    ∃ action button, e = Event.LiSendMouseButtonEvent action button := by
  unfold mouseButtonEvents at he
  simp only at he
  by_cases h1 : mouseState.l_pressed = lastMouseState.l_pressed <;>
    by_cases h2 : mouseState.m_pressed = lastMouseState.m_pressed <;>
    by_cases h3 : mouseState.r_pressed = lastMouseState.r_pressed <;>
    simp [h1, h2, h3] at he
  all_goals first
    | exact ⟨_, _, he⟩
    | (rcases he with he | he <;> exact ⟨_, _, he⟩)
    | (rcases he with he | he | he <;> exact ⟨_, _, he⟩)

/-- The pointer-button tests send no scroll event. -/
theorem mouseButtonEvents_scroll (cfg : Settings) (mouseState lastMouseState : MouseStateS) :
    scrollEventsOf (mouseButtonEvents cfg mouseState lastMouseState).2 = [] := by
  unfold scrollEventsOf
  rw [List.filter_eq_nil_iff]
  intro e he
  obtain ⟨a, b, rfl⟩ := mouseButtonEvents_mem cfg mouseState lastMouseState e he
  simp

/-- The touch loop sends no scroll event. -/
theorem handleTouches_scroll (P : Platform) (t : TickInput) (touches : List TouchState) :
    ∀ (i : Nat) (ids : List Int) (events : List Event),
      scrollEventsOf (handleTouches P t i touches ids events).2 = scrollEventsOf events := by
  induction touches with
  | nil => intro i ids events; rfl
  | cons touch rest ih =>
    intro i ids events
    unfold handleTouches
    split
    · rfl
    · simp only
      rw [ih, scrollEventsOf_append, scrollEventsOf_append]
      have h1 : ∀ e : Event, (∀ n, e ≠ Event.LiSendScrollEvent n) → scrollEventsOf [e] = [] := by
        intro e he
        cases e <;> first | rfl | exact absurd rfl (he _)
      rw [h1 _ (by intros; simp)]
      split
      · rw [scrollEventsOf_append, scrollEventsOf_append]
        have h2 : ∀ (c : Prop) [Decidable c] (e : Event), (∀ n, e ≠ Event.LiSendScrollEvent n) →
            scrollEventsOf (if c then [e] else []) = [] := by
          intro c _ e he
          split
          · exact h1 e he
          · rfl
        rw [h2 _ _ (by intros; simp), h2 _ _ (by intros; simp), h2 _ _ (by intros; simp)]
        simp
      · simp [scrollEventsOf]

/-- The scroll part of `handleInput` on its own. -/
theorem scrollEvents_spec (P : Platform) (timeNow : Int) (mouseState : MouseStateS)
    (timeStamp : Option Int) (lastMouseState : MouseStateS) :
    (scrollEvents P timeNow mouseState timeStamp lastMouseState).1 =
        some (if scrollDue mouseState.scroll_y (scrollDuration P timeNow timeStamp) = true
          then timeNow else timeStamp.getD timeNow) ∧
      (scrollEvents P timeNow mouseState timeStamp lastMouseState).2.2 =
        if scrollDue mouseState.scroll_y (scrollDuration P timeNow timeStamp) = true then
          [Event.LiSendScrollEvent
            (if F32.gt mouseState.scroll_y (F32.zero false) = true then 1 else -1)]
        else [] := by
  unfold scrollEvents
  simp only
  split <;> exact ⟨rfl, rfl⟩

/-- The part of `handleInput` after the scroll test leaves the time stamp
alone and sends no scroll event. -/
theorem handleInputTouch_scroll (P : Platform) (cfg : Settings) (t : TickInput)
    (ignoreTouch : Bool) (acc : InputState × List Event) :
    (handleInputTouch P cfg t ignoreTouch acc).1.timeStamp = acc.1.timeStamp ∧
      scrollEventsOf (handleInputTouch P cfg t ignoreTouch acc).2 = scrollEventsOf acc.2 := by
  unfold handleInputTouch
  simp only
  split
  · split
    · exact ⟨rfl, rfl⟩
    · split
      · refine ⟨rfl, ?_⟩
        rw [scrollEventsOf_append]
        simp [scrollEventsOf]
      · exact ⟨rfl, rfl⟩
  · refine ⟨rfl, ?_⟩
    rw [scrollEventsOf_append, handleTouches_scroll]
    simp [scrollEventsOf]

/-- The part of `handleInput` up to the scroll test: its scroll events and its
time stamp. -/
theorem handleInputPointer_scroll (P : Platform) (cfg : Settings) (t : TickInput)
    (ignoreTouch : Bool) (s : InputState) :
    (handleInputPointer P cfg t ignoreTouch s).1.timeStamp =
        some (if scrollDue (scrollValue P cfg t ignoreTouch s)
            (scrollDuration P t.timeNow s.timeStamp) = true
          then t.timeNow else s.timeStamp.getD t.timeNow) ∧
      scrollEventsOf (handleInputPointer P cfg t ignoreTouch s).2 =
        (if scrollDue (scrollValue P cfg t ignoreTouch s)
            (scrollDuration P t.timeNow s.timeStamp) = true then
          [Event.LiSendScrollEvent
            (if F32.gt (scrollValue P cfg t ignoreTouch s) (F32.zero false) = true then 1 else -1)]
        else []) := by
  obtain ⟨_, _, _, _, _, f6, f7⟩ := handleControllers_frame P cfg t.controllersCount
    t.rawControllers (specialKeyOf cfg t ignoreTouch) { s with inputDropped := false }
  have hstamp : (handleControllers P cfg t.controllersCount t.rawControllers
      (specialKeyOf cfg t ignoreTouch) { s with inputDropped := false }).1.timeStamp =
        s.timeStamp := f6
  unfold handleInputPointer
  simp only [hstamp]
  constructor
  · exact (scrollEvents_spec P t.timeNow _ s.timeStamp _).1
  · rw [scrollEventsOf_append, scrollEventsOf_append, f7, mouseButtonEvents_scroll,
      (scrollEvents_spec P t.timeNow _ s.timeStamp _).2]
    unfold scrollValue
    split <;> simp [scrollEventsOf]

/-! ## The claims -/

/-- C1 fails on the code. One controller holds button A: the first tick sends
the state with `A_FLAG` and caches it. `dropInput` then sends the all-zero
state for slot 0 but leaves the cache alone, so the cache (`A_FLAG`) differs
from the state last transmitted (zero). A further tick with A still held
finds the cache equal to the built state and sends nothing. -/
theorem lastGamepadStates_stale_after_dropInput :
    ((runCalls examplePlatform
        [Call.handleControllers exampleSettings 1 (fun _ => heldButtons [13]) false,
          Call.dropInput 1 (fun _ => 0)]
        (InputState.init, [])).1.lastGamepadStates 0 = ⟨0x1000, 0, 0, 0, 0, 0, 0⟩ ∧
      lastTransmitted 0
        (runCalls examplePlatform
          [Call.handleControllers exampleSettings 1 (fun _ => heldButtons [13]) false,
            Call.dropInput 1 (fun _ => 0)]
          (InputState.init, [])).2 = ⟨0, 0, 0, 0, 0, 0, 0⟩) ∧
    controllerEventsOf 0
      (handleControllers examplePlatform exampleSettings 1 (fun _ => heldButtons [13]) false
        (runCalls examplePlatform
          [Call.handleControllers exampleSettings 1 (fun _ => heldButtons [13]) false,
            Call.dropInput 1 (fun _ => 0)]
          (InputState.init, [])).1).2 = [] := by
  decide

/-- C2. When a slot is connected in two consecutive `handleControllers` ticks
and `getControllerState` builds the same state for it in both, the second tick
sends no controller-state event for that slot and leaves its cache entry
unchanged. -/
theorem handleControllers_diff_dispatch (P : Platform) (cfg1 cfg2 : Settings) (n1 n2 : Nat)
    (raws1 raws2 : Nat → ControllerState) (specialKey1 specialKey2 : Bool) (s0 : InputState)
    (slot : Nat) (h1 : slot < n1) (h2 : slot < n2)
    (hsame :
      getControllerState P cfg2
          (handleControllers P cfg1 n1 raws1 specialKey1 s0).1.lastGamepadStates
          (handleControllers P cfg1 n1 raws1 specialKey1 s0).1.mappingButtons
          (raws2 slot) slot specialKey2 =
        getControllerState P cfg1 s0.lastGamepadStates s0.mappingButtons (raws1 slot) slot
          specialKey1) :
    controllerEventsOf slot
        (handleControllers P cfg2 n2 raws2 specialKey2
          (handleControllers P cfg1 n1 raws1 specialKey1 s0).1).2 = [] ∧
      (handleControllers P cfg2 n2 raws2 specialKey2
          (handleControllers P cfg1 n1 raws1 specialKey1 s0).1).1.lastGamepadStates slot =
        (handleControllers P cfg1 n1 raws1 specialKey1 s0).1.lastGamepadStates slot := by
  obtain ⟨_, c1, _⟩ := handleControllers_spec P cfg1 n1 raws1 specialKey1 s0
  obtain ⟨_, c2, e2⟩ := handleControllers_spec P cfg2 n2 raws2 specialKey2
    (handleControllers P cfg1 n1 raws1 specialKey1 s0).1
  have hcache : (handleControllers P cfg1 n1 raws1 specialKey1 s0).1.lastGamepadStates slot =
      getControllerState P cfg1 s0.lastGamepadStates s0.mappingButtons (raws1 slot) slot
        specialKey1 := by
    rw [c1 slot, if_pos h1]
  constructor
  · rw [e2 slot, if_neg]
    rintro ⟨_, hne⟩
    exact hne (hsame.trans hcache.symm)
  · rw [c2 slot, if_pos h2, hsame, hcache]

/-- C2 on one controller that holds button A through two ticks of a fresh
session. -/
theorem handleControllers_diff_dispatch_witness :
    controllerEventsOf 0
        (handleControllers examplePlatform exampleSettings 1 (fun _ => heldButtons [13]) false
          (handleControllers examplePlatform exampleSettings 1 (fun _ => heldButtons [13]) false
            InputState.init).1).2 = [] ∧
      (handleControllers examplePlatform exampleSettings 1 (fun _ => heldButtons [13]) false
          (handleControllers examplePlatform exampleSettings 1 (fun _ => heldButtons [13]) false
            InputState.init).1).1.lastGamepadStates 0 =
        (handleControllers examplePlatform exampleSettings 1 (fun _ => heldButtons [13]) false
          InputState.init).1.lastGamepadStates 0 :=
  handleControllers_diff_dispatch examplePlatform exampleSettings exampleSettings 1 1
    (fun _ => heldButtons [13]) (fun _ => heldButtons [13]) false false InputState.init 0
    (by decide) (by decide) (by decide)

/-- C3. A `dropInput` call on a state with `inputDropped = false`, `n`
connected controllers and active touch set `T` sends exactly: one
controller-state event per slot below `n`, each carrying the all-zero state;
one release of the left pointer button; one touch-cancel for each id in `T`
and no touch event for any other id; and one key-up per key code from
`BRLS_KBD_KEY_SPACE` up to but not including `BRLS_KBD_KEY_LAST`. Afterwards
the active touch set is empty. -/
theorem dropInput_quiescence_pass (P : Platform) (n : Nat) (sendResult : Nat → Int)
    (s : InputState) (h : s.inputDropped = false) (hT : s.activeTouchIDs.Nodup) :
    (dropInput P n sendResult s).2 =
        (List.range n).map
            (fun i => Event.LiSendMultiControllerEvent i (controllersToMap n)
              ⟨0, 0, 0, 0, 0, 0, 0⟩) ++
          [Event.LiSendMouseButtonEvent ButtonAction.BUTTON_ACTION_RELEASE
            MouseButton.BUTTON_MOUSE_LEFT] ++
          s.activeTouchIDs.map
            (fun id => Event.LiSendTouchEvent TouchEventType.LI_TOUCH_EVENT_CANCEL id
              (F32.zero false) (F32.zero false)) ++
          (keyboardRange P.keys).map
            (fun key => Event.LiSendKeyboardEvent (glfwKeyToVKKey P.keys key)
              KeyAction.KEY_ACTION_UP 0) ∧
      (∀ slot, controllerEventsOf slot (dropInput P n sendResult s).2 =
        if slot < n then
          [Event.LiSendMultiControllerEvent slot (controllersToMap n) ⟨0, 0, 0, 0, 0, 0, 0⟩]
        else []) ∧
      (∀ id, touchEventsOf id (dropInput P n sendResult s).2 =
        if id ∈ s.activeTouchIDs then
          [Event.LiSendTouchEvent TouchEventType.LI_TOUCH_EVENT_CANCEL id
            (F32.zero false) (F32.zero false)]
        else []) ∧
      (∀ key, (keyboardRange P.keys).count key =
        if P.keys.BRLS_KBD_KEY_SPACE ≤ key ∧ key < P.keys.BRLS_KBD_KEY_LAST then 1 else 0) ∧
      (dropInput P n sendResult s).1.activeTouchIDs = [] := by
  rw [dropInput_pass P n sendResult s h]
  refine ⟨rfl, ?_, ?_, keyboardRange_count P.keys, rfl⟩
  · intro slot
    simp only [controllerEventsOf_append]
    rw [controllerEventsOf_map_other slot s.activeTouchIDs _ (by intros; simp),
      controllerEventsOf_map_other slot (keyboardRange P.keys) _ (by intros; simp)]
    have hm : controllerEventsOf slot
        [Event.LiSendMouseButtonEvent ButtonAction.BUTTON_ACTION_RELEASE
          MouseButton.BUTTON_MOUSE_LEFT] = [] := by
      simp [controllerEventsOf]
    rw [hm, List.append_nil, List.append_nil, List.append_nil]
    exact controllerEventsOf_slots slot n (controllersToMap n) GamepadState.zero
  · intro id
    simp only [touchEventsOf_append]
    rw [touchEventsOf_map_other id (List.range n) _ (by intros; simp),
      touchEventsOf_map_other id (keyboardRange P.keys) _ (by intros; simp)]
    have hm : touchEventsOf id
        [Event.LiSendMouseButtonEvent ButtonAction.BUTTON_ACTION_RELEASE
          MouseButton.BUTTON_MOUSE_LEFT] = [] := by
      simp [touchEventsOf]
    rw [hm, List.nil_append, List.nil_append, List.append_nil]
    exact touchEventsOf_cancels id s.activeTouchIDs hT

/-- C3 on the scenario of the specification: active touch ids 3 and 7, one
connected controller in the middle of a press on button A. -/
theorem dropInput_quiescence_pass_witness :
    controllerEventsOf 0 (dropInput examplePlatform 1 (fun _ => 0) quiescenceExample).2 =
        [Event.LiSendMultiControllerEvent 0 1 ⟨0, 0, 0, 0, 0, 0, 0⟩] ∧
      touchEventsOf 3 (dropInput examplePlatform 1 (fun _ => 0) quiescenceExample).2 =
        [Event.LiSendTouchEvent TouchEventType.LI_TOUCH_EVENT_CANCEL 3
          (F32.zero false) (F32.zero false)] ∧
      touchEventsOf 7 (dropInput examplePlatform 1 (fun _ => 0) quiescenceExample).2 =
        [Event.LiSendTouchEvent TouchEventType.LI_TOUCH_EVENT_CANCEL 7
          (F32.zero false) (F32.zero false)] ∧
      touchEventsOf 5 (dropInput examplePlatform 1 (fun _ => 0) quiescenceExample).2 = [] ∧
      (dropInput examplePlatform 1 (fun _ => 0) quiescenceExample).1.activeTouchIDs = [] :=
  have w := dropInput_quiescence_pass examplePlatform 1 (fun _ => 0) quiescenceExample
    (by decide) (by decide)
  ⟨w.2.1 0, w.2.2.1 3, w.2.2.1 7, w.2.2.1 5, w.2.2.2.2⟩

/-- C4. When `dropInput` runs with `inputDropped = false` and every per-slot
transmission succeeds, the next `dropInput` call sends nothing and returns the
state unchanged; in general `dropInput` on a state with `inputDropped = true`
sends nothing and returns the state unchanged. -/
theorem dropInput_idempotent (P : Platform) (n : Nat) (sendResult : Nat → Int)
    (n2 : Nat) (sendResult2 : Nat → Int) (s : InputState) (h : s.inputDropped = false)
    (hall : ∀ i, i < n → sendResult i = 0) :
    dropInput P n2 sendResult2 (dropInput P n sendResult s).1 =
        ((dropInput P n sendResult s).1, []) ∧
      ∀ s2 : InputState, s2.inputDropped = true → dropInput P n2 sendResult2 s2 = (s2, []) := by
  have gen : ∀ s2 : InputState, s2.inputDropped = true →
      dropInput P n2 sendResult2 s2 = (s2, []) := by
    intro s2 h2
    unfold dropInput
    rw [if_pos h2]
  refine ⟨gen _ ?_, gen⟩
  rw [dropInput_pass P n sendResult s h]
  exact decide_eq_true hall

/-- C4 on the scenario of the specification: the second call right after a
successful pass sends nothing. -/
theorem dropInput_idempotent_witness :
    dropInput examplePlatform 1 (fun _ => 0)
        (dropInput examplePlatform 1 (fun _ => 0) quiescenceExample).1 =
      ((dropInput examplePlatform 1 (fun _ => 0) quiescenceExample).1, []) :=
  (dropInput_idempotent examplePlatform 1 (fun _ => 0) 1 (fun _ => 0) quiescenceExample
    (by decide) (by intro i _; rfl)).1

/-- C5. After a `dropInput` call that started with `inputDropped = false`,
`inputDropped` is true exactly when every per-slot
`LiSendMultiControllerEvent` call of the pass returned 0; when some slot's call
returned another value the flag is false, and the next `dropInput` call
performs the whole pass again. -/
theorem dropInput_flag (P : Platform) (n : Nat) (sendResult : Nat → Int) (s : InputState)
    (h : s.inputDropped = false) :
    ((dropInput P n sendResult s).1.inputDropped = true ↔ ∀ i, i < n → sendResult i = 0) ∧
      ((∃ i, i < n ∧ sendResult i ≠ 0) →
        (dropInput P n sendResult s).1.inputDropped = false ∧
        ∀ (n2 : Nat) (sendResult2 : Nat → Int),
          (dropInput P n2 sendResult2 (dropInput P n sendResult s).1).2 =
            (List.range n2).map
                (fun i => Event.LiSendMultiControllerEvent i (controllersToMap n2)
                  ⟨0, 0, 0, 0, 0, 0, 0⟩) ++
              [Event.LiSendMouseButtonEvent ButtonAction.BUTTON_ACTION_RELEASE
                MouseButton.BUTTON_MOUSE_LEFT] ++
              (keyboardRange P.keys).map
                (fun key => Event.LiSendKeyboardEvent (glfwKeyToVKKey P.keys key)
                  KeyAction.KEY_ACTION_UP 0)) := by
  have hflag : (dropInput P n sendResult s).1.inputDropped =
      decide (∀ i, i < n → sendResult i = 0) := by
    rw [dropInput_pass P n sendResult s h]
  constructor
  · rw [hflag, decide_eq_true_eq]
  · rintro ⟨i, hi, hne⟩
    have hfalse : (dropInput P n sendResult s).1.inputDropped = false := by
      rw [hflag, decide_eq_false_iff_not]
      exact fun hall => hne (hall i hi)
    refine ⟨hfalse, ?_⟩
    intro n2 sendResult2
    rw [dropInput_pass P n2 sendResult2 _ hfalse]
    have hids : (dropInput P n sendResult s).1.activeTouchIDs = [] := by
      rw [dropInput_pass P n sendResult s h]
    simp only [hids, List.map_nil, List.append_nil]
    rfl

/-- C5 with two controllers of which the second rejects the release: the flag
stays false. -/
theorem dropInput_flag_witness :
    (dropInput examplePlatform 2 (fun i => if i = 1 then -1 else 0)
      quiescenceExample).1.inputDropped = false :=
  ((dropInput_flag examplePlatform 2 (fun i => if i = 1 then -1 else 0) quiescenceExample
    (by decide)).2 ⟨1, by decide, by decide⟩).1

/-- C6, amended. When the configured guide combo is held, or the native guide
button is held while the cached previous state has the special flag,
`buttonFlags` is exactly `SPECIAL_FLAG`. When only the native guide button is
held and the cached previous state has no special flag, `buttonFlags` is the
flags of the held buttons together with `SPECIAL_FLAG`. The triggers and stick
axes are not touched by the guide: they are all 0 when `specialKey` is set, and
otherwise the quantised trigger and shaped stick values. -/
theorem getControllerState_guide (P : Platform) (cfg : Settings)
    (lastGamepadStates : Nat → GamepadState) (mappingButtons : Nat → Nat)
    (rawController : ControllerState) (controllerNum : Nat) (specialKey : Bool) :
    (guideCombo cfg (mapController P mappingButtons rawController) = true →
      (getControllerState P cfg lastGamepadStates mappingButtons rawController controllerNum
        specialKey).buttonFlags = P.flags.SPECIAL_FLAG) ∧
    ((mapController P mappingButtons rawController).buttons P.buttons.BUTTON_GUIDE = true →
      (lastGamepadStates controllerNum).buttonFlags &&& P.flags.SPECIAL_FLAG ≠ 0 →
      (getControllerState P cfg lastGamepadStates mappingButtons rawController controllerNum
        specialKey).buttonFlags = P.flags.SPECIAL_FLAG) ∧
    ((mapController P mappingButtons rawController).buttons P.buttons.BUTTON_GUIDE = true →
      guideCombo cfg (mapController P mappingButtons rawController) = false →
      (lastGamepadStates controllerNum).buttonFlags &&& P.flags.SPECIAL_FLAG = 0 →
      (getControllerState P cfg lastGamepadStates mappingButtons rawController controllerNum
        specialKey).buttonFlags =
        packButtons P (mapController P mappingButtons rawController) ||| P.flags.SPECIAL_FLAG) ∧
    (specialKey = true →
      (getControllerState P cfg lastGamepadStates mappingButtons rawController controllerNum
        specialKey) =
        { buttonFlags := (getControllerState P cfg lastGamepadStates mappingButtons rawController
            controllerNum specialKey).buttonFlags
          leftTrigger := 0, rightTrigger := 0
          leftStickX := 0, leftStickY := 0, rightStickX := 0, rightStickY := 0 }) ∧
    (specialKey = false →
      (getControllerState P cfg lastGamepadStates mappingButtons rawController controllerNum
        specialKey) =
        { buttonFlags := (getControllerState P cfg lastGamepadStates mappingButtons rawController
            controllerNum specialKey).buttonFlags
          leftTrigger := F32.toUChar (F32.mul (F32.ofInt 0xFF)
            (triggerAxis ((mapController P mappingButtons rawController).axes P.axes.LEFT_Z)
              ((mapController P mappingButtons rawController).buttons P.buttons.BUTTON_LT)))
          rightTrigger := F32.toUChar (F32.mul (F32.ofInt 0xFF)
            (triggerAxis ((mapController P mappingButtons rawController).axes P.axes.RIGHT_Z)
              ((mapController P mappingButtons rawController).buttons P.buttons.BUTTON_RT)))
          leftStickX := F32.toShort (F32.mul (F32.ofInt 0x7FFF)
            (truncateDeadZones P cfg (mapController P mappingButtons rawController)).1)
          leftStickY := F32.toShort (F32.mul (F32.ofInt (-0x7FFF))
            (truncateDeadZones P cfg (mapController P mappingButtons rawController)).2.1)
          rightStickX := F32.toShort (F32.mul (F32.ofInt 0x7FFF)
            (truncateDeadZones P cfg (mapController P mappingButtons rawController)).2.2.1)
          rightStickY := F32.toShort (F32.mul (F32.ofInt (-0x7FFF))
            (truncateDeadZones P cfg (mapController P mappingButtons rawController)).2.2.2) }) := by
  refine ⟨?_, ?_, ?_, ?_, ?_⟩
  · intro hc
    rw [getControllerState_buttonFlags, hc]
    simp [SET_GAME_PAD_STATE]
  · intro hg hl
    rw [getControllerState_buttonFlags, hg]
    simp [SET_GAME_PAD_STATE, hl]
  · intro hg hc hl
    rw [getControllerState_buttonFlags, hg, hc]
    simp [SET_GAME_PAD_STATE, hl]
  · intro hs
    subst hs
    have h255 : F32.toUChar (F32.mul (F32.ofInt 0xFF) (F32.zero false)) = 0 := by decide
    have hpos : F32.toShort (F32.mul (F32.ofInt 0x7FFF) (F32.zero false)) = 0 := by decide
    have hneg : F32.toShort (F32.mul (F32.ofInt (-0x7FFF)) (F32.zero false)) = 0 := by decide
    unfold getControllerState
    simp only [Bool.not_true, Bool.false_eq_true, if_false, h255, hpos, hneg]
    split <;> rfl
  · intro hs
    subst hs
    unfold getControllerState
    simp only [Bool.not_false, if_true]
    split <;> rfl

/-- C6 on the scenario of the specification: guide combo BACK + START
configured, BACK, START and A held. Only the special bit is set and every
trigger and axis is 0. -/
theorem getControllerState_guide_witness :
    guideCombo exampleSettings
        (mapController examplePlatform (fun i => i) (heldButtons [7, 9, 13])) = true ∧
      (getControllerState examplePlatform exampleSettings (fun _ => GamepadState.zero)
        (fun i => i) (heldButtons [7, 9, 13]) 0 false).buttonFlags = 0x0400 :=
  ⟨by decide,
    (getControllerState_guide examplePlatform exampleSettings (fun _ => GamepadState.zero)
      (fun i => i) (heldButtons [7, 9, 13]) 0 false).1 (by decide)⟩

/-- C6 as stated fails. With the guide combo BACK + START held together with
the left trigger button, the special flag is set but the left trigger is 255,
not 0. With the native guide button held together with A, the flags are
`A_FLAG | SPECIAL_FLAG`, not `SPECIAL_FLAG` alone. -/
theorem getControllerState_guide_counterexample :
    (guideCombo exampleSettings
        (mapController examplePlatform (fun i => i) (heldButtons [7, 9, 0])) = true ∧
      getControllerState examplePlatform exampleSettings (fun _ => GamepadState.zero)
        (fun i => i) (heldButtons [7, 9, 0]) 0 false = ⟨0x0400, 255, 0, 0, 0, 0, 0⟩) ∧
    ((mapController examplePlatform (fun i => i) (heldButtons [8, 13])).buttons
        examplePlatform.buttons.BUTTON_GUIDE = true ∧
      getControllerState examplePlatform exampleSettings (fun _ => GamepadState.zero)
        (fun i => i) (heldButtons [8, 13]) 0 false = ⟨0x1400, 0, 0, 0, 0, 0, 0⟩) := by
  decide

/-- C7, amended. For a special flag constant that is a non-zero 32-bit value,
the state `getControllerState` returns has the special flag set exactly when
the guide combo is held or the native guide button is held. A special flag in
the cached previous state does not set it: when neither is held, that flag
only makes the returned `buttonFlags` all zero. -/
theorem getControllerState_special_flag (P : Platform) (cfg : Settings)
    (lastGamepadStates : Nat → GamepadState) (mappingButtons : Nat → Nat)
    (rawController : ControllerState) (controllerNum : Nat) (specialKey : Bool)
    (hS : P.flags.SPECIAL_FLAG ≠ 0) (hS32 : P.flags.SPECIAL_FLAG < 2 ^ 32) :
    ((getControllerState P cfg lastGamepadStates mappingButtons rawController controllerNum
          specialKey).buttonFlags &&& P.flags.SPECIAL_FLAG ≠ 0 ↔
        (guideCombo cfg (mapController P mappingButtons rawController) = true ∨
          (mapController P mappingButtons rawController).buttons P.buttons.BUTTON_GUIDE = true)) ∧
      ((lastGamepadStates controllerNum).buttonFlags &&& P.flags.SPECIAL_FLAG ≠ 0 →
        guideCombo cfg (mapController P mappingButtons rawController) = false →
        (mapController P mappingButtons rawController).buttons P.buttons.BUTTON_GUIDE = false →
        (getControllerState P cfg lastGamepadStates mappingButtons rawController controllerNum
          specialKey).buttonFlags = 0) := by
  constructor
  · rw [getControllerState_buttonFlags]
    by_cases hp : (guideCombo cfg (mapController P mappingButtons rawController) ||
        (mapController P mappingButtons rawController).buttons P.buttons.BUTTON_GUIDE) = true
    · have hor := hp
      rw [Bool.or_eq_true] at hor
      simp only [SET_GAME_PAD_STATE, hp, if_true]
      exact ⟨fun _ => hor, fun _ => or_and_self_ne_zero _ _ hS⟩
    · have hor : ¬ (guideCombo cfg (mapController P mappingButtons rawController) = true ∨
          (mapController P mappingButtons rawController).buttons P.buttons.BUTTON_GUIDE = true) := by
        rw [← Bool.or_eq_true]; exact hp
      have hpf := (Bool.not_eq_true _).mp hp
      simp only [SET_GAME_PAD_STATE, hpf, Bool.false_eq_true, if_false]
      rw [and_complement32_and_self _ _ hS32]
      exact ⟨fun h => absurd rfl h, fun h => absurd h hor⟩
  · intro hl hc hg
    rw [getControllerState_buttonFlags, hc, hg]
    simp [SET_GAME_PAD_STATE, hl]

/-- C7, amended, on a controller holding the native guide button and A. -/
theorem getControllerState_special_flag_witness :
    (getControllerState examplePlatform exampleSettings (fun _ => GamepadState.zero)
      (fun i => i) (heldButtons [8, 13]) 0 false).buttonFlags &&& 0x0400 ≠ 0 :=
  ((getControllerState_special_flag examplePlatform exampleSettings (fun _ => GamepadState.zero)
    (fun i => i) (heldButtons [8, 13]) 0 false (by decide) (by decide)).1).2
    (Or.inr (by decide))

/-- C7 as stated fails. With the special flag in the cached previous state and
neither the guide combo nor the native guide button held (only A is held), the
returned state does not have the special flag: its flags are all zero. -/
theorem getControllerState_special_flag_counterexample :
    ((fun _ : Nat => (⟨0x0400, 0, 0, 0, 0, 0, 0⟩ : GamepadState)) 0).buttonFlags &&&
        examplePlatform.flags.SPECIAL_FLAG ≠ 0 ∧
      (getControllerState examplePlatform exampleSettings (fun _ => ⟨0x0400, 0, 0, 0, 0, 0, 0⟩)
        (fun i => i) (heldButtons [13]) 0 false).buttonFlags &&&
          examplePlatform.flags.SPECIAL_FLAG = 0 := by
  decide

/-- C8. For each stick, with `m` the magnitude `fsqrt_(x² + y²)` and `t` the
threshold of that stick: when `t > 0` and `m < t` the shaped axes are exactly
`(0, 0)`; in every other case, in particular when `m ≥ t` or `t ≤ 0`, they are
`(x, y)` unchanged; and the shaped axes of one stick are determined by that
stick's inputs and threshold alone. -/
theorem truncateDeadZones_hard_cutoff (P : Platform) (cfg : Settings) (c : ControllerState) :
    ((F32.gt cfg.deadzone_stick_left (F32.zero false) = true ∧
        F32.lt (stickMagnitude P (c.axes P.axes.LEFT_X) (c.axes P.axes.LEFT_Y))
          cfg.deadzone_stick_left = true →
      ((truncateDeadZones P cfg c).1, (truncateDeadZones P cfg c).2.1) =
        (F32.zero false, F32.zero false)) ∧
     (¬ (F32.gt cfg.deadzone_stick_left (F32.zero false) = true ∧
        F32.lt (stickMagnitude P (c.axes P.axes.LEFT_X) (c.axes P.axes.LEFT_Y))
          cfg.deadzone_stick_left = true) →
      ((truncateDeadZones P cfg c).1, (truncateDeadZones P cfg c).2.1) =
        (c.axes P.axes.LEFT_X, c.axes P.axes.LEFT_Y)) ∧
     (F32.ge (stickMagnitude P (c.axes P.axes.LEFT_X) (c.axes P.axes.LEFT_Y))
          cfg.deadzone_stick_left = true ∨
        F32.le cfg.deadzone_stick_left (F32.zero false) = true →
      ((truncateDeadZones P cfg c).1, (truncateDeadZones P cfg c).2.1) =
        (c.axes P.axes.LEFT_X, c.axes P.axes.LEFT_Y))) ∧
    ((F32.gt cfg.deadzone_stick_right (F32.zero false) = true ∧
        F32.lt (stickMagnitude P (c.axes P.axes.RIGHT_X) (c.axes P.axes.RIGHT_Y))
          cfg.deadzone_stick_right = true →
      ((truncateDeadZones P cfg c).2.2.1, (truncateDeadZones P cfg c).2.2.2) =
        (F32.zero false, F32.zero false)) ∧
     (¬ (F32.gt cfg.deadzone_stick_right (F32.zero false) = true ∧
        F32.lt (stickMagnitude P (c.axes P.axes.RIGHT_X) (c.axes P.axes.RIGHT_Y))
          cfg.deadzone_stick_right = true) →
      ((truncateDeadZones P cfg c).2.2.1, (truncateDeadZones P cfg c).2.2.2) =
        (c.axes P.axes.RIGHT_X, c.axes P.axes.RIGHT_Y)) ∧
     (F32.ge (stickMagnitude P (c.axes P.axes.RIGHT_X) (c.axes P.axes.RIGHT_Y))
          cfg.deadzone_stick_right = true ∨
        F32.le cfg.deadzone_stick_right (F32.zero false) = true →
      ((truncateDeadZones P cfg c).2.2.1, (truncateDeadZones P cfg c).2.2.2) =
        (c.axes P.axes.RIGHT_X, c.axes P.axes.RIGHT_Y))) ∧
    (∀ (cfg2 : Settings) (c2 : ControllerState),
      c2.axes P.axes.LEFT_X = c.axes P.axes.LEFT_X →
      c2.axes P.axes.LEFT_Y = c.axes P.axes.LEFT_Y →
      cfg2.deadzone_stick_left = cfg.deadzone_stick_left →
      ((truncateDeadZones P cfg2 c2).1, (truncateDeadZones P cfg2 c2).2.1) =
        ((truncateDeadZones P cfg c).1, (truncateDeadZones P cfg c).2.1)) ∧
    (∀ (cfg2 : Settings) (c2 : ControllerState),
      c2.axes P.axes.RIGHT_X = c.axes P.axes.RIGHT_X →
      c2.axes P.axes.RIGHT_Y = c.axes P.axes.RIGHT_Y →
      cfg2.deadzone_stick_right = cfg.deadzone_stick_right →
      ((truncateDeadZones P cfg2 c2).2.2.1, (truncateDeadZones P cfg2 c2).2.2.2) =
        ((truncateDeadZones P cfg c).2.2.1, (truncateDeadZones P cfg c).2.2.2)) := by
  refine ⟨⟨?_, ?_, ?_⟩, ⟨?_, ?_, ?_⟩, ?_, ?_⟩
  · intro h
    rw [truncateDeadZones_left, if_pos h]
  · intro h
    rw [truncateDeadZones_left, if_neg h]
  · intro h
    rw [truncateDeadZones_left, if_neg]
    rintro ⟨h1, h2⟩
    rcases h with h | h
    · rw [f32_lt_eq_false_of_ge _ _ h] at h2
      exact Bool.false_ne_true h2
    · rw [f32_gt_eq_false_of_le _ _ h] at h1
      exact Bool.false_ne_true h1
  · intro h
    rw [truncateDeadZones_right, if_pos h]
  · intro h
    rw [truncateDeadZones_right, if_neg h]
  · intro h
    rw [truncateDeadZones_right, if_neg]
    rintro ⟨h1, h2⟩
    rcases h with h | h
    · rw [f32_lt_eq_false_of_ge _ _ h] at h2
      exact Bool.false_ne_true h2
    · rw [f32_gt_eq_false_of_le _ _ h] at h1
      exact Bool.false_ne_true h1
  · intro cfg2 c2 hx hy ht
    rw [truncateDeadZones_left, truncateDeadZones_left, hx, hy, ht]
  · intro cfg2 c2 hx hy ht
    rw [truncateDeadZones_right, truncateDeadZones_right, hx, hy, ht]

/-- C8 on the left stick at (0.5, 0.25) with threshold 0.6 (magnitude about
0.559, so the stick is zeroed) and the right stick at (0.5, 0.5) with
threshold 0 (passed through). -/
theorem truncateDeadZones_hard_cutoff_witness :
    ((truncateDeadZones examplePlatform deadzoneSettings deadzoneController).1,
        (truncateDeadZones examplePlatform deadzoneSettings deadzoneController).2.1) =
        (F32.zero false, F32.zero false) ∧
      ((truncateDeadZones examplePlatform deadzoneSettings deadzoneController).2.2.1,
        (truncateDeadZones examplePlatform deadzoneSettings deadzoneController).2.2.2) =
        (⟨0x3F000000⟩, ⟨0x3F000000⟩) :=
  ⟨(truncateDeadZones_hard_cutoff examplePlatform deadzoneSettings deadzoneController).1.1
      ⟨by decide, by decide⟩,
    (truncateDeadZones_hard_cutoff examplePlatform deadzoneSettings deadzoneController).2.1.2.2
      (Or.inr (by decide))⟩

/-- C9. After `reloadButtonMappingLayout`, for every button id `i` below
`_BUTTON_MAX` the table entry is the layout's target for `i` when the layout
has the key `i` and `i` itself when it has not, whatever the table held
before. -/
theorem reloadButtonMappingLayout_total (P : Platform) (cfg : Settings) (s : InputState)
    (i : Nat) (hi : i < P.buttons._BUTTON_MAX) :
    (∀ target, cfg.mapping.lookup i = some target →
        (reloadButtonMappingLayout P cfg s).mappingButtons i = target) ∧
      (cfg.mapping.lookup i = none →
        (reloadButtonMappingLayout P cfg s).mappingButtons i = i) ∧
      (∀ previous : InputState,
        (reloadButtonMappingLayout P cfg previous).mappingButtons i =
          (reloadButtonMappingLayout P cfg s).mappingButtons i) := by
  have key : ∀ s0 : InputState,
      (reloadButtonMappingLayout P cfg s0).mappingButtons i = (cfg.mapping.lookup i).getD i := by
    intro s0
    rw [reloadButtonMappingLayout_fold, foldl_update_range]
    simp [hi]
  refine ⟨?_, ?_, ?_⟩
  · intro target h
    rw [key, h]; rfl
  · intro h
    rw [key, h]; rfl
  · intro previous
    rw [key, key]

/-- C9 on a layout that remaps button 13 to 12 and leaves the rest alone,
starting from a table that sent every button to 0. -/
theorem reloadButtonMappingLayout_total_witness :
    (13 : Nat) < examplePlatform.buttons._BUTTON_MAX ∧
      (reloadButtonMappingLayout examplePlatform { exampleSettings with mapping := [(13, 12)] }
        { InputState.init with mappingButtons := fun _ => 0 }).mappingButtons 13 = 12 :=
  ⟨by decide,
    (reloadButtonMappingLayout_total examplePlatform { exampleSettings with mapping := [(13, 12)] }
      { InputState.init with mappingButtons := fun _ => 0 } 13 (by decide)).1 12 (by decide)⟩

/-- C10, amended. A `handleInput` tick that computes the scroll value `v`
sends a scroll event (direction 1 when `v > 0`, otherwise -1) exactly when
`v != 0` and the whole milliseconds elapsed since the stored time stamp,
converted to float, are strictly greater than `550 - |v| * 500`; it sends at
most one. The time stamp is the time of the last scroll event, or of the first
tick while none has been sent: it moves to the current time exactly when a
scroll event is sent. In the first tick of a session and in a tick at the very
time of the stamp the elapsed time is 0. -/
theorem handleInput_scroll_throttle (P : Platform) (cfg : Settings) (t : TickInput)
    (ignoreTouch : Bool) (s : InputState) :
    scrollEventsOf (handleInput P cfg t ignoreTouch s).2 =
        (if scrollDue (scrollValue P cfg t ignoreTouch s)
            (scrollDuration P t.timeNow s.timeStamp) = true then
          [Event.LiSendScrollEvent
            (if F32.gt (scrollValue P cfg t ignoreTouch s) (F32.zero false) = true then 1 else -1)]
        else []) ∧
      (handleInput P cfg t ignoreTouch s).1.timeStamp =
        some (if scrollDue (scrollValue P cfg t ignoreTouch s)
            (scrollDuration P t.timeNow s.timeStamp) = true
          then t.timeNow else s.timeStamp.getD t.timeNow) ∧
      (scrollDue (scrollValue P cfg t ignoreTouch s) (scrollDuration P t.timeNow s.timeStamp) =
        (F32.ne (scrollValue P cfg t ignoreTouch s) (F32.zero false) &&
          F32.gt (F32.ofInt (scrollDuration P t.timeNow s.timeStamp))
            (F32.sub (F32.ofInt 550)
              (F32.mul (F32.fabs (scrollValue P cfg t ignoreTouch s)) (F32.ofInt 500))))) ∧
      (s.timeStamp = none → scrollDuration P t.timeNow s.timeStamp = 0) ∧
      (s.timeStamp = some t.timeNow → scrollDuration P t.timeNow s.timeStamp = 0) := by
  obtain ⟨t1, t2⟩ := handleInputTouch_scroll P cfg t ignoreTouch
    (handleInputPointer P cfg t ignoreTouch s)
  obtain ⟨p1, p2⟩ := handleInputPointer_scroll P cfg t ignoreTouch s
  refine ⟨?_, ?_, rfl, ?_, ?_⟩
  · unfold handleInput
    rw [t2, p2]
  · unfold handleInput
    rw [t1, p1]
  · intro h
    rw [h]
    simp [scrollDuration]
  · intro h
    rw [h]
    simp [scrollDuration]

/-- C10, amended, on the scroll value 0.5 (threshold 300 ms): the first tick
has elapsed time 0, and a tick 301 ms after the stamp sends one scroll event. -/
theorem handleInput_scroll_throttle_witness :
    scrollDuration examplePlatform 5000000000 InputState.init.timeStamp = 0 ∧
      scrollEventsOf
        (handleInput examplePlatform exampleSettings
          (scrollTick ⟨0x3F000000⟩ (F32.zero false) 5301000000) false
          (handleInput examplePlatform exampleSettings
            (scrollTick ⟨0x3F000000⟩ (F32.zero false) 5000000000) false InputState.init).1).2 =
        [Event.LiSendScrollEvent 1] :=
  ⟨(handleInput_scroll_throttle examplePlatform exampleSettings
      (scrollTick ⟨0x3F000000⟩ (F32.zero false) 5000000000) false InputState.init).2.2.2.1 rfl,
    (handleInput_scroll_throttle examplePlatform exampleSettings
      (scrollTick ⟨0x3F000000⟩ (F32.zero false) 5301000000) false
      (handleInput examplePlatform exampleSettings
        (scrollTick ⟨0x3F000000⟩ (F32.zero false) 5000000000) false InputState.init).1).1.trans
      (by decide)⟩

/-- C10 as stated fails in each of its three parts. With the scroll value 0.5
(threshold 300 ms) the first tick of a fresh session sends no scroll event.
With the scroll value 2 (threshold -450 ms) a tick at the very time of the
last scroll event sends another one. With the scroll value 0.5 again, a tick
exactly 300 ms after the last scroll event sends none. -/
theorem handleInput_scroll_throttle_counterexample :
    (scrollValue examplePlatform exampleSettings
        (scrollTick ⟨0x3F000000⟩ (F32.zero false) 5000000000) false InputState.init =
          ⟨0x3F000000⟩ ∧
      scrollEventsOf
        (handleInput examplePlatform exampleSettings
          (scrollTick ⟨0x3F000000⟩ (F32.zero false) 5000000000) false InputState.init).2 = []) ∧
    (scrollEventsOf
        (handleInput examplePlatform exampleSettings
          (scrollTick ⟨0x3F800000⟩ ⟨0x3F800000⟩ 5000000000) false InputState.init).2 =
          [Event.LiSendScrollEvent 1] ∧
      scrollEventsOf
        (handleInput examplePlatform exampleSettings
          (scrollTick ⟨0x3F800000⟩ ⟨0x3F800000⟩ 5000000000) false
          (handleInput examplePlatform exampleSettings
            (scrollTick ⟨0x3F800000⟩ ⟨0x3F800000⟩ 5000000000) false InputState.init).1).2 =
          [Event.LiSendScrollEvent 1]) ∧
    (scrollEventsOf
        (handleInput examplePlatform exampleSettings
          (scrollTick ⟨0x3F000000⟩ (F32.zero false) 5301000000) false
          (handleInput examplePlatform exampleSettings
            (scrollTick ⟨0x3F000000⟩ (F32.zero false) 5000000000) false InputState.init).1).2 =
          [Event.LiSendScrollEvent 1] ∧
      scrollEventsOf
        (handleInput examplePlatform exampleSettings
          (scrollTick ⟨0x3F000000⟩ (F32.zero false) 5601000000) false
          (handleInput examplePlatform exampleSettings
            (scrollTick ⟨0x3F000000⟩ (F32.zero false) 5301000000) false
            (handleInput examplePlatform exampleSettings
              (scrollTick ⟨0x3F000000⟩ (F32.zero false) 5000000000) false
              InputState.init).1).1).2 = []) := by
  decide

/-! ## Rumble -/

/-- The function `handleInput` leaves the rumble cache alone. -/
theorem handleInput_rumbleCache (P : Platform) (cfg : Settings) (t : TickInput)
    (ignoreTouch : Bool) (s : InputState) :
    (handleInput P cfg t ignoreTouch s).1.rumbleCache = s.rumbleCache := by
  obtain ⟨_, f2, _⟩ := handleControllers_frame P cfg t.controllersCount t.rawControllers
    (specialKeyOf cfg t ignoreTouch) { s with inputDropped := false }
  have hp : (handleInputPointer P cfg t ignoreTouch s).1.rumbleCache = s.rumbleCache := by
    unfold handleInputPointer
    exact f2
  unfold handleInput handleInputTouch
  simp only
  split
  · split
    · exact hp
    · split <;> exact hp
  · exact hp

/-- The function `dropInput` leaves the rumble cache alone. -/
theorem dropInput_rumbleCache (P : Platform) (n : Nat) (sendResult : Nat → Int)
    (s : InputState) : (dropInput P n sendResult s).1.rumbleCache = s.rumbleCache := by
  unfold dropInput
  split <;> rfl

/-- A call that is not a main-motor request for slot `c` leaves the low and
high frequency values cached for `c` alone. -/
theorem applyCall_mainMotors (P : Platform) (c : Nat) (s : InputState) (call : ManagerCall)
    (h : isMainMotorRequestFor c call = false) :
    ((applyCall P s call).rumbleCache c).lowFreqMotor = (s.rumbleCache c).lowFreqMotor ∧
      ((applyCall P s call).rumbleCache c).highFreqMotor = (s.rumbleCache c).highFreqMotor := by
  cases call with
  | handleRumble cfg c2 lo hi =>
    have hne : c ≠ c2 := by
      intro heq
      simp [isMainMotorRequestFor, heq] at h
    simp only [applyCall, handleRumble]
    rw [Function.update_noteq hne]
    exact ⟨rfl, rfl⟩
  | handleRumbleTriggers cfg c2 l r =>
    simp only [applyCall, handleRumbleTriggers]
    by_cases hc : c = c2
    · subst hc
      rw [Function.update_same]
      exact ⟨rfl, rfl⟩
    · rw [Function.update_noteq hc]
      exact ⟨rfl, rfl⟩
  | handleInput cfg t ignoreTouch =>
    simp only [applyCall, handleInput_rumbleCache, and_self]
  | handleControllers cfg n raws specialKey =>
    simp only [applyCall, (handleControllers_frame P cfg n raws specialKey s).2.1, and_self]
  | dropInput n sendResult =>
    simp only [applyCall, dropInput_rumbleCache, and_self]
  | reloadButtonMappingLayout cfg => exact ⟨rfl, rfl⟩
  | updateTouchScreenPanDelta pan => exact ⟨rfl, rfl⟩

/-- While no main-motor request is made for slot `c`, the low and high
frequency values cached for `c` stay what they were. -/
theorem runSession_mainMotors (P : Platform) (c : Nat) (calls : List ManagerCall) :
    ∀ s : InputState,
      (∀ call ∈ calls, isMainMotorRequestFor c call = false) →
      ((runSession P calls s).rumbleCache c).lowFreqMotor = (s.rumbleCache c).lowFreqMotor ∧
        ((runSession P calls s).rumbleCache c).highFreqMotor =
          (s.rumbleCache c).highFreqMotor := by
  induction calls with
  | nil => intro s _; exact ⟨rfl, rfl⟩
  | cons call rest ih =>
    intro s h
    have h1 := applyCall_mainMotors P c s call (h call (List.mem_cons_self _ _))
    have h2 := ih (applyCall P s call) (fun x hx => h x (List.mem_cons_of_mem _ hx))
    simp only [runSession, List.foldl_cons] at h2 ⊢
    exact ⟨h2.1.trans h1.1, h2.2.trans h1.2⟩

/-- C11. With one multiplier `m`, `handleRumble(c, lo, hi)` followed by
`handleRumbleTriggers(c, l, r)` forwards the four-parameter command
`(scale lo, scale hi, scale l, scale r)`, where `scale v` is the float product
`v * m` converted to unsigned 16 bits. When no main-motor request was made for
`c` since the start of the session, the low and high values of the command
are 0. -/
theorem handleRumbleTriggers_combined (P : Platform) (cfg : Settings) (c lo hi l r : Nat)
    (s : InputState) :
    (handleRumbleTriggers cfg c l r (handleRumble cfg c lo hi s).1).2 =
        RumbleCommand.sendRumble4 c
          (F32.toUShort (F32.mul (F32.ofInt lo) cfg.rumble_force))
          (F32.toUShort (F32.mul (F32.ofInt hi) cfg.rumble_force))
          (F32.toUShort (F32.mul (F32.ofInt l) cfg.rumble_force))
          (F32.toUShort (F32.mul (F32.ofInt r) cfg.rumble_force)) ∧
      ∀ calls : List ManagerCall,
        (∀ call ∈ calls, isMainMotorRequestFor c call = false) →
        (handleRumbleTriggers cfg c l r (runSession P calls InputState.init)).2 =
          RumbleCommand.sendRumble4 c 0 0
            (F32.toUShort (F32.mul (F32.ofInt l) cfg.rumble_force))
            (F32.toUShort (F32.mul (F32.ofInt r) cfg.rumble_force)) := by
  constructor
  · simp only [handleRumbleTriggers, handleRumble, Function.update_same]
  · intro calls h
    obtain ⟨h1, h2⟩ := runSession_mainMotors P c calls InputState.init h
    simp only [handleRumbleTriggers]
    rw [h1, h2]
    rfl

/-- C11 on the scenario of the specification: multiplier 0.5, `(100, 200)`
then `(50, 60)` on slot 0 gives `(50, 100, 25, 30)`; and after a session with
a main-motor request for slot 1 only, a trigger request for slot 0 carries 0
for low and high. -/
theorem handleRumbleTriggers_combined_witness :
    (handleRumbleTriggers exampleSettings 0 50 60
        (handleRumble exampleSettings 0 100 200 InputState.init).1).2 =
        RumbleCommand.sendRumble4 0 50 100 25 30 ∧
      (handleRumbleTriggers exampleSettings 0 50 60
        (runSession examplePlatform
          [ManagerCall.handleRumble exampleSettings 1 100 200,
            ManagerCall.dropInput 1 (fun _ => 0)] InputState.init)).2 =
        RumbleCommand.sendRumble4 0 0 0 25 30 :=
  ⟨(handleRumbleTriggers_combined examplePlatform exampleSettings 0 100 200 50 60
      InputState.init).1.trans (by decide),
    ((handleRumbleTriggers_combined examplePlatform exampleSettings 0 100 200 50 60
      InputState.init).2 _ (by decide)).trans (by decide)⟩

/-- C12. `handleRumble` leaves the trigger values cached for its slot as they
were, `handleRumbleTriggers` leaves the low and high frequency values cached
for its slot as they were, and neither changes the cache entry of another
slot. -/
theorem rumbleCache_frame (cfg : Settings) (c a b : Nat) (s : InputState) :
    (((handleRumble cfg c a b s).1.rumbleCache c).leftTriggerMotor =
        (s.rumbleCache c).leftTriggerMotor ∧
      ((handleRumble cfg c a b s).1.rumbleCache c).rightTriggerMotor =
        (s.rumbleCache c).rightTriggerMotor) ∧
    (((handleRumbleTriggers cfg c a b s).1.rumbleCache c).lowFreqMotor =
        (s.rumbleCache c).lowFreqMotor ∧
      ((handleRumbleTriggers cfg c a b s).1.rumbleCache c).highFreqMotor =
        (s.rumbleCache c).highFreqMotor) ∧
    ∀ other, other ≠ c →
      (handleRumble cfg c a b s).1.rumbleCache other = s.rumbleCache other ∧
        (handleRumbleTriggers cfg c a b s).1.rumbleCache other = s.rumbleCache other := by
  refine ⟨?_, ?_, ?_⟩
  · simp only [handleRumble, Function.update_same, and_self]
  · simp only [handleRumbleTriggers, Function.update_same, and_self]
  · intro other hne
    simp only [handleRumble, handleRumbleTriggers, Function.update_noteq hne, and_self]

/-- C12 on a cache that holds `(1, 2, 3, 4)` for every slot: a main-motor
request for slot 0 keeps the triggers `(3, 4)` of slot 0 and the whole entry of
slot 1. -/
theorem rumbleCache_frame_witness :
    (handleRumble exampleSettings 0 100 200
        { InputState.init with rumbleCache := fun _ => ⟨1, 2, 3, 4⟩ }).1.rumbleCache 0 =
        ⟨50, 100, 3, 4⟩ ∧
      (handleRumble exampleSettings 0 100 200
        { InputState.init with rumbleCache := fun _ => ⟨1, 2, 3, 4⟩ }).1.rumbleCache 1 =
        ⟨1, 2, 3, 4⟩ :=
  ⟨by decide,
    ((rumbleCache_frame exampleSettings 0 100 200
      { InputState.init with rumbleCache := fun _ => ⟨1, 2, 3, 4⟩ }).2.2 1 (by decide)).1⟩

/-! ## Arrival announcements and the slot mask -/

/-- One iteration of the loop of `handleControllers`, in full: nothing happens
when the built state equals the cached one; otherwise the connected count is
recorded, the arrival events are sent if the recorded count differed, and the
controller-state event follows. -/
theorem handleControllersBody_events (P : Platform) (cfg : Settings) (n : Nat)
    (raws : Nat → ControllerState) (specialKey : Bool) (acc : InputState × List Event)
    (i : Nat) :
    (getControllerState P cfg acc.1.lastGamepadStates acc.1.mappingButtons (raws i) i
          specialKey = acc.1.lastGamepadStates i →
        handleControllersBody P cfg n raws specialKey acc i = acc) ∧
      (getControllerState P cfg acc.1.lastGamepadStates acc.1.mappingButtons (raws i) i
          specialKey ≠ acc.1.lastGamepadStates i →
        (handleControllersBody P cfg n raws specialKey acc i).1.lastControllerCount = n ∧
          (handleControllersBody P cfg n raws specialKey acc i).2 =
            acc.2 ++
              (if acc.1.lastControllerCount ≠ n then
                (List.range n).map
                  (fun j => Event.LiSendControllerArrivalEvent j (controllersToMap n))
              else []) ++
              [Event.LiSendMultiControllerEvent i (controllersToMap n)
                (getControllerState P cfg acc.1.lastGamepadStates acc.1.mappingButtons
                  (raws i) i specialKey)]) := by
  unfold handleControllersBody
  simp only [GamepadState.is_equal]
  constructor
  · intro h
    simp [h]
  · intro h
    simp only [h, decide_False, Bool.not_false, if_true]
    by_cases hc : acc.1.lastControllerCount = n
    · simp [hc]
    · simp [hc]

/-- The slots below `k` whose freshly built state differs from the state cached
before the call, in order. -/
theorem changedSlots_succ (P : Platform) (cfg : Settings) (raws : Nat → ControllerState)
    (specialKey : Bool) (s0 : InputState) (k : Nat) :
    (List.range (k + 1)).filter
        (fun i => decide (getControllerState P cfg s0.lastGamepadStates s0.mappingButtons
          (raws i) i specialKey ≠ s0.lastGamepadStates i)) =
      (List.range k).filter
          (fun i => decide (getControllerState P cfg s0.lastGamepadStates s0.mappingButtons
            (raws i) i specialKey ≠ s0.lastGamepadStates i)) ++
        (if getControllerState P cfg s0.lastGamepadStates s0.mappingButtons (raws k) k
            specialKey ≠ s0.lastGamepadStates k then [k] else []) := by
  rw [List.range_succ, List.filter_append]
  congr 1
  by_cases h : getControllerState P cfg s0.lastGamepadStates s0.mappingButtons (raws k) k
      specialKey = s0.lastGamepadStates k
  · simp [h]
  · simp [h]

/-- The loop of `handleControllers` over the slots below `k`, in full: the
events are the arrival events (when some slot changed and the recorded count
differed from the connected count) followed by one controller-state event per
changed slot; the recorded count becomes the connected count exactly when
some slot changed. -/
theorem handleControllers_prefix_events (P : Platform) (cfg : Settings) (n : Nat)
    (raws : Nat → ControllerState) (specialKey : Bool) (s0 : InputState) (k : Nat) :
    ((List.range k).foldl (handleControllersBody P cfg n raws specialKey) (s0, [])).2 =
        (if (List.range k).filter
              (fun i => decide (getControllerState P cfg s0.lastGamepadStates s0.mappingButtons
                (raws i) i specialKey ≠ s0.lastGamepadStates i)) ≠ [] ∧
            s0.lastControllerCount ≠ n then
          (List.range n).map (fun j => Event.LiSendControllerArrivalEvent j (controllersToMap n))
        else []) ++
          ((List.range k).filter
            (fun i => decide (getControllerState P cfg s0.lastGamepadStates s0.mappingButtons
              (raws i) i specialKey ≠ s0.lastGamepadStates i))).map
            (fun i => Event.LiSendMultiControllerEvent i (controllersToMap n)
              (getControllerState P cfg s0.lastGamepadStates s0.mappingButtons (raws i) i
                specialKey)) ∧
      ((List.range k).foldl (handleControllersBody P cfg n raws specialKey)
          (s0, [])).1.lastControllerCount =
        (if (List.range k).filter
              (fun i => decide (getControllerState P cfg s0.lastGamepadStates s0.mappingButtons
                (raws i) i specialKey ≠ s0.lastGamepadStates i)) ≠ [] then n
          else s0.lastControllerCount) := by
  induction k with
  | zero => simp
  | succ k ih =>
    obtain ⟨ihe, ihc⟩ := ih
    obtain ⟨pm, pc, _⟩ := handleControllers_prefix P cfg n raws specialKey s0 k
    have hk : ((List.range k).foldl (handleControllersBody P cfg n raws specialKey)
        (s0, [])).1.lastGamepadStates k = s0.lastGamepadStates k := by
      rw [pc k, if_neg (Nat.lt_irrefl k)]
    have hG : getControllerState P cfg
        ((List.range k).foldl (handleControllersBody P cfg n raws specialKey)
          (s0, [])).1.lastGamepadStates
        ((List.range k).foldl (handleControllersBody P cfg n raws specialKey)
          (s0, [])).1.mappingButtons (raws k) k specialKey =
        getControllerState P cfg s0.lastGamepadStates s0.mappingButtons (raws k) k
          specialKey := by
      rw [pm]
      exact getControllerState_congr P cfg _ _ _ _ _ _ hk
    obtain ⟨beq, bne⟩ := handleControllersBody_events P cfg n raws specialKey
      ((List.range k).foldl (handleControllersBody P cfg n raws specialKey) (s0, [])) k
    rw [hG, hk] at beq bne
    rw [changedSlots_succ, List.range_succ, List.foldl_append]
    simp only [List.foldl_cons, List.foldl_nil]
    by_cases hch : getControllerState P cfg s0.lastGamepadStates s0.mappingButtons (raws k) k
        specialKey = s0.lastGamepadStates k
    · rw [beq hch, if_neg (not_not.mpr hch), List.append_nil]
      exact ⟨ihe, ihc⟩
    · obtain ⟨b1, b2⟩ := bne hch
      rw [b1, b2, ihe, ihc, if_pos hch]
      generalize (List.range k).filter _ = ch
      cases ch with
      | nil => by_cases hc : s0.lastControllerCount = n <;> simp [hc]
      | cons a l => by_cases hc : s0.lastControllerCount = n <;> simp [hc]

/-- The events of a `handleControllers` tick, in full: the arrival events for
all connected slots when some slot changed and the recorded count differs from
the connected count, then one controller-state event per changed slot. The
recorded count becomes the connected count exactly when some slot changed. -/
theorem handleControllers_events (P : Platform) (cfg : Settings) (n : Nat)
    (raws : Nat → ControllerState) (specialKey : Bool) (s : InputState) :
    (handleControllers P cfg n raws specialKey s).2 =
        (if changedSlots P cfg n raws specialKey s ≠ [] ∧ s.lastControllerCount ≠ n then
          (List.range n).map (fun j => Event.LiSendControllerArrivalEvent j (controllersToMap n))
        else []) ++
          (changedSlots P cfg n raws specialKey s).map
            (fun i => Event.LiSendMultiControllerEvent i (controllersToMap n)
              (getControllerState P cfg s.lastGamepadStates s.mappingButtons (raws i) i
                specialKey)) ∧
      (handleControllers P cfg n raws specialKey s).1.lastControllerCount =
        (if changedSlots P cfg n raws specialKey s ≠ [] then n else s.lastControllerCount) :=
  handleControllers_prefix_events P cfg n raws specialKey s n

/-- Some connected slot changed exactly when the list of changed slots is not
empty. -/
theorem changedSlots_ne_nil (P : Platform) (cfg : Settings) (n : Nat)
    (raws : Nat → ControllerState) (specialKey : Bool) (s : InputState) :
    changedSlots P cfg n raws specialKey s ≠ [] ↔
      ∃ i, i < n ∧
        getControllerState P cfg s.lastGamepadStates s.mappingButtons (raws i) i specialKey ≠
          s.lastGamepadStates i := by
  unfold changedSlots
  rw [Ne, List.filter_eq_nil_iff]
  constructor
  · intro h
    by_contra hno
    apply h
    intro i hi
    rw [List.mem_range] at hi
    simp only [decide_eq_true_eq]
    intro hne
    exact hno ⟨i, hi, hne⟩
  · rintro ⟨i, hi, hne⟩ h
    have := h i (List.mem_range.mpr hi)
    simp only [decide_eq_true_eq] at this
    exact this hne

/-- C13, amended. In a `handleControllers` tick in which the connected count
differs from the recorded count `lastControllerCount` and the state built for
at least one connected slot differs from its cached state, an arrival event is
sent for every connected slot, once and before every controller-state event of
the tick, and the connected count is recorded. In a tick in which no connected
slot's state differs from the cache nothing is sent, whatever the count, and
the recorded count stays. In a tick whose connected count equals the recorded
count no arrival event is sent. -/
theorem handleControllers_arrival (P : Platform) (cfg : Settings) (n : Nat)
    (raws : Nat → ControllerState) (specialKey : Bool) (s : InputState) :
    (s.lastControllerCount ≠ n →
      (∃ i, i < n ∧
        getControllerState P cfg s.lastGamepadStates s.mappingButtons (raws i) i specialKey ≠
          s.lastGamepadStates i) →
      (handleControllers P cfg n raws specialKey s).2 =
          (List.range n).map
              (fun j => Event.LiSendControllerArrivalEvent j (controllersToMap n)) ++
            (changedSlots P cfg n raws specialKey s).map
              (fun i => Event.LiSendMultiControllerEvent i (controllersToMap n)
                (getControllerState P cfg s.lastGamepadStates s.mappingButtons (raws i) i
                  specialKey)) ∧
        (handleControllers P cfg n raws specialKey s).1.lastControllerCount = n) ∧
    ((∀ i, i < n →
        getControllerState P cfg s.lastGamepadStates s.mappingButtons (raws i) i specialKey =
          s.lastGamepadStates i) →
      (handleControllers P cfg n raws specialKey s).2 = [] ∧
        (handleControllers P cfg n raws specialKey s).1.lastControllerCount =
          s.lastControllerCount) ∧
    (s.lastControllerCount = n →
      arrivalEventsOf (handleControllers P cfg n raws specialKey s).2 = []) := by
  obtain ⟨he, hc⟩ := handleControllers_events P cfg n raws specialKey s
  refine ⟨?_, ?_, ?_⟩
  · intro hcount hex
    have hne := (changedSlots_ne_nil P cfg n raws specialKey s).mpr hex
    rw [he, hc, if_pos ⟨hne, hcount⟩, if_pos hne]
    exact ⟨rfl, rfl⟩
  · intro hall
    have hnil : changedSlots P cfg n raws specialKey s = [] := by
      by_contra hne
      obtain ⟨i, hi, hd⟩ := (changedSlots_ne_nil P cfg n raws specialKey s).mp hne
      exact hd (hall i hi)
    rw [he, hc, hnil]
    simp
  · intro hcount
    rw [he, if_neg (fun h => h.2 hcount), List.nil_append]
    unfold arrivalEventsOf
    rw [List.filter_eq_nil_iff]
    intro e hmem
    rw [List.mem_map] at hmem
    obtain ⟨i, _, rfl⟩ := hmem
    simp

/-- C13, amended, on the first tick of a session with one controller holding
button A: the arrival event for slot 0 precedes the controller-state event. -/
theorem handleControllers_arrival_witness :
    (handleControllers examplePlatform exampleSettings 1 (fun _ => heldButtons [13]) false
      InputState.init).2 =
      [Event.LiSendControllerArrivalEvent 0 1,
        Event.LiSendMultiControllerEvent 0 1 ⟨0x1000, 0, 0, 0, 0, 0, 0⟩] :=
  ((handleControllers_arrival examplePlatform exampleSettings 1 (fun _ => heldButtons [13]) false
    InputState.init).1 (by decide) ⟨0, by decide, by decide⟩).1.trans (by decide)

/-- C13 as stated fails. In the first tick of a session one idle controller is
connected: the connected count (1) differs from the count before (0), yet the
tick sends no event at all, and the recorded count stays 0. The arrival event
is sent in a later tick, when the controller's state first changes, although
the connected count no longer differs from that of the tick before. -/
theorem handleControllers_arrival_counterexample :
    (InputState.init.lastControllerCount = 0 ∧
      (handleControllers examplePlatform exampleSettings 1 (fun _ => heldButtons []) false
        InputState.init).2 = [] ∧
      (handleControllers examplePlatform exampleSettings 1 (fun _ => heldButtons []) false
        InputState.init).1.lastControllerCount = 0) ∧
    (handleControllers examplePlatform exampleSettings 1 (fun _ => heldButtons [13]) false
      (handleControllers examplePlatform exampleSettings 1 (fun _ => heldButtons []) false
        InputState.init).1).2 =
      [Event.LiSendControllerArrivalEvent 0 1,
        Event.LiSendMultiControllerEvent 0 1 ⟨0x1000, 0, 0, 0, 0, 0, 0⟩] := by
  decide

/-- C19. For every connected count `n ≥ 1`, `controllersToMap` returns
`2 ^ min n 4 - 1`, that is 1, 3, 7 for 1, 2, 3 and 15 from 4 on, and every
controller-state event a `handleControllers` tick sends carries that mask. -/
theorem controllersToMap_mask (P : Platform) (cfg : Settings) (n : Nat)
    (raws : Nat → ControllerState) (specialKey : Bool) (s : InputState) (hn : 1 ≤ n) :
    controllersToMap n = 2 ^ min n 4 - 1 ∧
      controllersToMap 1 = 1 ∧ controllersToMap 2 = 3 ∧ controllersToMap 3 = 7 ∧
      (4 ≤ n → controllersToMap n = 15) ∧
      ∀ slot mask state,
        Event.LiSendMultiControllerEvent slot mask state ∈
          (handleControllers P cfg n raws specialKey s).2 →
        mask = controllersToMap n := by
  have h4 : ∀ m, 4 ≤ m → controllersToMap m = 15 := by
    intro m hm
    obtain ⟨j, rfl⟩ : ∃ j, m = j + 4 := ⟨m - 4, by omega⟩
    rfl
  refine ⟨?_, rfl, rfl, rfl, h4 n, ?_⟩
  · by_cases hlt : n < 4
    · interval_cases n <;> rfl
    · rw [h4 n (by omega), Nat.min_eq_right (by omega)]
      rfl
  · intro slot mask state hmem
    rw [(handleControllers_events P cfg n raws specialKey s).1, List.mem_append] at hmem
    rcases hmem with hmem | hmem
    · split at hmem
      · rw [List.mem_map] at hmem
        obtain ⟨j, _, hj⟩ := hmem
        exact absurd hj (by simp)
      · exact absurd hmem (List.not_mem_nil _)
    · rw [List.mem_map] at hmem
      obtain ⟨i, _, hi⟩ := hmem
      injection hi with _ hm _
      exact hm.symm

/-- C19 with five controllers connected, the first holding button A: the
mask is 15 and the controller-state event carries it. -/
theorem controllersToMap_mask_witness :
    controllersToMap 5 = 2 ^ min 5 4 - 1 ∧ controllersToMap 5 = 15 ∧
      Event.LiSendMultiControllerEvent 0 15 ⟨0x1000, 0, 0, 0, 0, 0, 0⟩ ∈
        (handleControllers examplePlatform exampleSettings 5
          (fun i => if i = 0 then heldButtons [13] else heldButtons []) false
          InputState.init).2 :=
  ⟨(controllersToMap_mask examplePlatform exampleSettings 5
      (fun i => if i = 0 then heldButtons [13] else heldButtons []) false InputState.init
      (by decide)).1,
    (controllersToMap_mask examplePlatform exampleSettings 5
      (fun i => if i = 0 then heldButtons [13] else heldButtons []) false InputState.init
      (by decide)).2.2.2.2.1 (by decide),
    by decide⟩

/-! ## The touch set -/

/-- The keys of the touch map after an insertion. -/
theorem mem_touchInsert (x id : Int) (ids : List Int) :
    x ∈ touchInsert id ids ↔ x = id ∨ x ∈ ids := by
  induction ids with
  | nil => simp [touchInsert]
  | cons k ks ih =>
    unfold touchInsert
    by_cases h1 : id < k
    · simp [h1]
    · by_cases h2 : id = k
      · subst h2
        simp
      · simp only [h1, h2, if_false, List.mem_cons, ih]
        tauto

/-- The keys of the touch map after a removal. -/
theorem mem_touchErase (x id : Int) (ids : List Int) :
    x ∈ touchErase id ids ↔ x ∈ ids ∧ x ≠ id := by
  simp [touchErase]

/-- The later part of a trace decides the type of the last touch event of a
pointer, unless it has no touch event for that pointer. -/
theorem touchTypeStep_foldl (id : Int) (b : List Event) :
    ∀ latest : Option TouchEventType,
      b.foldl (touchTypeStep id) latest =
        match b.foldl (touchTypeStep id) none with
        | some ty => some ty
        | none => latest := by
  induction b with
  | nil => intro latest; rfl
  | cons e rest ih =>
    intro latest
    simp only [List.foldl_cons]
    rw [ih (touchTypeStep id latest e), ih (touchTypeStep id none e)]
    cases hrest : rest.foldl (touchTypeStep id) none with
    | some ty => rfl
    | none =>
      cases e with
      | LiSendTouchEvent ty p x y =>
        by_cases hp : p = id
        · simp [touchTypeStep, hp]
        · simp [touchTypeStep, hp]
      | _ => rfl

/-- The last touch event of a pointer in a concatenated trace. -/
theorem lastTouchEventType_append (id : Int) (a b : List Event) :
    lastTouchEventType id (a ++ b) =
      match lastTouchEventType id b with
      | some ty => some ty
      | none => lastTouchEventType id a := by
  unfold lastTouchEventType
  rw [List.foldl_append, touchTypeStep_foldl]

/-- A run of events none of which is a touch event has no last touch event. -/
theorem lastTouchEventType_other (id : Int) (b : List Event)
    (hb : ∀ e ∈ b, ∀ ty p x y, e ≠ Event.LiSendTouchEvent ty p x y) :
    lastTouchEventType id b = none := by
  unfold lastTouchEventType
  induction b with
  | nil => rfl
  | cons e rest ih =>
    simp only [List.foldl_cons]
    have he := hb e (List.mem_cons_self _ _)
    have hstep : touchTypeStep id none e = none := by
      cases e with
      | LiSendTouchEvent ty p x y => exact absurd rfl (he ty p x y)
      | _ => rfl
    rw [hstep]
    exact ih (fun e' he' => hb e' (List.mem_cons_of_mem _ he'))

/-- One iteration of the touch loop on a touch that is not on a foreign view:
the id is inserted unless the phase is `NONE`, in which case it is erased; the
touch event is sent, then the fallback pointer events. -/
theorem handleTouches_cons (P : Platform) (t : TickInput) (i : Nat) (touch : TouchState)
    (rest : List TouchState) (ids : List Int) (events : List Event)
    (h : touch.foreignView = false) :
    handleTouches P t i (touch :: rest) ids events =
      handleTouches P t (i + 1) rest
        (if touch.phase ≠ TouchPhase.NONE then touchInsert touch.fingerId ids
          else touchErase touch.fingerId ids)
        (events ++
          [Event.LiSendTouchEvent (touchEventType touch.phase) touch.fingerId
            (F32.div touch.x t.contentWidth) (F32.div touch.y t.contentHeight)] ++
          touchFallback P t i touch) := by
  rw [handleTouches, if_neg (by simp [h])]
  rfl

/-- The fallback of the touch loop sends no touch event. -/
theorem touchFallback_no_touch (P : Platform) (t : TickInput) (i : Nat) (touch : TouchState) :
    ∀ e ∈ touchFallback P t i touch, ∀ ty p x y, e ≠ Event.LiSendTouchEvent ty p x y := by
  intro e he ty p x y
  unfold touchFallback at he
  split at he
  · simp only [List.mem_append] at he
    rcases he with (he | he) | he <;>
      (split at he
       · rw [List.mem_singleton] at he
         rw [he]
         simp
       · exact absurd he (List.not_mem_nil _))
  · exact absurd he (List.not_mem_nil _)

/-- The touch loop of `handleInput`: an id whose last processed touch of the
frame has a phase other than `NONE` is in the set afterwards, one whose last
processed touch has phase `NONE` is not, and an id with no processed touch
keeps its membership; the last touch event sent for an id is the one of its
last processed touch. -/
theorem handleTouches_spec (P : Platform) (t : TickInput) (id : Int)
    (touches : List TouchState) :
    ∀ (i : Nat) (ids : List Int) (events : List Event),
      (∀ touch, lastTouchFor id touches = some touch →
        ((id ∈ (handleTouches P t i touches ids events).1 ↔ touch.phase ≠ TouchPhase.NONE) ∧
          lastTouchEventType id (handleTouches P t i touches ids events).2 =
            some (touchEventType touch.phase))) ∧
      (lastTouchFor id touches = none →
        ((id ∈ (handleTouches P t i touches ids events).1 ↔ id ∈ ids) ∧
          lastTouchEventType id (handleTouches P t i touches ids events).2 =
            lastTouchEventType id events)) := by
  induction touches with
  | nil =>
    intro i ids events
    constructor
    · intro touch h
      simp [lastTouchFor] at h
    · intro _
      exact ⟨Iff.rfl, rfl⟩
  | cons first rest ih =>
    intro i ids events
    by_cases hf : first.foreignView = true
    · have hres : handleTouches P t i (first :: rest) ids events = (ids, events) := by
        rw [handleTouches, if_pos hf]
      have hlast : lastTouchFor id (first :: rest) = none := by
        rw [lastTouchFor, if_pos hf]
      rw [hres, hlast]
      constructor
      · intro touch h
        exact absurd h (by simp)
      · intro _
        exact ⟨Iff.rfl, rfl⟩
    · have hf2 : first.foreignView = false := by simpa using hf
      rw [handleTouches_cons P t i first rest ids events hf2]
      obtain ⟨ih1, ih2⟩ := ih (i + 1)
        (if first.phase ≠ TouchPhase.NONE then touchInsert first.fingerId ids
          else touchErase first.fingerId ids)
        (events ++
          [Event.LiSendTouchEvent (touchEventType first.phase) first.fingerId
            (F32.div first.x t.contentWidth) (F32.div first.y t.contentHeight)] ++
          touchFallback P t i first)
      have hev : lastTouchEventType id
          (events ++
            [Event.LiSendTouchEvent (touchEventType first.phase) first.fingerId
              (F32.div first.x t.contentWidth) (F32.div first.y t.contentHeight)] ++
            touchFallback P t i first) =
          if first.fingerId = id then some (touchEventType first.phase)
          else lastTouchEventType id events := by
        rw [lastTouchEventType_append,
          lastTouchEventType_other id _ (touchFallback_no_touch P t i first),
          lastTouchEventType_append]
        by_cases hid : first.fingerId = id
        · simp [lastTouchEventType, touchTypeStep, hid]
        · simp [lastTouchEventType, touchTypeStep, hid]
      have hlast1 : ∀ later, lastTouchFor id rest = some later →
          lastTouchFor id (first :: rest) = some later := by
        intro later h
        rw [lastTouchFor, if_neg hf, h]
      have hlast2 : lastTouchFor id rest = none →
          lastTouchFor id (first :: rest) =
            if first.fingerId = id then some first else none := by
        intro h
        rw [lastTouchFor, if_neg hf, h]
      cases hrest : lastTouchFor id rest with
      | some later =>
        rw [hlast1 later hrest]
        constructor
        · intro touch h
          simp only [Option.some.injEq] at h
          subst h
          exact ih1 later hrest
        · intro h
          exact absurd h (by simp)
      | none =>
        obtain ⟨m2, e2⟩ := ih2 hrest
        rw [hlast2 hrest, m2, e2, hev]
        by_cases hid : first.fingerId = id
        · rw [if_pos hid, if_pos hid]
          constructor
          · intro touch h
            simp only [Option.some.injEq] at h
            subst h
            refine ⟨?_, rfl⟩
            by_cases hp : first.phase = TouchPhase.NONE
            · simp [hp, hid, mem_touchErase]
            · simp [hp, hid, mem_touchInsert]
          · intro h
            exact absurd h (by simp)
        · rw [if_neg hid, if_neg hid]
          constructor
          · intro touch h
            exact absurd h (by simp)
          · intro _
            refine ⟨?_, rfl⟩
            have hid2 : id ≠ first.fingerId := fun h => hid h.symm
            by_cases hp : first.phase = TouchPhase.NONE
            · simp [hp, hid2, mem_touchErase]
            · simp [hp, hid2, mem_touchInsert]

/-- The part of `handleInput` up to the scroll test sends no touch event and
leaves the touch set alone. -/
theorem handleInputPointer_touch (P : Platform) (cfg : Settings) (t : TickInput)
    (ignoreTouch : Bool) (s : InputState) :
    (handleInputPointer P cfg t ignoreTouch s).1.activeTouchIDs = s.activeTouchIDs ∧
      (handleInputPointer P cfg t ignoreTouch s).1.panStatus = s.panStatus ∧
      ∀ e ∈ (handleInputPointer P cfg t ignoreTouch s).2,
        ∀ ty p x y, e ≠ Event.LiSendTouchEvent ty p x y := by
  obtain ⟨_, _, f3, f4, _, _, _⟩ := handleControllers_frame P cfg t.controllersCount
    t.rawControllers (specialKeyOf cfg t ignoreTouch) { s with inputDropped := false }
  refine ⟨f3, f4, ?_⟩
  intro e he ty p x y
  unfold handleInputPointer at he
  simp only [List.mem_append] at he
  rcases he with (he | he) | he
  · rw [(handleControllers_events P cfg t.controllersCount t.rawControllers
      (specialKeyOf cfg t ignoreTouch) { s with inputDropped := false }).1,
      List.mem_append] at he
    rcases he with he | he
    · split at he
      · rw [List.mem_map] at he
        obtain ⟨j, _, rfl⟩ := he
        simp
      · exact absurd he (List.not_mem_nil _)
    · rw [List.mem_map] at he
      obtain ⟨j, _, rfl⟩ := he
      simp
  · obtain ⟨a, b, rfl⟩ := mouseButtonEvents_mem _ _ _ e he
    simp
  · rw [(scrollEvents_spec P t.timeNow _ _ _).2] at he
    split at he
    · rw [List.mem_singleton] at he
      rw [he]
      simp
    · exact absurd he (List.not_mem_nil _)

/-- In dedicated touch mode, `handleInput` changes the membership of an id in
the touch set by the last processed touch of that id alone, whose touch event
is the last one sent for the id in the tick. -/
theorem handleInput_touchSet (P : Platform) (cfg : Settings) (t : TickInput)
    (ignoreTouch : Bool) (s : InputState) (id : Int)
    (hmode : cfg.touchscreen_mouse_mode = true) :
    (∀ touch, lastTouchFor id t.currentTouchState = some touch →
      ((id ∈ (handleInput P cfg t ignoreTouch s).1.activeTouchIDs ↔
          touch.phase ≠ TouchPhase.NONE) ∧
       lastTouchEventType id (handleInput P cfg t ignoreTouch s).2 =
        some (touchEventType touch.phase))) ∧
    (lastTouchFor id t.currentTouchState = none →
      ((id ∈ (handleInput P cfg t ignoreTouch s).1.activeTouchIDs ↔ id ∈ s.activeTouchIDs) ∧
        lastTouchEventType id (handleInput P cfg t ignoreTouch s).2 = none)) := by
  obtain ⟨p1, _, p3⟩ := handleInputPointer_touch P cfg t ignoreTouch s
  have hids : (handleInput P cfg t ignoreTouch s).1.activeTouchIDs =
      (handleTouches P t 0 t.currentTouchState s.activeTouchIDs []).1 := by
    unfold handleInput handleInputTouch
    simp only [hmode, Bool.not_true, Bool.false_eq_true, if_false, p1]
  have hevs : (handleInput P cfg t ignoreTouch s).2 =
      (handleInputPointer P cfg t ignoreTouch s).2 ++
        (handleTouches P t 0 t.currentTouchState s.activeTouchIDs []).2 := by
    unfold handleInput handleInputTouch
    simp only [hmode, Bool.not_true, Bool.false_eq_true, if_false, p1]
  obtain ⟨h1, h2⟩ := handleTouches_spec P t id t.currentTouchState 0 s.activeTouchIDs []
  constructor
  · intro touch hlast
    obtain ⟨hm, he⟩ := h1 touch hlast
    rw [hids, hevs, lastTouchEventType_append, he]
    exact ⟨hm, rfl⟩
  · intro hlast
    obtain ⟨hm, he⟩ := h2 hlast
    rw [hids, hevs, lastTouchEventType_append, he]
    exact ⟨hm, lastTouchEventType_other id _ p3⟩

/-- With pointer emulation (no dedicated touch mode), `handleInput` leaves the
touch set alone and sends no touch event. -/
theorem handleInput_pointerMode_touch (P : Platform) (cfg : Settings) (t : TickInput)
    (ignoreTouch : Bool) (s : InputState) (id : Int)
    (hmode : cfg.touchscreen_mouse_mode = false) :
    (handleInput P cfg t ignoreTouch s).1.activeTouchIDs = s.activeTouchIDs ∧
      lastTouchEventType id (handleInput P cfg t ignoreTouch s).2 = none := by
  obtain ⟨p1, _, p3⟩ := handleInputPointer_touch P cfg t ignoreTouch s
  unfold handleInput handleInputTouch
  simp only [hmode, Bool.not_false, if_true]
  split
  · exact ⟨p1, lastTouchEventType_other id _ p3⟩
  · split
    · refine ⟨p1, ?_⟩
      rw [lastTouchEventType_append, lastTouchEventType_other id _ p3]
      rfl
    · exact ⟨p1, lastTouchEventType_other id _ p3⟩

/-- The last touch event among the cancels sent for a list of ids. -/
theorem lastTouchEventType_cancels (id : Int) (ids : List Int) :
    lastTouchEventType id
        (ids.map (fun k => Event.LiSendTouchEvent TouchEventType.LI_TOUCH_EVENT_CANCEL k
          (F32.zero false) (F32.zero false))) =
      if id ∈ ids then some TouchEventType.LI_TOUCH_EVENT_CANCEL else none := by
  induction ids with
  | nil => rfl
  | cons k ks ih =>
    have hsplit : (k :: ks).map
        (fun k => Event.LiSendTouchEvent TouchEventType.LI_TOUCH_EVENT_CANCEL k
          (F32.zero false) (F32.zero false)) =
        [Event.LiSendTouchEvent TouchEventType.LI_TOUCH_EVENT_CANCEL k
          (F32.zero false) (F32.zero false)] ++
        ks.map (fun k => Event.LiSendTouchEvent TouchEventType.LI_TOUCH_EVENT_CANCEL k
          (F32.zero false) (F32.zero false)) := rfl
    rw [hsplit, lastTouchEventType_append, ih]
    by_cases hks : id ∈ ks
    · simp [hks]
    · by_cases hk : k = id
      · simp [hks, hk, lastTouchEventType, touchTypeStep]
      · have hk2 : ¬ id = k := fun h => hk h.symm
        simp [hks, hk, hk2, lastTouchEventType, touchTypeStep]

/-- The touch set and the last touch event of an id after `dropInput`. -/
theorem dropInput_touch (P : Platform) (n : Nat) (sendResult : Nat → Int) (s : InputState)
    (id : Int) :
    (s.inputDropped = true →
      (dropInput P n sendResult s).1.activeTouchIDs = s.activeTouchIDs ∧
        lastTouchEventType id (dropInput P n sendResult s).2 = none) ∧
    (s.inputDropped = false →
      (dropInput P n sendResult s).1.activeTouchIDs = [] ∧
        lastTouchEventType id (dropInput P n sendResult s).2 =
          if id ∈ s.activeTouchIDs then some TouchEventType.LI_TOUCH_EVENT_CANCEL else none) := by
  constructor
  · intro h
    unfold dropInput
    rw [if_pos h]
    exact ⟨rfl, rfl⟩
  · intro h
    rw [dropInput_pass P n sendResult s h]
    refine ⟨rfl, ?_⟩
    simp only
    rw [lastTouchEventType_append,
      lastTouchEventType_other id ((keyboardRange P.keys).map _)
        (by intro e he; rw [List.mem_map] at he; obtain ⟨k, _, rfl⟩ := he; simp),
      lastTouchEventType_append, lastTouchEventType_cancels]
    by_cases hid : id ∈ s.activeTouchIDs
    · simp [hid]
    · simp only [hid, if_false]
      apply lastTouchEventType_other
      intro e he
      rw [List.mem_append] at he
      rcases he with he | he
      · rw [List.mem_map] at he
        obtain ⟨k, _, rfl⟩ := he
        simp
      · rw [List.mem_singleton] at he
        rw [he]
        simp

/-- One call keeps the touch set equal to the set of ids whose last touch
event in the trace is not a cancel. -/
theorem applyCallTrace_touchSet (P : Platform) (acc : InputState × List Event)
    (call : ManagerCall) (id : Int)
    (hinv : id ∈ acc.1.activeTouchIDs ↔
      ∃ ty, lastTouchEventType id acc.2 = some ty ∧ ty ≠ TouchEventType.LI_TOUCH_EVENT_CANCEL) :
    id ∈ (applyCallTrace P acc call).1.activeTouchIDs ↔
      ∃ ty, lastTouchEventType id (applyCallTrace P acc call).2 = some ty ∧
        ty ≠ TouchEventType.LI_TOUCH_EVENT_CANCEL := by
  cases call with
  | handleRumble cfg c lo hi => exact hinv
  | handleRumbleTriggers cfg c l r => exact hinv
  | reloadButtonMappingLayout cfg => exact hinv
  | updateTouchScreenPanDelta pan => exact hinv
  | handleControllers cfg n raws specialKey =>
    simp only [applyCallTrace]
    rw [(handleControllers_frame P cfg n raws specialKey acc.1).2.2.1,
      lastTouchEventType_append, lastTouchEventType_other id
        (handleControllers P cfg n raws specialKey acc.1).2]
    · exact hinv
    · intro e he ty p x y
      rw [(handleControllers_events P cfg n raws specialKey acc.1).1, List.mem_append] at he
      rcases he with he | he
      · split at he
        · rw [List.mem_map] at he
          obtain ⟨j, _, rfl⟩ := he
          simp
        · exact absurd he (List.not_mem_nil _)
      · rw [List.mem_map] at he
        obtain ⟨j, _, rfl⟩ := he
        simp
  | dropInput n sendResult =>
    simp only [applyCallTrace]
    obtain ⟨d1, d2⟩ := dropInput_touch P n sendResult acc.1 id
    rw [lastTouchEventType_append]
    cases hd : acc.1.inputDropped with
    | true =>
      rw [(d1 hd).1, (d1 hd).2]
      exact hinv
    | false =>
      rw [(d2 hd).1, (d2 hd).2]
      by_cases hid : id ∈ acc.1.activeTouchIDs
      · simp [hid]
      · simp only [hid, if_false, List.not_mem_nil, false_iff]
        exact fun h => hid (hinv.mpr h)
  | handleInput cfg t ignoreTouch =>
    simp only [applyCallTrace]
    rw [lastTouchEventType_append]
    cases hmode : cfg.touchscreen_mouse_mode with
    | false =>
      obtain ⟨q1, q2⟩ := handleInput_pointerMode_touch P cfg t ignoreTouch acc.1 id hmode
      rw [q1, q2]
      exact hinv
    | true =>
      obtain ⟨q1, q2⟩ := handleInput_touchSet P cfg t ignoreTouch acc.1 id hmode
      cases hlast : lastTouchFor id t.currentTouchState with
      | none =>
        rw [(q2 hlast).1, (q2 hlast).2]
        exact hinv
      | some touch =>
        rw [(q1 touch hlast).1, (q1 touch hlast).2]
        cases hp : touch.phase <;> simp [touchEventType]

/-- Throughout a session the touch set holds exactly the ids whose last
dispatched touch event is a down, a move or an up. -/
theorem sessionTrace_touchSet (P : Platform) (calls : List ManagerCall) (id : Int) :
    id ∈ (sessionTrace P calls).1.activeTouchIDs ↔
      ∃ ty, lastTouchEventType id (sessionTrace P calls).2 = some ty ∧
        ty ≠ TouchEventType.LI_TOUCH_EVENT_CANCEL := by
  unfold sessionTrace
  suffices h : ∀ (calls : List ManagerCall) (acc : InputState × List Event),
      (id ∈ acc.1.activeTouchIDs ↔
        ∃ ty, lastTouchEventType id acc.2 = some ty ∧
          ty ≠ TouchEventType.LI_TOUCH_EVENT_CANCEL) →
      (id ∈ (calls.foldl (applyCallTrace P) acc).1.activeTouchIDs ↔
        ∃ ty, lastTouchEventType id (calls.foldl (applyCallTrace P) acc).2 = some ty ∧
          ty ≠ TouchEventType.LI_TOUCH_EVENT_CANCEL) from
    h calls (InputState.init, []) (by simp [InputState.init, lastTouchEventType])
  intro calls
  induction calls with
  | nil => intro acc hinv; exact hinv
  | cons call rest ih =>
    intro acc hinv
    rw [List.foldl_cons]
    exact ih _ (applyCallTrace_touchSet P acc call id hinv)

/-- C14, amended. In dedicated touch mode, after `handleInput` has gone
through the touches of a frame, an id whose last processed touch had phase
start, move or end (protocol down, move or up) is in `activeTouchIDs`, an id
whose last processed touch had phase none (protocol cancel) is not, and an id
without a processed touch keeps its membership. Hence, throughout a session,
`activeTouchIDs` holds exactly the ids whose last dispatched touch event was
a down, a move or an up. -/
theorem activeTouchIDs_maintenance (P : Platform) (cfg : Settings) (t : TickInput)
    (ignoreTouch : Bool) (s : InputState) (id : Int)
    (hmode : cfg.touchscreen_mouse_mode = true) :
    (∀ touch, lastTouchFor id t.currentTouchState = some touch →
      ((touch.phase = TouchPhase.START ∨ touch.phase = TouchPhase.STAY ∨
          touch.phase = TouchPhase.END →
        id ∈ (handleInput P cfg t ignoreTouch s).1.activeTouchIDs) ∧
       (touch.phase = TouchPhase.NONE →
        id ∉ (handleInput P cfg t ignoreTouch s).1.activeTouchIDs) ∧
       lastTouchEventType id (handleInput P cfg t ignoreTouch s).2 =
        some (touchEventType touch.phase))) ∧
    (lastTouchFor id t.currentTouchState = none →
      ((id ∈ (handleInput P cfg t ignoreTouch s).1.activeTouchIDs ↔ id ∈ s.activeTouchIDs) ∧
        lastTouchEventType id (handleInput P cfg t ignoreTouch s).2 = none)) ∧
    (∀ calls : List ManagerCall,
      (id ∈ (sessionTrace P calls).1.activeTouchIDs ↔
        lastTouchEventType id (sessionTrace P calls).2 =
            some TouchEventType.LI_TOUCH_EVENT_DOWN ∨
          lastTouchEventType id (sessionTrace P calls).2 =
            some TouchEventType.LI_TOUCH_EVENT_MOVE ∨
          lastTouchEventType id (sessionTrace P calls).2 =
            some TouchEventType.LI_TOUCH_EVENT_UP)) := by
  obtain ⟨h1, h2⟩ := handleInput_touchSet P cfg t ignoreTouch s id hmode
  refine ⟨?_, h2, ?_⟩
  · intro touch hlast
    obtain ⟨hm, he⟩ := h1 touch hlast
    refine ⟨?_, ?_, he⟩
    · intro hp
      rw [hm]
      rcases hp with hp | hp | hp <;> rw [hp] <;> decide
    · intro hp
      rw [hm, hp]
      exact fun h => h rfl
  · intro calls
    rw [sessionTrace_touchSet P calls id]
    constructor
    · rintro ⟨ty, hty, hne⟩
      cases ty with
      | LI_TOUCH_EVENT_DOWN => exact Or.inl hty
      | LI_TOUCH_EVENT_MOVE => exact Or.inr (Or.inl hty)
      | LI_TOUCH_EVENT_UP => exact Or.inr (Or.inr hty)
      | LI_TOUCH_EVENT_CANCEL => exact absurd rfl hne
    · rintro (h | h | h)
      · exact ⟨_, h, by decide⟩
      · exact ⟨_, h, by decide⟩
      · exact ⟨_, h, by decide⟩

/-- C14, amended, on a frame with finger 5 moving and finger 6 cancelled,
starting from the set {6}: afterwards 5 is in the set and 6 is not. -/
theorem activeTouchIDs_maintenance_witness :
    5 ∈ (handleInput examplePlatform touchSettings
        (touchTick [touchAt 5 TouchPhase.STAY, touchAt 6 TouchPhase.NONE] 0) false
        { InputState.init with activeTouchIDs := [6] }).1.activeTouchIDs ∧
      6 ∉ (handleInput examplePlatform touchSettings
        (touchTick [touchAt 5 TouchPhase.STAY, touchAt 6 TouchPhase.NONE] 0) false
        { InputState.init with activeTouchIDs := [6] }).1.activeTouchIDs :=
  ⟨((activeTouchIDs_maintenance examplePlatform touchSettings
      (touchTick [touchAt 5 TouchPhase.STAY, touchAt 6 TouchPhase.NONE] 0) false
      { InputState.init with activeTouchIDs := [6] } 5 rfl).1
      (touchAt 5 TouchPhase.STAY) (by decide)).1 (Or.inr (Or.inl rfl)),
    ((activeTouchIDs_maintenance examplePlatform touchSettings
      (touchTick [touchAt 5 TouchPhase.STAY, touchAt 6 TouchPhase.NONE] 0) false
      { InputState.init with activeTouchIDs := [6] } 6 rfl).1
      (touchAt 6 TouchPhase.NONE) (by decide)).2.1 rfl⟩

/-- C14 as stated fails. In dedicated touch mode a touch of finger 5 in phase
end (protocol up) is processed from the empty set: afterwards 5 is a member of
`activeTouchIDs`, although its last dispatched event was an up. -/
theorem activeTouchIDs_maintenance_counterexample :
    touchSettings.touchscreen_mouse_mode = true ∧
    lastTouchEventType 5
        (handleInput examplePlatform touchSettings (touchTick [touchAt 5 TouchPhase.END] 0) false
          InputState.init).2 = some TouchEventType.LI_TOUCH_EVENT_UP ∧
      5 ∈ (handleInput examplePlatform touchSettings (touchTick [touchAt 5 TouchPhase.END] 0)
        false InputState.init).1.activeTouchIDs := by
  decide

/-! ## Keyboard codes -/

/-- The function `glfwKeyToVKKey` is the two range tests followed by the
switch over `keyTable`, with the key itself as the default. -/
theorem glfwKeyToVKKey_eq_switch (K : KeyCodes) (key : Int) :
    glfwKeyToVKKey K key =
      if K.BRLS_KBD_KEY_F1 ≤ key ∧ key ≤ K.BRLS_KBD_KEY_F12 then
        toShortInt (key - K.BRLS_KBD_KEY_F1 + 0x70)
      else if K.BRLS_KBD_KEY_KP_0 ≤ key ∧ key ≤ K.BRLS_KBD_KEY_KP_9 then
        toShortInt (key - K.BRLS_KBD_KEY_KP_0 + 0x60)
      else switchLookup (toShortInt key) key (keyTable K) := by
  rfl

/-- A switch returns the value of a label of its table when the labels are
pairwise distinct. -/
theorem switchLookup_mem (fallback : Int) (table : List (Int × Int))
    (hnd : (table.map Prod.fst).Nodup) (label value : Int) (hmem : (label, value) ∈ table) :
    switchLookup fallback label table = value := by
  induction table with
  | nil => exact absurd hmem (List.not_mem_nil _)
  | cons entry rest ih =>
    obtain ⟨l, v⟩ := entry
    rw [List.map_cons, List.nodup_cons] at hnd
    unfold switchLookup
    rcases List.mem_cons.mp hmem with heq | hrest
    · injection heq with h1 h2
      rw [if_pos h1, h2]
    · have hne : label ≠ l := by
        intro heq
        apply hnd.1
        rw [← heq]
        exact List.mem_map.mpr ⟨(label, value), hrest, rfl⟩
      rw [if_neg hne]
      exact ih hnd.2 hrest

/-- A switch returns its default for a key that is none of its labels. -/
theorem switchLookup_not_mem (fallback key : Int) (table : List (Int × Int))
    (hkey : key ∉ table.map Prod.fst) : switchLookup fallback key table = fallback := by
  induction table with
  | nil => rfl
  | cons entry rest ih =>
    obtain ⟨l, v⟩ := entry
    rw [List.map_cons, List.mem_cons, not_or] at hkey
    unfold switchLookup
    rw [if_neg hkey.1]
    exact ih hkey.2

/-- C15. For a key-code enumeration whose function-key and keypad blocks are
contiguous and apart and whose switch labels are distinct and outside the two
blocks, `glfwKeyToVKKey` (a total function) sends `F1 + k` to `0x70 + k` for
`0 ≤ k ≤ 11`, `KP_0 + k` to `0x60 + k` for `0 ≤ k ≤ 9`, every label of the
switch to its table value, and every other key code, which like all values of
the enumeration fits in a short, to its own numeric value. -/
theorem glfwKeyToVKKey_total (K : KeyCodes) (hK : keyCodesWellFormed K) :
    (∀ k : Int, 0 ≤ k → k ≤ 11 → glfwKeyToVKKey K (K.BRLS_KBD_KEY_F1 + k) = 0x70 + k) ∧
      (∀ k : Int, 0 ≤ k → k ≤ 9 → glfwKeyToVKKey K (K.BRLS_KBD_KEY_KP_0 + k) = 0x60 + k) ∧
      (∀ label value, (label, value) ∈ keyTable K → glfwKeyToVKKey K label = value) ∧
      (∀ key : Int,
        ¬ (K.BRLS_KBD_KEY_F1 ≤ key ∧ key ≤ K.BRLS_KBD_KEY_F12) →
        ¬ (K.BRLS_KBD_KEY_KP_0 ≤ key ∧ key ≤ K.BRLS_KBD_KEY_KP_9) →
        key ∉ (keyTable K).map Prod.fst →
        -32768 ≤ key → key ≤ 32767 →
        glfwKeyToVKKey K key = key) := by
  obtain ⟨hF, hKP, hapart, hnd, hout⟩ := hK
  refine ⟨?_, ?_, ?_, ?_⟩
  · intro k h0 h11
    rw [glfwKeyToVKKey_eq_switch, if_pos ⟨by omega, by omega⟩]
    unfold toShortInt
    omega
  · intro k h0 h9
    rw [glfwKeyToVKKey_eq_switch, if_neg (by omega), if_pos ⟨by omega, by omega⟩]
    unfold toShortInt
    omega
  · intro label value hmem
    have hl := hout label (List.mem_map.mpr ⟨(label, value), hmem, rfl⟩)
    rw [glfwKeyToVKKey_eq_switch, if_neg hl.1, if_neg hl.2]
    exact switchLookup_mem _ _ hnd label value hmem
  · intro key h1 h2 h3 hlo hhi
    rw [glfwKeyToVKKey_eq_switch, if_neg h1, if_neg h2, switchLookup_not_mem _ _ _ h3]
    unfold toShortInt
    omega

/-- C15 on the GLFW key codes: F5 (294) goes to 0x74, keypad 7 (327) to 0x67,
Escape (256) to 0x1B, and the letter A (65), which is in no range and no case
label, to 65. -/
theorem glfwKeyToVKKey_total_witness :
    keyCodesWellFormed exampleKeys ∧
      glfwKeyToVKKey exampleKeys (290 + 4) = 0x70 + 4 ∧
      glfwKeyToVKKey exampleKeys (320 + 7) = 0x60 + 7 ∧
      glfwKeyToVKKey exampleKeys 256 = 0x1B ∧
      glfwKeyToVKKey exampleKeys 65 = 65 :=
  have hK : keyCodesWellFormed exampleKeys := by
    unfold keyCodesWellFormed
    decide
  ⟨hK, (glfwKeyToVKKey_total exampleKeys hK).1 4 (by decide) (by decide),
    (glfwKeyToVKKey_total exampleKeys hK).2.1 7 (by decide) (by decide),
    (glfwKeyToVKKey_total exampleKeys hK).2.2.1 256 0x1B (by decide),
    (glfwKeyToVKKey_total exampleKeys hK).2.2.2 65 (by decide) (by decide) (by decide)
      (by decide) (by decide)⟩

/-! ## Pointer buttons -/

/-- The pointer-button events of a concatenation. -/
theorem mouseButtonEventsOf_append (a b : List Event) :
    mouseButtonEventsOf (a ++ b) = mouseButtonEventsOf a ++ mouseButtonEventsOf b := by
  simp [mouseButtonEventsOf]

/-- A run of events none of which is a pointer-button event has none. -/
theorem mouseButtonEventsOf_other (l : List Event)
    (hl : ∀ e ∈ l, ∀ a b, e ≠ Event.LiSendMouseButtonEvent a b) :
    mouseButtonEventsOf l = [] := by
  unfold mouseButtonEventsOf
  rw [List.filter_eq_nil_iff]
  intro e he
  cases e with
  | LiSendMouseButtonEvent a b => exact absurd rfl (hl _ he a b)
  | _ => simp

/-- A run of pointer-button events is kept whole. -/
theorem mouseButtonEventsOf_all (l : List Event)
    (hl : ∀ e ∈ l, ∃ a b, e = Event.LiSendMouseButtonEvent a b) :
    mouseButtonEventsOf l = l := by
  unfold mouseButtonEventsOf
  rw [List.filter_eq_self]
  intro e he
  obtain ⟨a, b, rfl⟩ := hl e he
  rfl

/-- The three pointer-button tests of `handleInput` send exactly the edges of
the three button states and store the three states. -/
theorem mouseButtonEvents_edges (cfg : Settings) (now before : MouseStateS) :
    (mouseButtonEvents cfg now before).2 = pointerButtonEdges cfg now before ∧
      (mouseButtonEvents cfg now before).1 =
        { before with
          l_pressed := now.l_pressed, m_pressed := now.m_pressed, r_pressed := now.r_pressed } := by
  obtain ⟨sy, l, m, r⟩ := now
  obtain ⟨sy0, l0, m0, r0⟩ := before
  unfold mouseButtonEvents pointerButtonEdges
  cases l <;> cases l0 <;> cases m <;> cases m0 <;> cases r <;> cases r0 <;> simp

/-- The scroll test does not touch the stored button states. -/
theorem scrollEvents_buttons (P : Platform) (timeNow : Int) (mouseState : MouseStateS)
    (timeStamp : Option Int) (last : MouseStateS) :
    (scrollEvents P timeNow mouseState timeStamp last).2.1.l_pressed = last.l_pressed ∧
      (scrollEvents P timeNow mouseState timeStamp last).2.1.m_pressed = last.m_pressed ∧
      (scrollEvents P timeNow mouseState timeStamp last).2.1.r_pressed = last.r_pressed := by
  unfold scrollEvents
  simp only
  split <;> exact ⟨rfl, rfl, rfl⟩

/-- The part of `handleInput` up to the scroll test: its pointer-button events
are the edges between the computed and the stored button states, and it stores
the computed button states. -/
theorem handleInputPointer_buttons (P : Platform) (cfg : Settings) (t : TickInput)
    (ignoreTouch : Bool) (s : InputState) :
    mouseButtonEventsOf (handleInputPointer P cfg t ignoreTouch s).2 =
        pointerButtonEdges cfg (mouseStateOf P cfg t ignoreTouch s) s.lastMouseState ∧
      (handleInputPointer P cfg t ignoreTouch s).1.lastMouseState.l_pressed =
        (mouseStateOf P cfg t ignoreTouch s).l_pressed ∧
      (handleInputPointer P cfg t ignoreTouch s).1.lastMouseState.m_pressed =
        (mouseStateOf P cfg t ignoreTouch s).m_pressed ∧
      (handleInputPointer P cfg t ignoreTouch s).1.lastMouseState.r_pressed =
        (mouseStateOf P cfg t ignoreTouch s).r_pressed ∧
      (handleInputPointer P cfg t ignoreTouch s).1.mappingButtons = s.mappingButtons := by
  obtain ⟨_, _, _, _, f5, f6, _⟩ := handleControllers_frame P cfg t.controllersCount
    t.rawControllers (specialKeyOf cfg t ignoreTouch) { s with inputDropped := false }
  have f6' : (handleControllers P cfg t.controllersCount t.rawControllers
      (specialKeyOf cfg t ignoreTouch) { s with inputDropped := false }).1.timeStamp =
        s.timeStamp := f6
  have f5' : (handleControllers P cfg t.controllersCount t.rawControllers
      (specialKeyOf cfg t ignoreTouch) { s with inputDropped := false }).1.lastMouseState =
        s.lastMouseState := f5
  have fm : (handleControllers P cfg t.controllersCount t.rawControllers
      (specialKeyOf cfg t ignoreTouch) { s with inputDropped := false }).1.mappingButtons =
        s.mappingButtons :=
    (handleControllers_spec P cfg t.controllersCount t.rawControllers
      (specialKeyOf cfg t ignoreTouch) { s with inputDropped := false }).1
  unfold handleInputPointer mouseStateOf
  simp only [f5', f6']
  generalize computeMouseState P cfg (mapController P s.mappingButtons t.unifiedController)
    t.mouse (specialKeyOf cfg t ignoreTouch) = m
  obtain ⟨e1, e2⟩ := mouseButtonEvents_edges cfg m s.lastMouseState
  obtain ⟨b1, b2, b3⟩ := scrollEvents_buttons P t.timeNow m s.timeStamp
    (mouseButtonEvents cfg m s.lastMouseState).1
  refine ⟨?_, ?_, ?_, ?_, fm⟩
  · rw [mouseButtonEventsOf_append, mouseButtonEventsOf_append]
    have hc : mouseButtonEventsOf (handleControllers P cfg t.controllersCount t.rawControllers
        (specialKeyOf cfg t ignoreTouch) { s with inputDropped := false }).2 = [] := by
      apply mouseButtonEventsOf_other
      intro e he a b
      rw [(handleControllers_events P cfg t.controllersCount t.rawControllers
        (specialKeyOf cfg t ignoreTouch) { s with inputDropped := false }).1,
        List.mem_append] at he
      rcases he with he | he
      · split at he
        · rw [List.mem_map] at he
          obtain ⟨j, _, rfl⟩ := he
          simp
        · exact absurd he (List.not_mem_nil _)
      · rw [List.mem_map] at he
        obtain ⟨j, _, rfl⟩ := he
        simp
    have hs : mouseButtonEventsOf (scrollEvents P t.timeNow m s.timeStamp
        (mouseButtonEvents cfg m s.lastMouseState).1).2.2 = [] := by
      rw [(scrollEvents_spec P t.timeNow _ _ _).2]
      split <;> rfl
    have hb : mouseButtonEventsOf (mouseButtonEvents cfg m s.lastMouseState).2 =
        pointerButtonEdges cfg m s.lastMouseState := by
      rw [mouseButtonEventsOf_all _ (mouseButtonEvents_mem cfg _ _), e1]
    rw [hc, hs, hb, List.nil_append, List.append_nil]
  · exact b1.trans (by rw [e2])
  · exact b2.trans (by rw [e2])
  · exact b3.trans (by rw [e2])

/-- From the second touch of a frame on, the touch loop sends no
pointer-button event. -/
theorem handleTouches_buttons_later (P : Platform) (t : TickInput) (touches : List TouchState) :
    ∀ (i : Nat) (ids : List Int) (events : List Event), i ≠ 0 →
      mouseButtonEventsOf (handleTouches P t i touches ids events).2 =
        mouseButtonEventsOf events := by
  induction touches with
  | nil => intro i ids events _; rfl
  | cons first rest ih =>
    intro i ids events hi
    by_cases hf : first.foreignView = true
    · rw [handleTouches, if_pos hf]
    · have hf2 : first.foreignView = false := by simpa using hf
      rw [handleTouches_cons P t i first rest ids events hf2, ih (i + 1) _ _ (Nat.succ_ne_zero i)]
      have hfb : touchFallback P t i first = [] := by
        unfold touchFallback
        rw [if_neg (fun h => hi h.2)]
      rw [hfb, List.append_nil, mouseButtonEventsOf_append]
      simp [mouseButtonEventsOf]

/-- The pointer-button events of the whole touch loop are those of the
fallback of the first touch. -/
theorem handleTouches_buttons (P : Platform) (t : TickInput) (first : TouchState)
    (rest : List TouchState) (ids : List Int) (hf : first.foreignView = false) :
    mouseButtonEventsOf (handleTouches P t 0 (first :: rest) ids []).2 =
      mouseButtonEventsOf (touchFallback P t 0 first) := by
  rw [handleTouches_cons P t 0 first rest ids [] hf,
    handleTouches_buttons_later P t rest 1 _ _ (by decide), mouseButtonEventsOf_append]
  simp [mouseButtonEventsOf]

/-- The part of `handleInput` after the scroll test: its pointer-button events
are those of the touch fallback, and it leaves the stored mouse state alone. -/
theorem handleInputTouch_buttons (P : Platform) (cfg : Settings) (t : TickInput)
    (ignoreTouch : Bool) (acc : InputState × List Event) :
    mouseButtonEventsOf (handleInputTouch P cfg t ignoreTouch acc).2 =
        mouseButtonEventsOf acc.2 ++ fallbackButtonEvents P cfg t ∧
      (handleInputTouch P cfg t ignoreTouch acc).1.lastMouseState = acc.1.lastMouseState ∧
      (handleInputTouch P cfg t ignoreTouch acc).1.mappingButtons = acc.1.mappingButtons := by
  unfold handleInputTouch fallbackButtonEvents
  cases hmode : cfg.touchscreen_mouse_mode with
  | false =>
    simp only [Bool.not_false, if_true, Bool.false_eq_true, if_false, List.append_nil]
    split
    · simp
    · split
      · simp [mouseButtonEventsOf_append, mouseButtonEventsOf]
      · simp
  | true =>
    simp only [Bool.not_true, Bool.false_eq_true, if_false, if_true, and_true]
    rw [mouseButtonEventsOf_append]
    congr 1
    cases htouches : t.currentTouchState with
    | nil => rfl
    | cons first rest =>
      by_cases hf : first.foreignView = true
      · simp only [hf, if_true]
        rw [handleTouches, if_pos hf]
        rfl
      · have hf2 : first.foreignView = false := by simpa using hf
        simp only [hf2, Bool.false_eq_true, if_false]
        exact handleTouches_buttons P t first rest _ hf2

/-- No pointer-button edge is reported between equal button states. -/
theorem pointerButtonEdges_same (cfg : Settings) (now before : MouseStateS)
    (hl : now.l_pressed = before.l_pressed) (hm : now.m_pressed = before.m_pressed)
    (hr : now.r_pressed = before.r_pressed) : pointerButtonEdges cfg now before = [] := by
  unfold pointerButtonEdges
  simp [hl, hm, hr]

/-- The pointer-button events of a `handleInput` tick and the button states it
stores. -/
theorem handleInput_buttons (P : Platform) (cfg : Settings) (t : TickInput)
    (ignoreTouch : Bool) (s : InputState) :
    mouseButtonEventsOf (handleInput P cfg t ignoreTouch s).2 =
        pointerButtonEdges cfg (mouseStateOf P cfg t ignoreTouch s) s.lastMouseState ++
          fallbackButtonEvents P cfg t ∧
      (handleInput P cfg t ignoreTouch s).1.lastMouseState.l_pressed =
        (mouseStateOf P cfg t ignoreTouch s).l_pressed ∧
      (handleInput P cfg t ignoreTouch s).1.lastMouseState.m_pressed =
        (mouseStateOf P cfg t ignoreTouch s).m_pressed ∧
      (handleInput P cfg t ignoreTouch s).1.lastMouseState.r_pressed =
        (mouseStateOf P cfg t ignoreTouch s).r_pressed ∧
      (handleInput P cfg t ignoreTouch s).1.mappingButtons = s.mappingButtons := by
  obtain ⟨p1, p2, p3, p4, p5⟩ := handleInputPointer_buttons P cfg t ignoreTouch s
  obtain ⟨t1, t2, t3⟩ := handleInputTouch_buttons P cfg t ignoreTouch
    (handleInputPointer P cfg t ignoreTouch s)
  unfold handleInput
  rw [t1, t2, t3, p1]
  exact ⟨rfl, p2, p3, p4, p5⟩

/-- The pointer-button events of the touch fallback when it fires: a left
press for a starting first touch, a left release for an ending one. -/
theorem fallbackButtonEvents_fired (P : Platform) (cfg : Settings) (t : TickInput)
    (first : TouchState) (rest : List TouchState)
    (hmode : cfg.touchscreen_mouse_mode = true) (htouch : t.currentTouchState = first :: rest)
    (hf : first.foreignView = false) (hres : t.touchResult 0 = P.LI_ERR_UNSUPPORTED) :
    fallbackButtonEvents P cfg t =
      (if first.phase = TouchPhase.START then
        [Event.LiSendMouseButtonEvent ButtonAction.BUTTON_ACTION_PRESS
          MouseButton.BUTTON_MOUSE_LEFT]
      else []) ++
      (if first.phase = TouchPhase.END then
        [Event.LiSendMouseButtonEvent ButtonAction.BUTTON_ACTION_RELEASE
          MouseButton.BUTTON_MOUSE_LEFT]
      else []) := by
  unfold fallbackButtonEvents touchFallback
  rw [hmode, htouch]
  simp only [if_true, hf, Bool.false_eq_true, if_false, hres, and_self]
  cases first.phase <;> simp [mouseButtonEventsOf]

/-- C18, amended. In every `handleInput` tick the edge detector sends, for each
of the left, middle and right button, a press or release event exactly when the
button's computed state differs from the state stored at the previous tick (a
press when it became true, a release when it became false), and stores the
computed states. Apart from the events of the touch fallback, a tick sends no
other pointer-button event; the fallback sends none with pointer emulation or
when `LiSendTouchEvent` does not return `LI_ERR_UNSUPPORTED` for the first
touch of the frame. So of two consecutive ticks with the same computed button
states the second sends no pointer-button event but those of the fallback.
When the fallback fires (dedicated touch mode, the first touch on the streaming
view, `LI_ERR_UNSUPPORTED` returned) it sends a left press for a starting touch
and a left release for an ending one. -/
theorem handleInput_button_edges (P : Platform) (cfg : Settings) (t : TickInput)
    (ignoreTouch : Bool) (s : InputState) :
    mouseButtonEventsOf (handleInput P cfg t ignoreTouch s).2 =
        pointerButtonEdges cfg (mouseStateOf P cfg t ignoreTouch s) s.lastMouseState ++
          fallbackButtonEvents P cfg t ∧
      (cfg.touchscreen_mouse_mode = false ∨ t.touchResult 0 ≠ P.LI_ERR_UNSUPPORTED →
        fallbackButtonEvents P cfg t = []) ∧
      ((handleInput P cfg t ignoreTouch s).1.lastMouseState.l_pressed =
          (mouseStateOf P cfg t ignoreTouch s).l_pressed ∧
        (handleInput P cfg t ignoreTouch s).1.lastMouseState.m_pressed =
          (mouseStateOf P cfg t ignoreTouch s).m_pressed ∧
        (handleInput P cfg t ignoreTouch s).1.lastMouseState.r_pressed =
          (mouseStateOf P cfg t ignoreTouch s).r_pressed) ∧
      (∀ (cfg2 : Settings) (t2 : TickInput) (ignoreTouch2 : Bool),
        (mouseStateOf P cfg2 t2 ignoreTouch2 (handleInput P cfg t ignoreTouch s).1).l_pressed =
          (mouseStateOf P cfg t ignoreTouch s).l_pressed →
        (mouseStateOf P cfg2 t2 ignoreTouch2 (handleInput P cfg t ignoreTouch s).1).m_pressed =
          (mouseStateOf P cfg t ignoreTouch s).m_pressed →
        (mouseStateOf P cfg2 t2 ignoreTouch2 (handleInput P cfg t ignoreTouch s).1).r_pressed =
          (mouseStateOf P cfg t ignoreTouch s).r_pressed →
        mouseButtonEventsOf
            (handleInput P cfg2 t2 ignoreTouch2 (handleInput P cfg t ignoreTouch s).1).2 =
          fallbackButtonEvents P cfg2 t2) ∧
      (cfg.touchscreen_mouse_mode = true →
        ∀ (first : TouchState) (rest : List TouchState),
          t.currentTouchState = first :: rest → first.foreignView = false →
          t.touchResult 0 = P.LI_ERR_UNSUPPORTED →
          fallbackButtonEvents P cfg t =
            (if first.phase = TouchPhase.START then
              [Event.LiSendMouseButtonEvent ButtonAction.BUTTON_ACTION_PRESS
                MouseButton.BUTTON_MOUSE_LEFT]
            else []) ++
            (if first.phase = TouchPhase.END then
              [Event.LiSendMouseButtonEvent ButtonAction.BUTTON_ACTION_RELEASE
                MouseButton.BUTTON_MOUSE_LEFT]
            else [])) := by
  obtain ⟨h1, h2, h3, h4, _⟩ := handleInput_buttons P cfg t ignoreTouch s
  refine ⟨h1, ?_, ⟨h2, h3, h4⟩, ?_, fun hmode first rest htouch hf hres =>
    fallbackButtonEvents_fired P cfg t first rest hmode htouch hf hres⟩
  · intro h
    unfold fallbackButtonEvents
    rcases h with h | h
    · rw [h]
      rfl
    · cases cfg.touchscreen_mouse_mode with
      | false => rfl
      | true =>
        simp only [if_true]
        cases t.currentTouchState with
        | nil => rfl
        | cons first rest =>
          simp only
          split
          · rfl
          · unfold touchFallback
            rw [if_neg (fun hc => h hc.1)]
            rfl
  · intro cfg2 t2 ignoreTouch2 hl hm hr
    rw [(handleInput_buttons P cfg2 t2 ignoreTouch2 _).1,
      pointerButtonEdges_same cfg2 _ _ (hl.trans h2.symm) (hm.trans h3.symm) (hr.trans h4.symm),
      List.nil_append]

/-- C18, witness. With the left mouse button held over two ticks the first
tick sends one left press and the second sends nothing. -/
theorem handleInput_button_edges_witness :
    mouseButtonEventsOf
        (handleInput examplePlatform exampleSettings clickTick false InputState.init).2 =
        [Event.LiSendMouseButtonEvent ButtonAction.BUTTON_ACTION_PRESS
          MouseButton.BUTTON_MOUSE_LEFT] ∧
      mouseButtonEventsOf
        (handleInput examplePlatform exampleSettings clickTick false
          (handleInput examplePlatform exampleSettings clickTick false InputState.init).1).2 =
        [] := by
  refine ⟨?_, ?_⟩
  · rw [(handleInput_button_edges examplePlatform exampleSettings clickTick false
      InputState.init).1]
    decide
  · rw [(handleInput_button_edges examplePlatform exampleSettings clickTick false
      InputState.init).2.2.2.1 exampleSettings clickTick false (by decide) (by decide)
      (by decide)]
    decide

/-- C18, counterexample. Dedicated touch mode, a host that answers
`LI_ERR_UNSUPPORTED` to touch events, no mouse button held. After a tick
without touches, a tick whose first touch starts computes the same button
states (all released) and still sends a left press. -/
theorem handleInput_button_edges_counterexample :
    (mouseStateOf examplePlatform touchSettings (touchTick [touchAt 5 TouchPhase.START] (-5501))
        false (handleInput examplePlatform touchSettings (touchTick [] (-5501)) false
          InputState.init).1).l_pressed =
        (mouseStateOf examplePlatform touchSettings (touchTick [] (-5501)) false
          InputState.init).l_pressed ∧
      (mouseStateOf examplePlatform touchSettings (touchTick [touchAt 5 TouchPhase.START] (-5501))
        false (handleInput examplePlatform touchSettings (touchTick [] (-5501)) false
          InputState.init).1).m_pressed =
        (mouseStateOf examplePlatform touchSettings (touchTick [] (-5501)) false
          InputState.init).m_pressed ∧
      (mouseStateOf examplePlatform touchSettings (touchTick [touchAt 5 TouchPhase.START] (-5501))
        false (handleInput examplePlatform touchSettings (touchTick [] (-5501)) false
          InputState.init).1).r_pressed =
        (mouseStateOf examplePlatform touchSettings (touchTick [] (-5501)) false
          InputState.init).r_pressed ∧
      mouseButtonEventsOf
        (handleInput examplePlatform touchSettings (touchTick [touchAt 5 TouchPhase.START] (-5501))
          false (handleInput examplePlatform touchSettings (touchTick [] (-5501)) false
            InputState.init).1).2 =
        [Event.LiSendMouseButtonEvent ButtonAction.BUTTON_ACTION_PRESS
          MouseButton.BUTTON_MOUSE_LEFT] := by
  refine ⟨by decide, by decide, by decide, ?_⟩
  rw [(handleInput_buttons examplePlatform touchSettings _ false _).1]
  decide

/-! ## Single-precision bounds -/

/-- The digit count computed with enough fuel brackets a positive number
between two consecutive powers of two. -/
theorem bitLenAux_spec : ∀ (fuel n : Nat), n ≤ fuel → 0 < n →
    2 ^ (F32.bitLenAux fuel n - 1) ≤ n ∧ n < 2 ^ F32.bitLenAux fuel n ∧
      1 ≤ F32.bitLenAux fuel n := by
  intro fuel
  induction fuel with
  | zero => intro n h1 h2; omega
  | succ fuel ih =>
    intro n hn hpos
    have hne : n ≠ 0 := by omega
    rw [F32.bitLenAux, if_neg hne]
    by_cases h2 : n / 2 = 0
    · have h1 : n = 1 := by omega
      have hz : F32.bitLenAux fuel (n / 2) = 0 := by
        rw [h2]
        cases fuel <;> simp [F32.bitLenAux]
      rw [hz, h1]
      simp
    · obtain ⟨a, b, c⟩ := ih (n / 2) (by omega) (by omega)
      refine ⟨?_, ?_, by omega⟩
      · have e1 : F32.bitLenAux fuel (n / 2) + 1 - 1 = (F32.bitLenAux fuel (n / 2) - 1) + 1 := by
          omega
        rw [e1, pow_succ]
        omega
      · rw [pow_succ]
        omega

/-- The digit count of a positive number brackets it between two consecutive
powers of two. -/
theorem bitLen_spec (n : Nat) (h : 0 < n) :
    2 ^ (F32.bitLen n - 1) ≤ n ∧ n < 2 ^ F32.bitLen n ∧ 1 ≤ F32.bitLen n :=
  bitLenAux_spec n n (le_refl n) h

/-- The quotient of the two natural powers that stand for a power of two with
an integer exponent. -/
theorem pow_toNat_div (i : Int) :
    ((2 : ℚ) ^ i.toNat) / (2 : ℚ) ^ (-i).toNat = (2 : ℚ) ^ i := by
  rcases le_total 0 i with h | h
  · obtain ⟨n, rfl⟩ := Int.eq_ofNat_of_zero_le h
    have h0 : (-(n : Int)).toNat = 0 := by omega
    rw [h0]
    simp
  · obtain ⟨n, hn⟩ := Int.eq_ofNat_of_zero_le (neg_nonneg.mpr h)
    have h0 : i.toNat = 0 := by omega
    have hi : i = -(n : Int) := by omega
    rw [h0, hn, hi]
    simp [zpow_neg]

/-- The test "two to the `i` is at most `num / den`" on natural numbers. -/
theorem pow_le_ratio_iff (num den : Nat) (hden : 0 < den) (i : Int) :
    den * 2 ^ i.toNat ≤ num * 2 ^ (-i).toNat ↔ (2 : ℚ) ^ i ≤ (num : ℚ) / den := by
  have hd : (0 : ℚ) < den := by exact_mod_cast hden
  have hp : (0 : ℚ) < (2 : ℚ) ^ (-i).toNat := by positivity
  rw [← pow_toNat_div, div_le_div_iff₀ hp hd]
  constructor
  · intro h
    have h2 : ((den * 2 ^ i.toNat : Nat) : ℚ) ≤ ((num * 2 ^ (-i).toNat : Nat) : ℚ) := by
      exact_mod_cast h
    push_cast at h2
    linarith
  · intro h
    have h2 : ((den * 2 ^ i.toNat : Nat) : ℚ) ≤ ((num * 2 ^ (-i).toNat : Nat) : ℚ) := by
      push_cast
      linarith
    exact_mod_cast h2

/-- The test "`num / den` is below two to the `i`" on natural numbers. -/
theorem ratio_lt_pow_iff (num den : Nat) (hden : 0 < den) (i : Int) :
    num * 2 ^ (-i).toNat < den * 2 ^ i.toNat ↔ (num : ℚ) / den < (2 : ℚ) ^ i := by
  rw [← not_le, ← not_le, pow_le_ratio_iff num den hden i]

/-- The exponent `e` that `roundMag` computes is the binary exponent of
`num / den`. -/
theorem roundExp_spec (num den : Nat) (hnum : 0 < num) (hden : 0 < den) (e : Int)
    (he : (if den * 2 ^ ((F32.bitLen num : Int) - (F32.bitLen den : Int)).toNat ≤
        num * 2 ^ (-((F32.bitLen num : Int) - (F32.bitLen den : Int))).toNat
      then (F32.bitLen num : Int) - (F32.bitLen den : Int)
      else (F32.bitLen num : Int) - (F32.bitLen den : Int) - 1) = e) :
    (2 : ℚ) ^ e ≤ (num : ℚ) / den ∧ (num : ℚ) / den < (2 : ℚ) ^ (e + 1) := by
  obtain ⟨n1, n2, n3⟩ := bitLen_spec num hnum
  obtain ⟨d1, d2, d3⟩ := bitLen_spec den hden
  have hd : (0 : ℚ) < den := by exact_mod_cast hden
  have qn1 : (2 : ℚ) ^ ((F32.bitLen num : Int) - 1) ≤ (num : ℚ) := by
    have h : ((2 ^ (F32.bitLen num - 1) : Nat) : ℚ) ≤ (num : ℚ) := by exact_mod_cast n1
    have e1 : ((F32.bitLen num : Int) - 1) = ((F32.bitLen num - 1 : Nat) : Int) := by omega
    rw [e1, zpow_natCast]
    exact_mod_cast h
  have qn2 : (num : ℚ) < (2 : ℚ) ^ (F32.bitLen num : Int) := by
    rw [zpow_natCast]
    exact_mod_cast n2
  have qd1 : (2 : ℚ) ^ ((F32.bitLen den : Int) - 1) ≤ (den : ℚ) := by
    have h : ((2 ^ (F32.bitLen den - 1) : Nat) : ℚ) ≤ (den : ℚ) := by exact_mod_cast d1
    have e1 : ((F32.bitLen den : Int) - 1) = ((F32.bitLen den - 1 : Nat) : Int) := by omega
    rw [e1, zpow_natCast]
    exact_mod_cast h
  have qd2 : (den : ℚ) < (2 : ℚ) ^ (F32.bitLen den : Int) := by
    rw [zpow_natCast]
    exact_mod_cast d2
  have two : (2 : ℚ) ≠ 0 := by norm_num
  -- num / den lies strictly between 2^(k-1) and 2^(k+1)
  have lo : (2 : ℚ) ^ ((F32.bitLen num : Int) - (F32.bitLen den : Int) - 1) ≤ (num : ℚ) / den := by
    rw [le_div_iff₀ hd]
    have e1 : ((F32.bitLen num : Int) - (F32.bitLen den : Int) - 1) =
        ((F32.bitLen num : Int) - 1) - (F32.bitLen den : Int) := by ring
    rw [e1, zpow_sub₀ two, div_mul_eq_mul_div, div_le_iff₀ (by positivity)]
    have hp : (0 : ℚ) < (2 : ℚ) ^ ((F32.bitLen num : Int) - 1) := by positivity
    nlinarith
  have hi : (num : ℚ) / den < (2 : ℚ) ^ ((F32.bitLen num : Int) - (F32.bitLen den : Int) + 1) := by
    rw [div_lt_iff₀ hd]
    have e1 : ((F32.bitLen num : Int) - (F32.bitLen den : Int) + 1) =
        (F32.bitLen num : Int) - ((F32.bitLen den : Int) - 1) := by ring
    rw [e1, zpow_sub₀ two, div_mul_eq_mul_div, lt_div_iff₀ (by positivity)]
    have hp : (0 : ℚ) < (2 : ℚ) ^ (F32.bitLen num : Int) := by positivity
    have hq : (0 : ℚ) < (2 : ℚ) ^ ((F32.bitLen den : Int) - 1) := by positivity
    have hnq : (0 : ℚ) < num := by exact_mod_cast hnum
    nlinarith
  split at he
  · rename_i hc
    subst he
    exact ⟨(pow_le_ratio_iff num den hden _).mp hc, hi⟩
  · rename_i hc
    subst he
    refine ⟨lo, ?_⟩
    rw [sub_add_cancel]
    exact (ratio_lt_pow_iff num den hden _).mp (not_le.mp hc)

/-- The rounding step keeps a quotient between two integer bounds. -/
theorem roundStep_bounds (N den A B : Nat) (hden : 0 < den) (hA : A * den ≤ N)
    (hB : N ≤ B * den) :
    A ≤ (if den < 2 * (N % den) ∨ (2 * (N % den) = den ∧ N / den % 2 = 1) then N / den + 1
        else N / den) ∧
      (if den < 2 * (N % den) ∨ (2 * (N % den) = den ∧ N / den % 2 = 1) then N / den + 1
        else N / den) ≤ B := by
  have h1 : A ≤ N / den := (Nat.le_div_iff_mul_le hden).mpr hA
  have h2 : N / den ≤ B := by
    have := Nat.div_le_div_right (c := den) hB
    rwa [Nat.mul_div_cancel _ hden] at this
  have h3 := Nat.div_add_mod N den
  constructor
  · split <;> omega
  · rcases Nat.lt_or_ge (N / den) B with h | h
    · split <;> omega
    · have hm : N / den = B := by omega
      have hr : N % den = 0 := by
        rw [hm] at h3
        have : den * B = B * den := Nat.mul_comm _ _
        omega
      rw [hr, if_neg (by omega)]
      omega

/-- The pattern `roundMag` returns for a quotient between two integers below
`2 ^ 24`: an exponent field part `c` and digits `m1` whose value `m1 * 2 ^ c`
lies between the same two integers (in units of 2^-149). -/
theorem roundMag_core (num den L U : Nat) (hnum : 0 < num) (hden : 0 < den)
    (hL : L * den ≤ num) (hU : num ≤ U * den) (hU24 : U < 2 ^ 24) :
    ∃ c m1 : Nat, F32.roundMag num den = c * 2 ^ 23 + m1 ∧ c ≤ 149 ∧ m1 ≤ 2 ^ 24 ∧
      (c = 0 ∨ 2 ^ 23 ≤ m1) ∧ L * 2 ^ 149 ≤ m1 * 2 ^ c ∧ m1 * 2 ^ c ≤ U * 2 ^ 149 := by
  have hd : (0 : ℚ) < den := by exact_mod_cast hden
  have two : (2 : ℚ) ≠ 0 := by norm_num
  unfold F32.roundMag
  rw [if_neg (by omega)]
  dsimp only
  generalize hE : (if den * 2 ^ ((F32.bitLen num : Int) - (F32.bitLen den : Int)).toNat ≤
        num * 2 ^ (-((F32.bitLen num : Int) - (F32.bitLen den : Int))).toNat
      then (F32.bitLen num : Int) - (F32.bitLen den : Int)
      else (F32.bitLen num : Int) - (F32.bitLen den : Int) - 1) = e
  obtain ⟨e1, e2⟩ := roundExp_spec num den hnum hden e hE
  -- the quotient is below 2^24, so the exponent is at most 23
  have hxU : (num : ℚ) / den ≤ (U : ℚ) := by
    rw [div_le_iff₀ hd]
    exact_mod_cast hU
  have he23 : e ≤ 23 := by
    by_contra hc
    have h24 : (2 : ℚ) ^ (24 : Int) ≤ (2 : ℚ) ^ e :=
      zpow_le_zpow_right₀ (by norm_num) (by omega)
    have hU' : (U : ℚ) < (2 : ℚ) ^ (24 : Int) := by
      have : ((U : Nat) : ℚ) < ((2 ^ 24 : Nat) : ℚ) := by exact_mod_cast hU24
      rw [show (24 : Int) = ((24 : Nat) : Int) from rfl, zpow_natCast]
      exact_mod_cast this
    linarith
  generalize hq : max (e - 23) (-149) = q
  have hq0 : q ≤ 0 := by omega
  have hq1 : -149 ≤ q := by omega
  obtain ⟨c', hc'⟩ := Int.eq_ofNat_of_zero_le (neg_nonneg.mpr hq0)
  have hqc : q = -(c' : Int) := by omega
  subst hqc
  have t1 : (-(-(c' : Int))).toNat = c' := by omega
  have t2 : (-(c' : Int)).toNat = 0 := by omega
  have t3 : (-(c' : Int) + 149).toNat = 149 - c' := by omega
  have hc149 : c' ≤ 149 := by omega
  rw [t1, t2, t3, pow_zero, Nat.mul_one]
  -- the scaled quotient is below 2^24
  have hc'e : (c' : Int) ≤ 23 - e := by omega
  have pc : (0 : ℚ) < (2 : ℚ) ^ c' := by positivity
  have hhi : num * 2 ^ c' < 2 ^ 24 * den := by
    have h1 : (num : ℚ) / den * (2 : ℚ) ^ c' < (2 : ℚ) ^ (24 : Int) := by
      have h2 : (2 : ℚ) ^ c' ≤ (2 : ℚ) ^ (23 - e) := by
        rw [← zpow_natCast]
        exact zpow_le_zpow_right₀ (by norm_num) hc'e
      have h3 : (2 : ℚ) ^ (e + 1) * (2 : ℚ) ^ (23 - e) = (2 : ℚ) ^ (24 : Int) := by
        rw [← zpow_add₀ two]
        congr 1
        ring
      have h4 : (0 : ℚ) < (2 : ℚ) ^ (e + 1) := by positivity
      have h5 : (0 : ℚ) ≤ (num : ℚ) / den := by positivity
      calc (num : ℚ) / den * (2 : ℚ) ^ c' ≤ (num : ℚ) / den * (2 : ℚ) ^ (23 - e) :=
            mul_le_mul_of_nonneg_left h2 h5
        _ < (2 : ℚ) ^ (e + 1) * (2 : ℚ) ^ (23 - e) :=
            mul_lt_mul_of_pos_right e2 (by positivity)
        _ = (2 : ℚ) ^ (24 : Int) := h3
    rw [div_mul_eq_mul_div, div_lt_iff₀ hd,
      show (24 : Int) = ((24 : Nat) : Int) from rfl, zpow_natCast] at h1
    exact_mod_cast h1
  -- above the subnormals the scaled quotient is at least 2^23
  have hlo : c' < 149 → 2 ^ 23 * den ≤ num * 2 ^ c' := by
    intro hlt
    have hce : (c' : Int) = 23 - e := by omega
    have h1 : (2 : ℚ) ^ (23 : Int) ≤ (num : ℚ) / den * (2 : ℚ) ^ c' := by
      have h3 : (2 : ℚ) ^ e * (2 : ℚ) ^ (23 - e) = (2 : ℚ) ^ (23 : Int) := by
        rw [← zpow_add₀ two]
        congr 1
        ring
      rw [← zpow_natCast (2 : ℚ) c', hce, ← h3]
      exact mul_le_mul_of_nonneg_right e1 (by positivity)
    rw [div_mul_eq_mul_div, le_div_iff₀ hd,
      show (23 : Int) = ((23 : Nat) : Int) from rfl, zpow_natCast] at h1
    exact_mod_cast h1
  have hsplit : 2 ^ c' * 2 ^ (149 - c') = 2 ^ 149 := by
    rw [← pow_add]
    congr 1
    omega
  have hp : 0 < 2 ^ (149 - c') := by positivity
  obtain ⟨b1, b2⟩ := roundStep_bounds (num * 2 ^ c') den (L * 2 ^ c') (U * 2 ^ c') hden
    (by nlinarith) (by nlinarith)
  obtain ⟨b3, b4⟩ := roundStep_bounds (num * 2 ^ c') den 0 (2 ^ 24) hden (by omega) (by omega)
  have b5 : c' < 149 → 2 ^ 23 ≤ (if den < 2 * (num * 2 ^ c' % den) ∨
      (2 * (num * 2 ^ c' % den) = den ∧ num * 2 ^ c' / den % 2 = 1) then
      num * 2 ^ c' / den + 1 else num * 2 ^ c' / den) := fun h =>
    (roundStep_bounds (num * 2 ^ c') den (2 ^ 23) (2 ^ 24) hden (hlo h) (by omega)).1
  generalize (if den < 2 * (num * 2 ^ c' % den) ∨
      (2 * (num * 2 ^ c' % den) = den ∧ num * 2 ^ c' / den % 2 = 1) then
      num * 2 ^ c' / den + 1 else num * 2 ^ c' / den) = m1 at b1 b2 b3 b4 b5 ⊢
  refine ⟨149 - c', m1, ?_, by omega, b4, ?_, ?_, ?_⟩
  · rw [if_neg]
    norm_num at b4 ⊢
    omega
  · rcases Nat.lt_or_ge c' 149 with h | h
    · exact Or.inr (b5 h)
    · exact Or.inl (by omega)
  · calc L * 2 ^ 149 = L * 2 ^ c' * 2 ^ (149 - c') := by rw [← hsplit]; ring
      _ ≤ m1 * 2 ^ (149 - c') := Nat.mul_le_mul_right _ b1
  · calc m1 * 2 ^ (149 - c') ≤ U * 2 ^ c' * 2 ^ (149 - c') := Nat.mul_le_mul_right _ b2
      _ = U * 2 ^ 149 := by rw [← hsplit]; ring

/-- The float with exponent field part `c`, digits `m1` and sign `sg`: its
magnitude is `m1 * 2 ^ c` units, and it is finite. -/
theorem mag_pattern (c m1 : Nat) (hc : c ≤ 149) (hm : m1 ≤ 2 ^ 24) (h : c = 0 ∨ 2 ^ 23 ≤ m1)
    (negative : Bool) :
    F32.mag ⟨(if negative then 2 ^ 31 else 0) + (c * 2 ^ 23 + m1)⟩ = m1 * 2 ^ c ∧
      F32.signBit ⟨(if negative then 2 ^ 31 else 0) + (c * 2 ^ 23 + m1)⟩ = negative ∧
      F32.isNaN ⟨(if negative then 2 ^ 31 else 0) + (c * 2 ^ 23 + m1)⟩ = false ∧
      F32.isInf ⟨(if negative then 2 ^ 31 else 0) + (c * 2 ^ 23 + m1)⟩ = false := by
  generalize hb : (if negative then 2 ^ 31 else 0) + (c * 2 ^ 23 + m1) = bits
  have hsg : ∃ sg : Nat, sg ≤ 1 ∧ (negative = true ↔ sg = 1) ∧
      bits = sg * 2147483648 + c * 8388608 + m1 := by
    cases negative
    · exact ⟨0, by omega, by simp, by simp at hb; omega⟩
    · exact ⟨1, by omega, by simp, by simp at hb; omega⟩
  obtain ⟨sg, hs1, hs2, hbits⟩ := hsg
  have hm' : m1 ≤ 16777216 := by simpa using hm
  have h' : c = 0 ∨ 8388608 ≤ m1 := by simpa using h
  have hE : F32.expField ⟨bits⟩ = c + m1 / 8388608 := by
    simp only [F32.expField, Nat.reducePow]
    omega
  have hF : F32.frac ⟨bits⟩ = m1 % 8388608 := by
    simp only [F32.frac, Nat.reducePow]
    omega
  have hS : F32.signBit ⟨bits⟩ = negative := by
    simp only [F32.signBit, Nat.reducePow]
    cases negative
    · have : sg = 0 := by
        rcases Nat.lt_or_ge sg 1 with h1 | h1
        · omega
        · exact absurd (hs2.mpr (by omega)) (by simp)
      simp
      omega
    · have : sg = 1 := hs2.mp rfl
      simp
      omega
  refine ⟨?_, hS, ?_, ?_⟩
  · rw [F32.mag, hE, hF]
    rcases Nat.lt_or_ge m1 8388608 with h1 | h1
    · have hc0 : c = 0 := by omega
      have : m1 / 8388608 = 0 := by omega
      rw [if_pos (by omega), hc0, pow_zero, Nat.mul_one]
      omega
    · rcases Nat.lt_or_ge m1 16777216 with h2 | h2
      · have e1 : m1 / 8388608 = 1 := by omega
        rw [if_neg (by omega), e1]
        have e2 : 2 ^ 23 + m1 % 8388608 = m1 := by
          simp only [Nat.reducePow]
          omega
        rw [e2, Nat.add_sub_cancel]
      · have e0 : m1 = 16777216 := by omega
        have e1 : m1 / 8388608 = 2 := by omega
        have e3 : m1 % 8388608 = 0 := by omega
        rw [if_neg (by omega), e1, e3, e0]
        have e4 : c + 2 - 1 = c + 1 := by omega
        rw [e4, pow_succ]
        ring
  · simp only [F32.isNaN, hE]
    have : ¬ (c + m1 / 8388608 = 255) := by omega
    simp [this]
  · simp only [F32.isInf, hE]
    have : ¬ (c + m1 / 8388608 = 255) := by omega
    simp [this]

/-- Rounding a quotient that lies between two integers below `2 ^ 24` gives a
finite float of the requested sign whose magnitude lies between the same two
integers. -/
theorem ofSignMag_bounds (negative : Bool) (num den L U : Nat) (hden : 0 < den)
    (hL : L * den ≤ num) (hU : num ≤ U * den) (hU24 : U < 2 ^ 24) :
    (F32.ofSignMag negative num den).signBit = negative ∧
      (F32.ofSignMag negative num den).isNaN = false ∧
      (F32.ofSignMag negative num den).isInf = false ∧
      L * 2 ^ 149 ≤ (F32.ofSignMag negative num den).mag ∧
      (F32.ofSignMag negative num den).mag ≤ U * 2 ^ 149 := by
  rcases Nat.eq_zero_or_pos num with h0 | hpos
  · have hr : F32.roundMag num den = 0 * 2 ^ 23 + 0 := by
      rw [F32.roundMag, if_pos (Or.inl h0)]
      simp
    have hL0 : L = 0 := by
      rw [h0] at hL
      rcases Nat.eq_zero_or_pos L with h | h
      · exact h
      · have := Nat.mul_pos h hden
        omega
    obtain ⟨p1, p2, p3, p4⟩ := mag_pattern 0 0 (by omega) (by positivity) (Or.inl rfl) negative
    rw [F32.ofSignMag, hr]
    refine ⟨p2, p3, p4, ?_, ?_⟩
    · rw [p1, hL0]
      simp
    · rw [p1]
      simp
  · obtain ⟨c, m1, hr, hc, hm, hcm, b1, b2⟩ := roundMag_core num den L U hpos hden hL hU hU24
    obtain ⟨p1, p2, p3, p4⟩ := mag_pattern c m1 hc hm hcm negative
    rw [F32.ofSignMag, hr]
    exact ⟨p2, p3, p4, by rw [p1]; exact b1, by rw [p1]; exact b2⟩

/-- A float whose magnitude is at most an integer below `2 ^ 24` is neither a
NaN nor an infinity. -/
theorem finite_of_mag_le (x : F32) (U : Nat) (hU24 : U < 2 ^ 24) (h : x.mag ≤ U * 2 ^ 149) :
    x.isNaN = false ∧ x.isInf = false := by
  have hne : x.expField ≠ 255 := by
    intro he
    rw [F32.mag, he, if_neg (by omega)] at h
    have hk : 150 ≤ 255 - 1 := by omega
    generalize 255 - 1 = k at h hk
    have h0 : 2 ^ 24 * 2 ^ 149 = 2 ^ 23 * 2 ^ 150 := by ring
    have h1 : 2 ^ 23 * 2 ^ 150 ≤ 2 ^ 23 * 2 ^ k :=
      Nat.mul_le_mul_left _ (Nat.pow_le_pow_right (by omega) hk)
    have h2 : 2 ^ 23 * 2 ^ k ≤ (2 ^ 23 + x.frac) * 2 ^ k :=
      Nat.mul_le_mul_right _ (by omega)
    have h3 : U * 2 ^ 149 < 2 ^ 24 * 2 ^ 149 :=
      Nat.mul_lt_mul_of_pos_right hU24 (by positivity)
    omega
  simp [F32.isNaN, F32.isInf, hne]

/-- The signed magnitude of a float in terms of its sign and magnitude. -/
theorem toUnits_of_sign (x : F32) :
    (x.signBit = false → x.toUnits = (x.mag : Int)) ∧
      (x.signBit = true → x.toUnits = -(x.mag : Int)) := by
  constructor <;> intro h <;> simp [F32.toUnits, h]

/-- The magnitude of a float is the absolute value of its signed magnitude. -/
theorem toUnits_natAbs (x : F32) : x.toUnits.natAbs = x.mag := by
  unfold F32.toUnits
  split <;> simp

/-- An integer below `2 ^ 24` in absolute value converts to a float exactly. -/
theorem ofInt_exact (n : Int) (h : n.natAbs < 2 ^ 24) :
    (F32.ofInt n).signBit = decide (n < 0) ∧ (F32.ofInt n).isNaN = false ∧
      (F32.ofInt n).isInf = false ∧ (F32.ofInt n).mag = n.natAbs * 2 ^ 149 := by
  obtain ⟨a, b, c, d, e⟩ := ofSignMag_bounds (decide (n < 0)) n.natAbs 1 n.natAbs n.natAbs
    (by omega) (by omega) (by omega) h
  exact ⟨a, b, c, le_antisymm e d⟩

/-- The product of two finite floats whose exact product lies between two
integers below `2 ^ 24` is finite, has the product sign, and lies between the
same two integers. -/
theorem mul_bounds (x y : F32) (L U : Nat) (hx : x.isNaN = false ∧ x.isInf = false)
    (hy : y.isNaN = false ∧ y.isInf = false)
    (hL : L * (2 ^ 149 * 2 ^ 149) ≤ x.mag * y.mag)
    (hU : x.mag * y.mag ≤ U * (2 ^ 149 * 2 ^ 149)) (hU24 : U < 2 ^ 24) :
    (F32.mul x y).signBit = (x.signBit != y.signBit) ∧ (F32.mul x y).isNaN = false ∧
      (F32.mul x y).isInf = false ∧ L * 2 ^ 149 ≤ (F32.mul x y).mag ∧
      (F32.mul x y).mag ≤ U * 2 ^ 149 := by
  have hm : F32.mul x y =
      F32.ofSignMag (x.signBit != y.signBit) (x.mag * y.mag) (2 ^ 149 * 2 ^ 149) := by
    simp [F32.mul, hx.1, hx.2, hy.1, hy.2]
  rw [hm]
  exact ofSignMag_bounds _ _ _ L U (by positivity) hL hU hU24

/-- Negation flips the sign and keeps the magnitude and the class. -/
theorem neg_spec (x : F32) :
    (F32.neg x).signBit = !x.signBit ∧ (F32.neg x).mag = x.mag ∧
      (F32.neg x).isNaN = x.isNaN ∧ (F32.neg x).isInf = x.isInf := by
  have hE : (F32.neg x).expField = x.expField := by
    simp only [F32.neg, F32.expField, F32.signBit, Nat.reducePow]
    split
    · rename_i h
      have := of_decide_eq_true h
      omega
    · omega
  have hF : (F32.neg x).frac = x.frac := by
    simp only [F32.neg, F32.frac, F32.signBit, Nat.reducePow]
    split
    · rename_i h
      have := of_decide_eq_true h
      omega
    · omega
  refine ⟨?_, ?_, ?_, ?_⟩
  · simp only [F32.neg, F32.signBit, Nat.reducePow]
    by_cases h : x.bits / 2147483648 % 2 = 1
    · simp only [h, decide_True, if_true, Bool.not_true, decide_eq_false_iff_not]
      omega
    · simp only [h, decide_False, Bool.false_eq_true, if_false, Bool.not_false,
        decide_eq_true_eq]
      omega
  · simp only [F32.mag, hE, hF]
  · simp only [F32.isNaN, hE, hF]
  · simp only [F32.isInf, hE, hF]

/-- The absolute value clears the sign and keeps the magnitude and the class. -/
theorem fabs_spec (x : F32) :
    (F32.fabs x).signBit = false ∧ (F32.fabs x).mag = x.mag ∧
      (F32.fabs x).isNaN = x.isNaN ∧ (F32.fabs x).isInf = x.isInf := by
  have hE : (F32.fabs x).expField = x.expField := by
    simp only [F32.fabs, F32.expField, Nat.reducePow]
    omega
  have hF : (F32.fabs x).frac = x.frac := by
    simp only [F32.fabs, F32.frac, Nat.reducePow]
    omega
  refine ⟨?_, ?_, ?_, ?_⟩
  · simp only [F32.fabs, F32.signBit, Nat.reducePow, decide_eq_false_iff_not]
    omega
  · simp only [F32.mag, hE, hF]
  · simp only [F32.isNaN, hE, hF]
  · simp only [F32.isInf, hE, hF]

/-- A signed zero is finite and has magnitude 0. -/
theorem zero_spec (negative : Bool) :
    (F32.zero negative).signBit = negative ∧ (F32.zero negative).mag = 0 ∧
      (F32.zero negative).isNaN = false ∧ (F32.zero negative).isInf = false := by
  cases negative <;> decide

/-- The sum of two finite floats whose exact sum is at most an integer below
`2 ^ 24` in absolute value: it is finite, bounded by the same integer, and not
below any integer that the exact sum is not below. -/
theorem add_bounds (x y : F32) (U : Nat) (hx : x.isNaN = false ∧ x.isInf = false)
    (hy : y.isNaN = false ∧ y.isInf = false) (hU24 : U < 2 ^ 24)
    (hs : (x.toUnits + y.toUnits).natAbs ≤ U * 2 ^ 149) :
    (F32.add x y).isNaN = false ∧ (F32.add x y).isInf = false ∧
      (F32.add x y).mag ≤ U * 2 ^ 149 ∧
      ∀ a : Int, a * 2 ^ 149 ≤ x.toUnits + y.toUnits → a * 2 ^ 149 ≤ (F32.add x y).toUnits := by
  have hT : (0 : Int) < 2 ^ 149 := by positivity
  have hTn : 0 < 2 ^ 149 := by positivity
  by_cases h0 : x.toUnits + y.toUnits = 0
  · have ha : F32.add x y = F32.zero (x.signBit && y.signBit) := by
      simp [F32.add, hx.1, hx.2, hy.1, hy.2, h0]
    obtain ⟨z1, z2, z3, z4⟩ := zero_spec (x.signBit && y.signBit)
    rw [ha]
    refine ⟨z3, z4, by rw [z2]; exact Nat.zero_le _, ?_⟩
    intro a hle
    have hu : (F32.zero (x.signBit && y.signBit)).toUnits = 0 := by
      unfold F32.toUnits
      rw [z2]
      split <;> rfl
    rw [hu, ← h0]
    exact hle
  · have ha : F32.add x y =
        F32.ofSignMag (decide (x.toUnits + y.toUnits < 0)) (x.toUnits + y.toUnits).natAbs
          (2 ^ 149) := by
      simp [F32.add, hx.1, hx.2, hy.1, hy.2, h0]
    rw [ha]
    generalize x.toUnits + y.toUnits = s at h0 hs ⊢
    obtain ⟨g1, g2, g3, _, g5⟩ := ofSignMag_bounds (decide (s < 0)) s.natAbs (2 ^ 149) 0 U hTn
      (by omega) hs hU24
    refine ⟨g2, g3, g5, ?_⟩
    intro a hle
    have hUn := (toUnits_of_sign (F32.ofSignMag (decide (s < 0)) s.natAbs (2 ^ 149)))
    rcases lt_or_gt_of_ne h0 with hneg | hpos
    · have hsgn : decide (s < 0) = true := decide_eq_true hneg
      rw [hsgn] at g1 g5 hUn ⊢
      rw [hUn.2 g1]
      have ha0 : a < 0 := by
        by_contra hc
        have : 0 ≤ a * 2 ^ 149 := mul_nonneg (not_lt.mp hc) hT.le
        omega
      by_cases hbig : (U : Int) ≤ -a
      · have c1 : ((F32.ofSignMag true s.natAbs (2 ^ 149)).mag : Int) ≤ (U : Int) * 2 ^ 149 := by
          exact_mod_cast g5
        have c2 : (U : Int) * 2 ^ 149 ≤ -a * 2 ^ 149 := mul_le_mul_of_nonneg_right hbig hT.le
        linarith
      · have hU' : (-a).toNat < 2 ^ 24 := by omega
        have hs' : s.natAbs ≤ (-a).toNat * 2 ^ 149 := by
          have e1 : ((-a).toNat : Int) = -a := Int.toNat_of_nonneg (by omega)
          have e2 : (s.natAbs : Int) = -s := by omega
          have : (s.natAbs : Int) ≤ ((-a).toNat : Int) * 2 ^ 149 := by
            rw [e1, e2]
            linarith
          exact_mod_cast this
        obtain ⟨_, _, _, _, k5⟩ := ofSignMag_bounds true s.natAbs (2 ^ 149) 0 (-a).toNat hTn
          (by omega) hs' hU'
        have c1 : ((F32.ofSignMag true s.natAbs (2 ^ 149)).mag : Int) ≤
            ((-a).toNat : Int) * 2 ^ 149 := by exact_mod_cast k5
        rw [Int.toNat_of_nonneg (by omega)] at c1
        linarith
    · have hsgn : decide (s < 0) = false := decide_eq_false (by omega)
      rw [hsgn] at g1 g5 hUn ⊢
      rw [hUn.1 g1]
      by_cases ha0 : a ≤ 0
      · have : a * 2 ^ 149 ≤ 0 := mul_nonpos_of_nonpos_of_nonneg ha0 hT.le
        have : (0 : Int) ≤ ((F32.ofSignMag false s.natAbs (2 ^ 149)).mag : Int) :=
          Int.natCast_nonneg _
        linarith
      · have e1 : (a.toNat : Int) = a := Int.toNat_of_nonneg (by omega)
        have e2 : (s.natAbs : Int) = s := by omega
        have hs' : a.toNat * 2 ^ 149 ≤ s.natAbs := by
          have : (a.toNat : Int) * 2 ^ 149 ≤ (s.natAbs : Int) := by
            rw [e1, e2]
            exact hle
          exact_mod_cast this
        obtain ⟨_, _, _, k4, _⟩ := ofSignMag_bounds false s.natAbs (2 ^ 149) a.toNat U hTn
          hs' hs hU24
        have c1 : (a.toNat : Int) * 2 ^ 149 ≤
            ((F32.ofSignMag false s.natAbs (2 ^ 149)).mag : Int) := by exact_mod_cast k4
        rw [e1] at c1
        exact c1

/-! ## Trigger and stick quantization -/

/-- The analog fields of the state `getControllerState` returns with special
mode off. -/
theorem getControllerState_analog (P : Platform) (cfg : Settings)
    (lastGamepadStates : Nat → GamepadState) (mappingButtons : Nat → Nat)
    (rawController : ControllerState) (controllerNum : Nat) :
    (getControllerState P cfg lastGamepadStates mappingButtons rawController controllerNum
        false).leftTrigger =
      F32.toUChar (F32.mul (F32.ofInt 0xFF)
        (triggerAxis ((mapController P mappingButtons rawController).axes P.axes.LEFT_Z)
          ((mapController P mappingButtons rawController).buttons P.buttons.BUTTON_LT))) ∧
    (getControllerState P cfg lastGamepadStates mappingButtons rawController controllerNum
        false).rightTrigger =
      F32.toUChar (F32.mul (F32.ofInt 0xFF)
        (triggerAxis ((mapController P mappingButtons rawController).axes P.axes.RIGHT_Z)
          ((mapController P mappingButtons rawController).buttons P.buttons.BUTTON_RT))) ∧
    (getControllerState P cfg lastGamepadStates mappingButtons rawController controllerNum
        false).leftStickX =
      F32.toShort (F32.mul (F32.ofInt 0x7FFF)
        (truncateDeadZones P cfg (mapController P mappingButtons rawController)).1) ∧
    (getControllerState P cfg lastGamepadStates mappingButtons rawController controllerNum
        false).leftStickY =
      F32.toShort (F32.mul (F32.ofInt (-0x7FFF))
        (truncateDeadZones P cfg (mapController P mappingButtons rawController)).2.1) ∧
    (getControllerState P cfg lastGamepadStates mappingButtons rawController controllerNum
        false).rightStickX =
      F32.toShort (F32.mul (F32.ofInt 0x7FFF)
        (truncateDeadZones P cfg (mapController P mappingButtons rawController)).2.2.1) ∧
    (getControllerState P cfg lastGamepadStates mappingButtons rawController controllerNum
        false).rightStickY =
      F32.toShort (F32.mul (F32.ofInt (-0x7FFF))
        (truncateDeadZones P cfg (mapController P mappingButtons rawController)).2.2.2) := by
  unfold getControllerState
  dsimp only
  split <;> exact ⟨rfl, rfl, rfl, rfl, rfl, rfl⟩

/-- The derived trigger value is never negative and never a NaN. -/
theorem triggerAxis_nonneg (axis : F32) (button : Bool) :
    (triggerAxis axis button).signBit = false ∧ (triggerAxis axis button).isNaN = false := by
  unfold triggerAxis
  split
  · rename_i h
    simp only [F32.gt, F32.lt, Bool.and_eq_true, Bool.not_eq_true', Bool.or_eq_false_iff,
      decide_eq_true_eq] at h
    obtain ⟨⟨_, hnan⟩, hpos⟩ := h
    refine ⟨?_, hnan⟩
    cases hs : axis.signBit with
    | false => rfl
    | true =>
      have h1 := (toUnits_of_sign axis).2 hs
      have h2 : (F32.zero false).toUnits = 0 := by decide
      have h3 : (0 : Int) ≤ (axis.mag : Int) := Int.natCast_nonneg _
      omega
  · split <;> decide

/-- The integer part of a magnitude that lies between two integers. -/
theorem units_div_bounds (m L U : Nat) (hL : L * 2 ^ 149 ≤ m) (hU : m ≤ U * 2 ^ 149) :
    L ≤ m / 2 ^ 149 ∧ m / 2 ^ 149 ≤ U := by
  have hT : 0 < 2 ^ 149 := by positivity
  refine ⟨(Nat.le_div_iff_mul_le hT).mpr hL, ?_⟩
  have := Nat.div_le_div_right (c := 2 ^ 149) hU
  rwa [Nat.mul_div_cancel _ hT] at this

/-- Bounds of a product scaled by a unit `T`, by the integer part of its
quotient by `T`. -/
theorem scaled_bounds (N T A : Nat) (hT : 0 < T) :
    N / T * (T * T) ≤ N * T ∧ N * T ≤ (N / T + 1) * (T * T) ∧
      (N ≤ A * T → N * T ≤ A * (T * T)) := by
  refine ⟨?_, ?_, ?_⟩
  · calc N / T * (T * T) = N / T * T * T := by ring
      _ ≤ N * T := Nat.mul_le_mul_right _ (Nat.div_mul_le_self N T)
  · have h := Nat.lt_mul_div_succ N hT
    calc N * T ≤ T * (N / T + 1) * T := Nat.mul_le_mul_right _ h.le
      _ = (N / T + 1) * (T * T) := by ring
  · intro h
    calc N * T ≤ A * T * T := Nat.mul_le_mul_right _ h
      _ = A * (T * T) := by ring

/-- The magnitude of a rounded quotient does not depend on the sign. -/
theorem ofSignMag_mag_sign (negative : Bool) (num den U : Nat) (hden : 0 < den)
    (hU : num ≤ U * den) (hU24 : U < 2 ^ 24) :
    (F32.ofSignMag negative num den).mag = (F32.ofSignMag false num den).mag := by
  rcases Nat.eq_zero_or_pos num with h0 | hpos
  · have hr : F32.roundMag num den = 0 * 2 ^ 23 + 0 := by
      rw [F32.roundMag, if_pos (Or.inl h0)]
      simp
    rw [F32.ofSignMag, F32.ofSignMag, hr,
      (mag_pattern 0 0 (by omega) (by positivity) (Or.inl rfl) negative).1,
      (mag_pattern 0 0 (by omega) (by positivity) (Or.inl rfl) false).1]
  · obtain ⟨c, m1, hr, hc, hm, hcm, _, _⟩ :=
      roundMag_core num den 0 U hpos hden (by omega) hU hU24
    rw [F32.ofSignMag, F32.ofSignMag, hr, (mag_pattern c m1 hc hm hcm negative).1,
      (mag_pattern c m1 hc hm hcm false).1]

/-- The product of an integer constant below `2 ^ 24` in absolute value with a
float between -1 and 1: its sign is the product of the signs, the integer part
of its magnitude is at most the constant and is the integer part of the exact
product or one more, and the magnitude is the same for the negated constant. -/
theorem mul_ofInt_unit (n : Int) (v : F32) (hn : n.natAbs < 2 ^ 24) (hv : v.mag ≤ 2 ^ 149) :
    (F32.mul (F32.ofInt n) v).signBit = (decide (n < 0) != v.signBit) ∧
      (F32.mul (F32.ofInt n) v).mag / 2 ^ 149 ≤ n.natAbs ∧
      n.natAbs * v.mag / 2 ^ 149 ≤ (F32.mul (F32.ofInt n) v).mag / 2 ^ 149 ∧
      (F32.mul (F32.ofInt n) v).mag / 2 ^ 149 ≤ n.natAbs * v.mag / 2 ^ 149 + 1 ∧
      (F32.mul (F32.ofInt (-n)) v).mag = (F32.mul (F32.ofInt n) v).mag := by
  have hT : 0 < 2 ^ 149 := by positivity
  obtain ⟨i1, i2, i3, i4⟩ := ofInt_exact n hn
  obtain ⟨j1, j2, j3, j4⟩ := ofInt_exact (-n) (by rw [Int.natAbs_neg]; exact hn)
  rw [Int.natAbs_neg] at j4
  have hvf := finite_of_mag_le v 1 (by norm_num) (by omega)
  have hnum : (F32.ofInt n).mag * v.mag = n.natAbs * v.mag * 2 ^ 149 := by
    rw [i4]
    ring
  have hle : n.natAbs * v.mag ≤ n.natAbs * 2 ^ 149 := Nat.mul_le_mul_left _ hv
  obtain ⟨s1, s2, s3⟩ := scaled_bounds (n.natAbs * v.mag) (2 ^ 149) n.natAbs hT
  have hq : n.natAbs * v.mag / 2 ^ 149 ≤ n.natAbs := by
    have := Nat.div_le_div_right (c := 2 ^ 149) hle
    rwa [Nat.mul_div_cancel _ hT] at this
  obtain ⟨m1, _, _, _, m5⟩ := mul_bounds (F32.ofInt n) v 0 n.natAbs ⟨i2, i3⟩ hvf
    (by rw [Nat.zero_mul]; exact Nat.zero_le _) (by rw [hnum]; exact s3 hle) hn
  obtain ⟨_, _, _, k4, _⟩ := mul_bounds (F32.ofInt n) v (n.natAbs * v.mag / 2 ^ 149)
    n.natAbs ⟨i2, i3⟩ hvf (by rw [hnum]; exact s1) (by rw [hnum]; exact s3 hle) hn
  have hM := (units_div_bounds _ 0 _ (by omega) m5).2
  refine ⟨?_, hM, (units_div_bounds _ _ _ k4 m5).1, ?_, ?_⟩
  · rw [m1, i1]
  · rcases Nat.lt_or_ge (n.natAbs * v.mag / 2 ^ 149) n.natAbs with hlt | hge
    · obtain ⟨_, _, _, _, k5⟩ := mul_bounds (F32.ofInt n) v 0
        (n.natAbs * v.mag / 2 ^ 149 + 1) ⟨i2, i3⟩ hvf
        (by rw [Nat.zero_mul]; exact Nat.zero_le _) (by rw [hnum]; exact s2) (by omega)
      exact (units_div_bounds _ 0 _ (by omega) k5).2
    · omega
  · have e1 : F32.mul (F32.ofInt n) v =
        F32.ofSignMag ((F32.ofInt n).signBit != v.signBit) ((F32.ofInt n).mag * v.mag)
          (2 ^ 149 * 2 ^ 149) := by
      simp [F32.mul, i2, i3, hvf.1, hvf.2]
    have e2 : F32.mul (F32.ofInt (-n)) v =
        F32.ofSignMag ((F32.ofInt (-n)).signBit != v.signBit) ((F32.ofInt (-n)).mag * v.mag)
          (2 ^ 149 * 2 ^ 149) := by
      simp [F32.mul, j2, j3, hvf.1, hvf.2]
    have hb : (F32.ofInt n).mag * v.mag ≤ n.natAbs * (2 ^ 149 * 2 ^ 149) := by
      rw [hnum]
      exact s3 hle
    rw [e1, e2, j4, ← i4,
      ofSignMag_mag_sign _ _ _ n.natAbs (by positivity) hb hn,
      ofSignMag_mag_sign ((F32.ofInt n).signBit != v.signBit) _ _ n.natAbs (by positivity) hb hn]

/-- The float 1 has magnitude `2 ^ 149` units. -/
theorem ofInt_one_mag : (F32.ofInt 1).mag = 2 ^ 149 := by
  have h := (ofInt_exact 1 (by norm_num)).2.2.2
  simpa using h

/-- The trigger byte of a value between 0 and 1: the single-precision product
with 255 truncated toward zero, without wrap-around. -/
theorem trigger_byte (v : F32) (hs : v.signBit = false) (hv : v.mag ≤ (F32.ofInt 1).mag) :
    (F32.toUChar (F32.mul (F32.ofInt 0xFF) v) : Int) = F32.trunc (F32.mul (F32.ofInt 0xFF) v) ∧
      F32.toUChar (F32.mul (F32.ofInt 0xFF) v) ≤ 255 ∧
      255 * v.mag / 2 ^ 149 ≤ F32.toUChar (F32.mul (F32.ofInt 0xFF) v) ∧
      F32.toUChar (F32.mul (F32.ofInt 0xFF) v) ≤ 255 * v.mag / 2 ^ 149 + 1 := by
  rw [ofInt_one_mag] at hv
  obtain ⟨a, b, c, d, _⟩ := mul_ofInt_unit 255 v (by norm_num) hv
  have hsg : (F32.mul (F32.ofInt 255) v).signBit = false := by
    rw [a, hs]
    decide
  have ht : F32.trunc (F32.mul (F32.ofInt 255) v) =
      (((F32.mul (F32.ofInt 255) v).mag / 2 ^ 149 : Nat) : Int) := by
    rw [F32.trunc, hsg]
    simp
  have hu : F32.toUChar (F32.mul (F32.ofInt 255) v) = (F32.mul (F32.ofInt 255) v).mag / 2 ^ 149 := by
    rw [F32.toUChar, ht]
    have b' : (F32.mul (F32.ofInt 255) v).mag / 2 ^ 149 ≤ 255 := by simpa using b
    omega
  have b' : (F32.mul (F32.ofInt 255) v).mag / 2 ^ 149 ≤ 255 := by simpa using b
  have c' : 255 * v.mag / 2 ^ 149 ≤ (F32.mul (F32.ofInt 255) v).mag / 2 ^ 149 := by simpa using c
  have d' : (F32.mul (F32.ofInt 255) v).mag / 2 ^ 149 ≤ 255 * v.mag / 2 ^ 149 + 1 := by
    simpa using d
  rw [hu]
  exact ⟨ht.symm, b', c', d'⟩

/-- The packed stick values of an axis between -1 and 1: the single-precision
product with 32767 truncated toward zero, without wrap-around, and its exact
negation for the constant -32767. -/
theorem stick_short (v : F32) (hv : v.mag ≤ (F32.ofInt 1).mag) :
    F32.toShort (F32.mul (F32.ofInt 0x7FFF) v) = F32.trunc (F32.mul (F32.ofInt 0x7FFF) v) ∧
      F32.toShort (F32.mul (F32.ofInt (-0x7FFF)) v) =
        -F32.trunc (F32.mul (F32.ofInt 0x7FFF) v) ∧
      -32767 ≤ F32.trunc (F32.mul (F32.ofInt 0x7FFF) v) ∧
      F32.trunc (F32.mul (F32.ofInt 0x7FFF) v) ≤ 32767 := by
  rw [ofInt_one_mag] at hv
  obtain ⟨a, b, _, _, e⟩ := mul_ofInt_unit 32767 v (by norm_num) hv
  obtain ⟨a', _, _, _, _⟩ := mul_ofInt_unit (-32767) v (by norm_num) hv
  have b' : (F32.mul (F32.ofInt 32767) v).mag / 2 ^ 149 ≤ 32767 := by simpa using b
  have hp : (decide ((32767 : Int) < 0) != v.signBit) = v.signBit := by
    cases v.signBit <;> decide
  have hn : (decide ((-32767 : Int) < 0) != v.signBit) = !v.signBit := by
    cases v.signBit <;> decide
  rw [hp] at a
  rw [hn] at a'
  have t1 : F32.trunc (F32.mul (F32.ofInt 32767) v) =
      if v.signBit then -(((F32.mul (F32.ofInt 32767) v).mag / 2 ^ 149 : Nat) : Int)
      else (((F32.mul (F32.ofInt 32767) v).mag / 2 ^ 149 : Nat) : Int) := by
    rw [F32.trunc, a]
  have t2 : F32.trunc (F32.mul (F32.ofInt (-32767)) v) =
      if !v.signBit then -(((F32.mul (F32.ofInt 32767) v).mag / 2 ^ 149 : Nat) : Int)
      else (((F32.mul (F32.ofInt 32767) v).mag / 2 ^ 149 : Nat) : Int) := by
    rw [F32.trunc, a', e]
  generalize (F32.mul (F32.ofInt 32767) v).mag / 2 ^ 149 = M at b' t1 t2
  rw [F32.toShort, F32.toShort, t1, t2]
  cases v.signBit
  · simp only [Bool.false_eq_true, if_false, Bool.not_false, if_true]
    omega
  · simp only [if_true, Bool.not_true, Bool.false_eq_true, if_false]
    omega

/-- C16, amended. With special mode off, each derived trigger value `v` (the
analog axis when it is greater than 0, otherwise 1 or 0 by the trigger button)
is never negative and never a NaN, and when it is at most 1 the trigger byte
`getControllerState` returns is the single-precision product `255 * v`
truncated toward zero: a value from 0 to 255, equal to the integer part of the
exact product or one more when the product rounds up to an integer. It is not
rounded to the nearest integer, and the code has no clamp. -/
theorem getControllerState_trigger_truncation (P : Platform) (cfg : Settings)
    (lastGamepadStates : Nat → GamepadState) (mappingButtons : Nat → Nat)
    (rawController : ControllerState) (controllerNum : Nat) :
    ((triggerAxis ((mapController P mappingButtons rawController).axes P.axes.LEFT_Z)
          ((mapController P mappingButtons rawController).buttons P.buttons.BUTTON_LT)).signBit =
        false ∧
      (triggerAxis ((mapController P mappingButtons rawController).axes P.axes.LEFT_Z)
          ((mapController P mappingButtons rawController).buttons P.buttons.BUTTON_LT)).isNaN =
        false ∧
      ((triggerAxis ((mapController P mappingButtons rawController).axes P.axes.LEFT_Z)
            ((mapController P mappingButtons rawController).buttons P.buttons.BUTTON_LT)).mag ≤
          (F32.ofInt 1).mag →
        ((getControllerState P cfg lastGamepadStates mappingButtons rawController controllerNum
            false).leftTrigger : Int) =
          F32.trunc (F32.mul (F32.ofInt 255)
            (triggerAxis ((mapController P mappingButtons rawController).axes P.axes.LEFT_Z)
              ((mapController P mappingButtons rawController).buttons P.buttons.BUTTON_LT))) ∧
        (getControllerState P cfg lastGamepadStates mappingButtons rawController controllerNum
            false).leftTrigger ≤ 255 ∧
        255 * (triggerAxis ((mapController P mappingButtons rawController).axes P.axes.LEFT_Z)
            ((mapController P mappingButtons rawController).buttons P.buttons.BUTTON_LT)).mag /
            2 ^ 149 ≤
          (getControllerState P cfg lastGamepadStates mappingButtons rawController controllerNum
            false).leftTrigger ∧
        (getControllerState P cfg lastGamepadStates mappingButtons rawController controllerNum
            false).leftTrigger ≤
          255 * (triggerAxis ((mapController P mappingButtons rawController).axes P.axes.LEFT_Z)
            ((mapController P mappingButtons rawController).buttons P.buttons.BUTTON_LT)).mag /
            2 ^ 149 + 1)) ∧
    ((triggerAxis ((mapController P mappingButtons rawController).axes P.axes.RIGHT_Z)
          ((mapController P mappingButtons rawController).buttons P.buttons.BUTTON_RT)).signBit =
        false ∧
      (triggerAxis ((mapController P mappingButtons rawController).axes P.axes.RIGHT_Z)
          ((mapController P mappingButtons rawController).buttons P.buttons.BUTTON_RT)).isNaN =
        false ∧
      ((triggerAxis ((mapController P mappingButtons rawController).axes P.axes.RIGHT_Z)
            ((mapController P mappingButtons rawController).buttons P.buttons.BUTTON_RT)).mag ≤
          (F32.ofInt 1).mag →
        ((getControllerState P cfg lastGamepadStates mappingButtons rawController controllerNum
            false).rightTrigger : Int) =
          F32.trunc (F32.mul (F32.ofInt 255)
            (triggerAxis ((mapController P mappingButtons rawController).axes P.axes.RIGHT_Z)
              ((mapController P mappingButtons rawController).buttons P.buttons.BUTTON_RT))) ∧
        (getControllerState P cfg lastGamepadStates mappingButtons rawController controllerNum
            false).rightTrigger ≤ 255 ∧
        255 * (triggerAxis ((mapController P mappingButtons rawController).axes P.axes.RIGHT_Z)
            ((mapController P mappingButtons rawController).buttons P.buttons.BUTTON_RT)).mag /
            2 ^ 149 ≤
          (getControllerState P cfg lastGamepadStates mappingButtons rawController controllerNum
            false).rightTrigger ∧
        (getControllerState P cfg lastGamepadStates mappingButtons rawController controllerNum
            false).rightTrigger ≤
          255 * (triggerAxis ((mapController P mappingButtons rawController).axes P.axes.RIGHT_Z)
            ((mapController P mappingButtons rawController).buttons P.buttons.BUTTON_RT)).mag /
            2 ^ 149 + 1)) := by
  obtain ⟨g1, g2, _⟩ := getControllerState_analog P cfg lastGamepadStates mappingButtons
    rawController controllerNum
  rw [g1, g2]
  obtain ⟨l1, l2⟩ := triggerAxis_nonneg
    ((mapController P mappingButtons rawController).axes P.axes.LEFT_Z)
    ((mapController P mappingButtons rawController).buttons P.buttons.BUTTON_LT)
  obtain ⟨r1, r2⟩ := triggerAxis_nonneg
    ((mapController P mappingButtons rawController).axes P.axes.RIGHT_Z)
    ((mapController P mappingButtons rawController).buttons P.buttons.BUTTON_RT)
  exact ⟨⟨l1, l2, fun h => trigger_byte _ l1 h⟩, ⟨r1, r2, fun h => trigger_byte _ r1 h⟩⟩

/-- C16, witness. With the left trigger axis at 0.5 the left trigger byte is
127, the integer part of 127.5. -/
theorem getControllerState_trigger_truncation_witness :
    (triggerAxis ((mapController examplePlatform (fun i => i)
          (analogController ⟨0x3F000000⟩ (F32.zero false) (F32.zero false))).axes
            examplePlatform.axes.LEFT_Z)
        ((mapController examplePlatform (fun i => i)
          (analogController ⟨0x3F000000⟩ (F32.zero false) (F32.zero false))).buttons
            examplePlatform.buttons.BUTTON_LT)).mag ≤ (F32.ofInt 1).mag ∧
      (getControllerState examplePlatform exampleSettings (fun _ => GamepadState.zero)
        (fun i => i) (analogController ⟨0x3F000000⟩ (F32.zero false) (F32.zero false)) 0
        false).leftTrigger ≤ 255 ∧
      (getControllerState examplePlatform exampleSettings (fun _ => GamepadState.zero)
        (fun i => i) (analogController ⟨0x3F000000⟩ (F32.zero false) (F32.zero false)) 0
        false).leftTrigger = 127 :=
  ⟨by decide,
    ((getControllerState_trigger_truncation examplePlatform exampleSettings
      (fun _ => GamepadState.zero) (fun i => i)
      (analogController ⟨0x3F000000⟩ (F32.zero false) (F32.zero false)) 0).1.2.2
        (by decide)).2.1,
    by decide⟩

/-- C16 as stated fails. With the left trigger axis at 511/512 the product
`255 * v` is 254.501953125: the code returns 254, and
`round(255 × clamp(v, 0, 1))` is 255. -/
theorem getControllerState_trigger_truncation_counterexample :
    triggerAxis ((mapController examplePlatform (fun i => i)
          (analogController ⟨0x3F7F8000⟩ (F32.zero false) (F32.zero false))).axes
            examplePlatform.axes.LEFT_Z)
        ((mapController examplePlatform (fun i => i)
          (analogController ⟨0x3F7F8000⟩ (F32.zero false) (F32.zero false))).buttons
            examplePlatform.buttons.BUTTON_LT) = ⟨0x3F7F8000⟩ ∧
      (getControllerState examplePlatform exampleSettings (fun _ => GamepadState.zero)
        (fun i => i) (analogController ⟨0x3F7F8000⟩ (F32.zero false) (F32.zero false)) 0
        false).leftTrigger = 254 ∧
      quantizeTriggerSpec ⟨0x3F7F8000⟩ = 255 := by
  decide

/-- C17. With special mode off, for every shaped stick axis value `v` between
-1 and 1 the packed X axis is the product `32767 * v` (the single-precision
product the source computes) truncated toward zero, a value from -32767 to
32767 that the conversion to a signed 16-bit integer leaves unchanged, and the
packed Y axis for a shaped value `v` is the exact negation of what the X axis
is for the same `v`. This holds for both sticks. -/
theorem getControllerState_stick_quantization (P : Platform) (cfg : Settings)
    (lastGamepadStates : Nat → GamepadState) (mappingButtons : Nat → Nat)
    (rawController : ControllerState) (controllerNum : Nat) :
    ((truncateDeadZones P cfg (mapController P mappingButtons rawController)).1.mag ≤
        (F32.ofInt 1).mag →
      (getControllerState P cfg lastGamepadStates mappingButtons rawController controllerNum
          false).leftStickX =
        F32.trunc (F32.mul (F32.ofInt 32767)
          (truncateDeadZones P cfg (mapController P mappingButtons rawController)).1) ∧
      -32767 ≤ (getControllerState P cfg lastGamepadStates mappingButtons rawController
          controllerNum false).leftStickX ∧
      (getControllerState P cfg lastGamepadStates mappingButtons rawController controllerNum
          false).leftStickX ≤ 32767) ∧
    ((truncateDeadZones P cfg (mapController P mappingButtons rawController)).2.1.mag ≤
        (F32.ofInt 1).mag →
      (getControllerState P cfg lastGamepadStates mappingButtons rawController controllerNum
          false).leftStickY =
        -F32.trunc (F32.mul (F32.ofInt 32767)
          (truncateDeadZones P cfg (mapController P mappingButtons rawController)).2.1) ∧
      -32767 ≤ (getControllerState P cfg lastGamepadStates mappingButtons rawController
          controllerNum false).leftStickY ∧
      (getControllerState P cfg lastGamepadStates mappingButtons rawController controllerNum
          false).leftStickY ≤ 32767) ∧
    ((truncateDeadZones P cfg (mapController P mappingButtons rawController)).2.2.1.mag ≤
        (F32.ofInt 1).mag →
      (getControllerState P cfg lastGamepadStates mappingButtons rawController controllerNum
          false).rightStickX =
        F32.trunc (F32.mul (F32.ofInt 32767)
          (truncateDeadZones P cfg (mapController P mappingButtons rawController)).2.2.1) ∧
      -32767 ≤ (getControllerState P cfg lastGamepadStates mappingButtons rawController
          controllerNum false).rightStickX ∧
      (getControllerState P cfg lastGamepadStates mappingButtons rawController controllerNum
          false).rightStickX ≤ 32767) ∧
    ((truncateDeadZones P cfg (mapController P mappingButtons rawController)).2.2.2.mag ≤
        (F32.ofInt 1).mag →
      (getControllerState P cfg lastGamepadStates mappingButtons rawController controllerNum
          false).rightStickY =
        -F32.trunc (F32.mul (F32.ofInt 32767)
          (truncateDeadZones P cfg (mapController P mappingButtons rawController)).2.2.2) ∧
      -32767 ≤ (getControllerState P cfg lastGamepadStates mappingButtons rawController
          controllerNum false).rightStickY ∧
      (getControllerState P cfg lastGamepadStates mappingButtons rawController controllerNum
          false).rightStickY ≤ 32767) := by
  obtain ⟨_, _, g3, g4, g5, g6⟩ := getControllerState_analog P cfg lastGamepadStates
    mappingButtons rawController controllerNum
  rw [g3, g4, g5, g6]
  refine ⟨?_, ?_, ?_, ?_⟩
  · intro h
    obtain ⟨a, _, c, d⟩ := stick_short _ h
    rw [a]
    exact ⟨rfl, c, d⟩
  · intro h
    obtain ⟨_, b, c, d⟩ := stick_short _ h
    rw [b]
    exact ⟨rfl, by omega, by omega⟩
  · intro h
    obtain ⟨a, _, c, d⟩ := stick_short _ h
    rw [a]
    exact ⟨rfl, c, d⟩
  · intro h
    obtain ⟨_, b, c, d⟩ := stick_short _ h
    rw [b]
    exact ⟨rfl, by omega, by omega⟩

/-- C17, witness. With both sticks at (0.5, 0.5) and no dead zone, the packed
X axes are 16383, the integer part of 16383.5, and the packed Y axes are
-16383. -/
theorem getControllerState_stick_quantization_witness :
    ((getControllerState examplePlatform exampleSettings (fun _ => GamepadState.zero)
          (fun i => i) (analogController (F32.zero false) ⟨0x3F000000⟩ ⟨0x3F000000⟩) 0
          false).leftStickX =
        F32.trunc (F32.mul (F32.ofInt 32767) ⟨0x3F000000⟩) ∧
      (getControllerState examplePlatform exampleSettings (fun _ => GamepadState.zero)
          (fun i => i) (analogController (F32.zero false) ⟨0x3F000000⟩ ⟨0x3F000000⟩) 0
          false).leftStickY =
        -F32.trunc (F32.mul (F32.ofInt 32767) ⟨0x3F000000⟩)) ∧
      F32.trunc (F32.mul (F32.ofInt 32767) ⟨0x3F000000⟩) = 16383 := by
  obtain ⟨h1, h2, _, _⟩ := getControllerState_stick_quantization examplePlatform
    exampleSettings (fun _ => GamepadState.zero) (fun i => i)
    (analogController (F32.zero false) ⟨0x3F000000⟩ ⟨0x3F000000⟩) 0
  exact ⟨⟨(h1 (by decide)).1, (h2 (by decide)).1⟩, by decide⟩

/-! ## Scroll threshold -/

/-- The axes of the mapped controller are bounded as the raw axes are. -/
theorem mapController_axes_mag (P : Platform) (mappingButtons : Nat → Nat)
    (raw : ControllerState) (i B : Nat) (h : (raw.axes i).mag ≤ B) :
    ((mapController P mappingButtons raw).axes i).mag ≤ B := by
  show (if i < P.axes._AXES_MAX then raw.axes i else F32.zero false).mag ≤ B
  split
  · exact h
  · rw [(zero_spec false).2.1]
    exact Nat.zero_le _

/-- The scroll value of a tick whose two vertical stick axes lie between -1
and 1 lies between -2 and 2. -/
theorem scrollValue_mag (P : Platform) (cfg : Settings) (t : TickInput) (ignoreTouch : Bool)
    (s : InputState) (hl : (t.unifiedController.axes P.axes.LEFT_Y).mag ≤ 2 ^ 149)
    (hr : (t.unifiedController.axes P.axes.RIGHT_Y).mag ≤ 2 ^ 149) :
    (scrollValue P cfg t ignoreTouch s).mag ≤ 2 * 2 ^ 149 := by
  have ml := mapController_axes_mag P s.mappingButtons t.unifiedController P.axes.LEFT_Y _ hl
  have mr := mapController_axes_mag P s.mappingButtons t.unifiedController P.axes.RIGHT_Y _ hr
  have z0 : (F32.zero false).mag ≤ 2 * 2 ^ 149 := by
    rw [(zero_spec false).2.1]
    exact Nat.zero_le _
  unfold scrollValue computeMouseState
  dsimp only
  generalize (mapController P s.mappingButtons t.unifiedController).axes P.axes.LEFT_Y = x
    at ml ⊢
  generalize (mapController P s.mappingButtons t.unifiedController).axes P.axes.RIGHT_Y = y
    at mr ⊢
  have hadd : (F32.add x y).mag ≤ 2 * 2 ^ 149 := by
    have hx := finite_of_mag_le x 1 (by norm_num) (by omega)
    have hy := finite_of_mag_le y 1 (by norm_num) (by omega)
    refine (add_bounds x y 2 hx hy (by norm_num) ?_).2.2.1
    have h1 := Int.natAbs_add_le x.toUnits y.toUnits
    rw [toUnits_natAbs, toUnits_natAbs] at h1
    omega
  have hbase : ∀ b : F32, b.mag ≤ 2 * 2 ^ 149 →
      (F32.mul b (F32.ofInt (-1))).mag ≤ 2 * 2 ^ 149 := by
    intro b hb
    obtain ⟨_, i2, i3, i4⟩ := ofInt_exact (-1) (by norm_num)
    have hbf := finite_of_mag_le b 2 (by norm_num) hb
    refine (mul_bounds b (F32.ofInt (-1)) 0 2 hbf ⟨i2, i3⟩ (by omega) ?_ (by norm_num)).2.2.2.2
    rw [i4]
    have : (-1 : Int).natAbs = 1 := rfl
    rw [this, Nat.one_mul]
    calc b.mag * 2 ^ 149 ≤ 2 * 2 ^ 149 * 2 ^ 149 := Nat.mul_le_mul_right _ hb
      _ = 2 * (2 ^ 149 * 2 ^ 149) := Nat.mul_assoc _ _ _
  cases specialKeyOf cfg t ignoreTouch <;> cases cfg.touchscreen_mouse_mode <;>
    cases cfg.swap_mouse_scroll <;>
    simp only [Bool.not_false, Bool.not_true, if_true, if_false, Bool.false_eq_true] <;>
    first | exact hadd | exact z0 | exact hbase _ hadd

/-- The scroll threshold `550 - |v| * 500` of a value `v` with `|v| ≤ U` for
`U` at most 2 is not a NaN and is at least `550 - 500 * U`. -/
theorem scrollThreshold_lower (v : F32) (U : Nat) (hU : U ≤ 2) (hv : v.mag ≤ U * 2 ^ 149) :
    (scrollThreshold v).isNaN = false ∧
      ((550 : Int) - 500 * (U : Int)) * 2 ^ 149 ≤ (scrollThreshold v).toUnits := by
  have hT : (0 : Int) < 2 ^ 149 := by positivity
  unfold scrollThreshold F32.sub
  obtain ⟨a1, a2, a3, a4⟩ := fabs_spec v
  have hvf := finite_of_mag_le v U (by omega) hv
  obtain ⟨_, i2, i3, i4⟩ := ofInt_exact 500 (by norm_num)
  obtain ⟨j1, j2, j3, j4⟩ := ofInt_exact 550 (by norm_num)
  have hprod : (F32.fabs v).mag * (F32.ofInt 500).mag ≤ 500 * U * (2 ^ 149 * 2 ^ 149) := by
    rw [a2, i4]
    have : (500 : Int).natAbs = 500 := rfl
    rw [this]
    calc v.mag * (500 * 2 ^ 149) ≤ U * 2 ^ 149 * (500 * 2 ^ 149) := Nat.mul_le_mul_right _ hv
      _ = 500 * U * (2 ^ 149 * 2 ^ 149) := by ring
  obtain ⟨w1, w2, w3, _, w5⟩ := mul_bounds (F32.fabs v) (F32.ofInt 500) 0 (500 * U)
    ⟨a3.trans hvf.1, a4.trans hvf.2⟩ ⟨i2, i3⟩ (by omega) hprod (by omega)
  generalize F32.mul (F32.fabs v) (F32.ofInt 500) = w at w1 w2 w3 w5 ⊢
  obtain ⟨n1, n2, n3, n4⟩ := neg_spec w
  have hwsign : w.signBit = false := by
    rw [w1, a1]
    have : (F32.ofInt 500).signBit = false := by decide
    rw [this]
    rfl
  have hnu : (F32.neg w).toUnits = -(w.mag : Int) := by
    rw [(toUnits_of_sign _).2 (by rw [n1, hwsign]; rfl), n2]
  have hxu : (F32.ofInt 550).toUnits = 550 * 2 ^ 149 := by
    rw [(toUnits_of_sign _).1 (by decide), j4]
    norm_num
  have w5' : (w.mag : Int) ≤ 500 * (U : Int) * 2 ^ 149 := by exact_mod_cast w5
  have hUi : (U : Int) ≤ 2 := by exact_mod_cast hU
  have hs : ((F32.ofInt 550).toUnits + (F32.neg w).toUnits).natAbs ≤ 550 * 2 ^ 149 := by
    rw [hxu, hnu]
    have : (500 : Int) * (U : Int) * 2 ^ 149 ≤ 1000 * 2 ^ 149 := by nlinarith
    omega
  obtain ⟨r1, _, _, r4⟩ := add_bounds (F32.ofInt 550) (F32.neg w) 550 ⟨j2, j3⟩
    ⟨n3.trans w2, n4.trans w3⟩ (by norm_num) hs
  refine ⟨r1, r4 _ ?_⟩
  rw [hxu, hnu]
  linarith

/-- C20, amended. In a `handleInput` tick whose two vertical stick axes lie
between -1 and 1, the scroll value `v` lies between -2 and 2, and the elapsed
time `550 - |v| * 500` ms that the scroll test compares the duration with is
never below -450 ms; it is at least 50 ms when `|v|` is at most 1. The code
has no floor at 50 ms. -/
theorem scrollThreshold_range (P : Platform) (cfg : Settings) (t : TickInput)
    (ignoreTouch : Bool) (s : InputState)
    (hl : (t.unifiedController.axes P.axes.LEFT_Y).mag ≤ (F32.ofInt 1).mag)
    (hr : (t.unifiedController.axes P.axes.RIGHT_Y).mag ≤ (F32.ofInt 1).mag) :
    (∀ duration : Int,
      scrollDue (scrollValue P cfg t ignoreTouch s) duration =
        (F32.ne (scrollValue P cfg t ignoreTouch s) (F32.zero false) &&
          F32.gt (F32.ofInt duration) (scrollThreshold (scrollValue P cfg t ignoreTouch s)))) ∧
      (scrollValue P cfg t ignoreTouch s).mag ≤ (F32.ofInt 2).mag ∧
      F32.le (F32.ofInt (-450)) (scrollThreshold (scrollValue P cfg t ignoreTouch s)) = true ∧
      ((scrollValue P cfg t ignoreTouch s).mag ≤ (F32.ofInt 1).mag →
        F32.le (F32.ofInt 50) (scrollThreshold (scrollValue P cfg t ignoreTouch s)) = true) := by
  rw [ofInt_one_mag] at hl hr
  have hv := scrollValue_mag P cfg t ignoreTouch s hl hr
  have h2 : (F32.ofInt 2).mag = 2 * 2 ^ 149 := (ofInt_exact 2 (by norm_num)).2.2.2
  have hm450 : (F32.ofInt (-450)).isNaN = false ∧
      (F32.ofInt (-450)).toUnits = ((550 : Int) - 500 * ((2 : Nat) : Int)) * 2 ^ 149 := by
    obtain ⟨i1, i2, _, i4⟩ := ofInt_exact (-450) (by norm_num)
    refine ⟨i2, ?_⟩
    rw [(toUnits_of_sign _).2 (by rw [i1]; decide), i4]
    norm_num
  have h50 : (F32.ofInt 50).isNaN = false ∧
      (F32.ofInt 50).toUnits = ((550 : Int) - 500 * ((1 : Nat) : Int)) * 2 ^ 149 := by
    obtain ⟨i1, i2, _, i4⟩ := ofInt_exact 50 (by norm_num)
    refine ⟨i2, ?_⟩
    rw [(toUnits_of_sign _).1 (by rw [i1]; decide), i4]
    norm_num
  refine ⟨fun _ => rfl, by rw [h2]; exact hv, ?_, ?_⟩
  · obtain ⟨n1, n2⟩ := scrollThreshold_lower _ 2 (by omega) hv
    rw [F32.le, hm450.1, n1, hm450.2]
    simpa using n2
  · intro h1
    rw [ofInt_one_mag] at h1
    obtain ⟨n1, n2⟩ := scrollThreshold_lower (scrollValue P cfg t ignoreTouch s) 1 (by omega)
      (by omega)
    rw [F32.le, h50.1, n1, h50.2]
    simpa using n2

/-- C20, witness. With the vertical axes at 0.5 and 0.25 the scroll value is
0.75 and the threshold is 175 ms. -/
theorem scrollThreshold_range_witness :
    (((scrollTick ⟨0x3F000000⟩ ⟨0x3E800000⟩ 0).unifiedController.axes
        examplePlatform.axes.LEFT_Y).mag ≤ (F32.ofInt 1).mag ∧
      ((scrollTick ⟨0x3F000000⟩ ⟨0x3E800000⟩ 0).unifiedController.axes
        examplePlatform.axes.RIGHT_Y).mag ≤ (F32.ofInt 1).mag) ∧
      F32.le (F32.ofInt 50)
        (scrollThreshold (scrollValue examplePlatform exampleSettings
          (scrollTick ⟨0x3F000000⟩ ⟨0x3E800000⟩ 0) false InputState.init)) = true ∧
      scrollThreshold (scrollValue examplePlatform exampleSettings
        (scrollTick ⟨0x3F000000⟩ ⟨0x3E800000⟩ 0) false InputState.init) = F32.ofInt 175 :=
  ⟨⟨by decide, by decide⟩,
    (scrollThreshold_range examplePlatform exampleSettings
      (scrollTick ⟨0x3F000000⟩ ⟨0x3E800000⟩ 0) false InputState.init (by decide)
      (by decide)).2.2.2 (by decide),
    by decide⟩

/-- C20 as stated fails. With both vertical axes at 1.0 in special mode the
scroll value is 2.0 and the threshold is -450 ms, below 50 ms: the scroll test
passes with no time elapsed at all. -/
theorem scrollThreshold_range_counterexample :
    ((scrollTick ⟨0x3F800000⟩ ⟨0x3F800000⟩ 0).unifiedController.axes
        examplePlatform.axes.LEFT_Y = F32.ofInt 1 ∧
      (scrollTick ⟨0x3F800000⟩ ⟨0x3F800000⟩ 0).unifiedController.axes
        examplePlatform.axes.RIGHT_Y = F32.ofInt 1) ∧
      specialKeyOf exampleSettings (scrollTick ⟨0x3F800000⟩ ⟨0x3F800000⟩ 0) false = true ∧
      scrollValue examplePlatform exampleSettings (scrollTick ⟨0x3F800000⟩ ⟨0x3F800000⟩ 0)
        false InputState.init = F32.ofInt 2 ∧
      scrollThreshold (scrollValue examplePlatform exampleSettings
        (scrollTick ⟨0x3F800000⟩ ⟨0x3F800000⟩ 0) false InputState.init) = F32.ofInt (-450) ∧
      F32.lt (scrollThreshold (scrollValue examplePlatform exampleSettings
        (scrollTick ⟨0x3F800000⟩ ⟨0x3F800000⟩ 0) false InputState.init)) (F32.ofInt 50) = true ∧
      scrollDue (scrollValue examplePlatform exampleSettings
        (scrollTick ⟨0x3F800000⟩ ⟨0x3F800000⟩ 0) false InputState.init) 0 = true := by
  decide

/-! ## The empty guide combo -/

/-- With an empty configured set the guide combo is false for every
controller. -/
theorem guideCombo_empty (cfg : Settings) (controller : ControllerState)
    (h : cfg.guide_key_buttons = []) : guideCombo cfg controller = false := by
  unfold guideCombo
  rw [h]
  rfl

/-- C21. When the configured guide-combo set is empty, the combo is false for
every controller snapshot, and the state `getControllerState` returns (the
function is total: it returns a state for every input) has the special flag
set exactly when the native guide button is held on the mapped controller; its
flags are the special flag or nothing on top of the packed buttons, which are
wiped when the cached state has the special flag. The special flag constant is
a non-zero 32-bit value. -/
theorem getControllerState_empty_guide_combo (P : Platform) (cfg : Settings)
    (lastGamepadStates : Nat → GamepadState) (mappingButtons : Nat → Nat)
    (rawController : ControllerState) (controllerNum : Nat) (specialKey : Bool)
    (hempty : cfg.guide_key_buttons = []) (hS : P.flags.SPECIAL_FLAG ≠ 0)
    (hS32 : P.flags.SPECIAL_FLAG < 2 ^ 32) :
    (∀ controller : ControllerState, guideCombo cfg controller = false) ∧
      ((getControllerState P cfg lastGamepadStates mappingButtons rawController controllerNum
            specialKey).buttonFlags &&& P.flags.SPECIAL_FLAG ≠ 0 ↔
          (mapController P mappingButtons rawController).buttons P.buttons.BUTTON_GUIDE = true) ∧
      (getControllerState P cfg lastGamepadStates mappingButtons rawController controllerNum
          specialKey).buttonFlags =
        SET_GAME_PAD_STATE
          (if (lastGamepadStates controllerNum).buttonFlags &&& P.flags.SPECIAL_FLAG ≠ 0 then 0
            else packButtons P (mapController P mappingButtons rawController))
          P.flags.SPECIAL_FLAG
          ((mapController P mappingButtons rawController).buttons P.buttons.BUTTON_GUIDE) := by
  have hc := guideCombo_empty cfg (mapController P mappingButtons rawController) hempty
  have hflags : (getControllerState P cfg lastGamepadStates mappingButtons rawController
      controllerNum specialKey).buttonFlags =
      SET_GAME_PAD_STATE
        (if (lastGamepadStates controllerNum).buttonFlags &&& P.flags.SPECIAL_FLAG ≠ 0 then 0
          else packButtons P (mapController P mappingButtons rawController))
        P.flags.SPECIAL_FLAG
        ((mapController P mappingButtons rawController).buttons P.buttons.BUTTON_GUIDE) := by
    rw [getControllerState_buttonFlags, hc]
    simp
  refine ⟨fun controller => guideCombo_empty cfg controller hempty, ?_, hflags⟩
  rw [hflags]
  cases hg : (mapController P mappingButtons rawController).buttons P.buttons.BUTTON_GUIDE with
  | true =>
    simp only [SET_GAME_PAD_STATE, if_true]
    exact ⟨fun _ => trivial, fun _ => or_and_self_ne_zero _ _ hS⟩
  | false =>
    simp only [SET_GAME_PAD_STATE, Bool.false_eq_true, if_false]
    rw [and_complement32_and_self _ _ hS32]
    exact ⟨fun h => absurd rfl h, fun h => absurd h (by simp)⟩

/-- C21 on settings with an empty guide-combo set: with BACK and START held
(the combo of the example settings) the special flag is not set, and with the
native guide button held it is. -/
theorem getControllerState_empty_guide_combo_witness :
    ({ exampleSettings with guide_key_buttons := [] } : Settings).guide_key_buttons = [] ∧
      ¬ ((getControllerState examplePlatform { exampleSettings with guide_key_buttons := [] }
          (fun _ => GamepadState.zero) (fun i => i) (heldButtons [7, 9]) 0 false).buttonFlags &&&
            examplePlatform.flags.SPECIAL_FLAG ≠ 0) ∧
      (getControllerState examplePlatform { exampleSettings with guide_key_buttons := [] }
          (fun _ => GamepadState.zero) (fun i => i) (heldButtons [8]) 0 false).buttonFlags &&&
            examplePlatform.flags.SPECIAL_FLAG ≠ 0 :=
  ⟨rfl,
    fun h => absurd
      ((getControllerState_empty_guide_combo examplePlatform
        { exampleSettings with guide_key_buttons := [] } (fun _ => GamepadState.zero)
        (fun i => i) (heldButtons [7, 9]) 0 false rfl (by decide) (by decide)).2.1.mp h)
      (by decide),
    (getControllerState_empty_guide_combo examplePlatform
      { exampleSettings with guide_key_buttons := [] } (fun _ => GamepadState.zero)
      (fun i => i) (heldButtons [8]) 0 false rfl (by decide) (by decide)).2.1.mpr (by decide)⟩

/-! ## The remap merge -/

/-- The button loop of `mapController` over the indices below `n`: an entry is
set exactly when it was set before or some raw button below `n` that the table
sends to it is held. -/
theorem mapController_buttons_fold (m : Nat → Nat) (c : Nat → Bool) (init : Nat → Bool)
    (n b : Nat) :
    (List.range n).foldl
        (fun buttons i => Function.update buttons (m i) (buttons (m i) || c i)) init b = true ↔
      init b = true ∨ ∃ i, i < n ∧ m i = b ∧ c i = true := by
  induction n with
  | zero => simp
  | succ n ih =>
    rw [List.range_succ, List.foldl_append]
    simp only [List.foldl_cons, List.foldl_nil]
    by_cases hb : m n = b
    · subst hb
      rw [Function.update_same, Bool.or_eq_true, ih]
      constructor
      · rintro ((h | ⟨i, hi, hm, hc⟩) | h)
        · exact Or.inl h
        · exact Or.inr ⟨i, by omega, hm, hc⟩
        · exact Or.inr ⟨n, by omega, rfl, h⟩
      · rintro (h | ⟨i, hi, hm, hc⟩)
        · exact Or.inl (Or.inl h)
        · rcases Nat.lt_or_ge i n with hlt | hge
          · exact Or.inl (Or.inr ⟨i, hlt, hm, hc⟩)
          · have : i = n := by omega
            subst this
            exact Or.inr hc
    · rw [Function.update_noteq (Ne.symm hb), ih]
      constructor
      · rintro (h | ⟨i, hi, hm, hc⟩)
        · exact Or.inl h
        · exact Or.inr ⟨i, by omega, hm, hc⟩
      · rintro (h | ⟨i, hi, hm, hc⟩)
        · exact Or.inl h
        · rcases Nat.lt_or_ge i n with hlt | hge
          · exact Or.inr ⟨i, hlt, hm, hc⟩
          · have : i = n := by omega
            subst this
            exact absurd hm hb

/-- A button of the mapped controller is set exactly when some raw button that
the table sends to it is held. -/
theorem mapController_buttons (P : Platform) (mappingButtons : Nat → Nat)
    (controller : ControllerState) (b : Nat) :
    (mapController P mappingButtons controller).buttons b = true ↔
      ∃ i, i < P.buttons._BUTTON_MAX ∧ mappingButtons i = b ∧ controller.buttons i = true := by
  show (List.range P.buttons._BUTTON_MAX).foldl
      (fun buttons i =>
        Function.update buttons (mappingButtons i)
          (buttons (mappingButtons i) || controller.buttons i))
      (fun _ => false) b = true ↔ _
  rw [mapController_buttons_fold mappingButtons controller.buttons (fun _ => false)]
  simp

/-- The table `reloadButtonMappingLayout` builds from an empty layout is the
identity below `_BUTTON_MAX`. -/
theorem reloadButtonMappingLayout_empty (P : Platform) (cfg : Settings) (s : InputState)
    (hempty : cfg.mapping = []) (i : Nat) (hi : i < P.buttons._BUTTON_MAX) :
    (reloadButtonMappingLayout P cfg s).mappingButtons i = i := by
  rw [reloadButtonMappingLayout_fold, foldl_update_range, if_pos hi, hempty]
  rfl

/-- With a table that is the identity below `_BUTTON_MAX`, the mapped
controller has the buttons of the raw controller below `_BUTTON_MAX`. -/
theorem mapController_identity_buttons (P : Platform) (mappingButtons : Nat → Nat)
    (controller : ControllerState) (hid : ∀ i, i < P.buttons._BUTTON_MAX → mappingButtons i = i)
    (b : Nat) (hb : b < P.buttons._BUTTON_MAX) :
    (mapController P mappingButtons controller).buttons b = controller.buttons b := by
  have h := mapController_buttons P mappingButtons controller b
  cases hc : controller.buttons b with
  | true => exact h.mpr ⟨b, hb, hid b hb, hc⟩
  | false =>
    cases hr : (mapController P mappingButtons controller).buttons b with
    | false => rfl
    | true =>
      obtain ⟨i, hi, hm, hci⟩ := h.mp hr
      rw [hid i hi] at hm
      subst hm
      rw [hc] at hci
      exact absurd hci (by simp)

/-- C22. `mapController` is an OR-merge through the remap table: for every
table whose entries below `_BUTTON_MAX` lie below `_BUTTON_MAX` and every raw
controller state, every axis is copied unchanged, button `b` of the result is
set exactly when some raw button `i` with `mappingButtons[i] = b` is held, and
no button outside the array is set. With the table `reloadButtonMappingLayout`
builds from an empty layout, which is the identity, every button and every
axis of the result is that of the input: `mapController` returns its input
unchanged. -/
theorem mapController_or_merge (P : Platform) (mappingButtons : Nat → Nat)
    (controller : ControllerState)
    (hrange : ∀ i, i < P.buttons._BUTTON_MAX → mappingButtons i < P.buttons._BUTTON_MAX) :
    (∀ i, i < P.axes._AXES_MAX →
        (mapController P mappingButtons controller).axes i = controller.axes i) ∧
      (∀ b, (mapController P mappingButtons controller).buttons b = true ↔
        ∃ i, i < P.buttons._BUTTON_MAX ∧ mappingButtons i = b ∧ controller.buttons i = true) ∧
      (∀ b, P.buttons._BUTTON_MAX ≤ b →
        (mapController P mappingButtons controller).buttons b = false) ∧
      ∀ (cfg : Settings) (s : InputState), cfg.mapping = [] →
        (∀ i, i < P.buttons._BUTTON_MAX →
          (reloadButtonMappingLayout P cfg s).mappingButtons i = i) ∧
        (∀ b, b < P.buttons._BUTTON_MAX →
          (mapController P (reloadButtonMappingLayout P cfg s).mappingButtons controller).buttons
            b = controller.buttons b) ∧
        (∀ i, i < P.axes._AXES_MAX →
          (mapController P (reloadButtonMappingLayout P cfg s).mappingButtons controller).axes
            i = controller.axes i) ∧
        ((∀ b, P.buttons._BUTTON_MAX ≤ b → controller.buttons b = false) →
          (∀ i, P.axes._AXES_MAX ≤ i → controller.axes i = F32.zero false) →
          mapController P (reloadButtonMappingLayout P cfg s).mappingButtons controller =
            controller) := by
  have haxes : ∀ (m : Nat → Nat) (i : Nat), i < P.axes._AXES_MAX →
      (mapController P m controller).axes i = controller.axes i := by
    intro m i hi
    show (if i < P.axes._AXES_MAX then controller.axes i else F32.zero false) = controller.axes i
    rw [if_pos hi]
  refine ⟨haxes mappingButtons, mapController_buttons P mappingButtons controller, ?_, ?_⟩
  · intro b hb
    cases hr : (mapController P mappingButtons controller).buttons b with
    | false => rfl
    | true =>
      obtain ⟨i, hi, hm, _⟩ := (mapController_buttons P mappingButtons controller b).mp hr
      have := hrange i hi
      omega
  · intro cfg s hempty
    have hid := reloadButtonMappingLayout_empty P cfg s hempty
    refine ⟨hid, fun b hb => mapController_identity_buttons P _ controller hid b hb,
      haxes _, ?_⟩
    intro hbuttons haxes0
    have hb : (mapController P (reloadButtonMappingLayout P cfg s).mappingButtons
        controller).buttons = controller.buttons := by
      funext b
      rcases Nat.lt_or_ge b P.buttons._BUTTON_MAX with hlt | hge
      · exact mapController_identity_buttons P _ controller hid b hlt
      · rw [hbuttons b hge]
        cases hr : (mapController P (reloadButtonMappingLayout P cfg s).mappingButtons
            controller).buttons b with
        | false => rfl
        | true =>
          obtain ⟨i, hi, hm, _⟩ := (mapController_buttons P _ controller b).mp hr
          rw [hid i hi] at hm
          omega
    have ha : (mapController P (reloadButtonMappingLayout P cfg s).mappingButtons
        controller).axes = controller.axes := by
      funext i
      rcases Nat.lt_or_ge i P.axes._AXES_MAX with hlt | hge
      · exact haxes _ i hlt
      · rw [haxes0 i hge]
        show (if i < P.axes._AXES_MAX then controller.axes i else F32.zero false) = _
        rw [if_neg (by omega)]
    generalize mapController P (reloadButtonMappingLayout P cfg s).mappingButtons controller = r
      at hb ha
    cases r
    cases controller
    simp only at hb ha
    rw [hb, ha]

/-- C22 on a table that sends button 13 (A) to 12 (B) and leaves the rest
alone: with A and X held the mapped controller has B and X held and A not; and
with the empty layout the mapped buttons are those of the input. -/
theorem mapController_or_merge_witness :
    (∀ i, i < examplePlatform.buttons._BUTTON_MAX →
        (fun i => if i = 13 then 12 else i) i < examplePlatform.buttons._BUTTON_MAX) ∧
      ((mapController examplePlatform (fun i => if i = 13 then 12 else i)
          (heldButtons [13, 14])).buttons 12 = true ∧
        (mapController examplePlatform (fun i => if i = 13 then 12 else i)
          (heldButtons [13, 14])).buttons 13 = false ∧
        (mapController examplePlatform (fun i => if i = 13 then 12 else i)
          (heldButtons [13, 14])).buttons 14 = true) ∧
      (mapController examplePlatform
          (reloadButtonMappingLayout examplePlatform exampleSettings
            { InputState.init with mappingButtons := fun _ => 0 }).mappingButtons
          (heldButtons [13, 14])).buttons 13 = (heldButtons [13, 14]).buttons 13 := by
  have hr : ∀ i, i < examplePlatform.buttons._BUTTON_MAX →
      (fun i => if i = 13 then 12 else i) i < examplePlatform.buttons._BUTTON_MAX := by
    intro i hi
    show (if i = 13 then 12 else i) < 17
    have : i < 17 := hi
    split <;> omega
  refine ⟨hr, ⟨?_, by decide, by decide⟩, ?_⟩
  · exact ((mapController_or_merge examplePlatform (fun i => if i = 13 then 12 else i)
      (heldButtons [13, 14]) hr).2.1 12).mpr ⟨13, by decide, by decide, by decide⟩
  · exact ((mapController_or_merge examplePlatform (fun i => if i = 13 then 12 else i)
      (heldButtons [13, 14]) hr).2.2.2 exampleSettings
      { InputState.init with mappingButtons := fun _ => 0 } rfl).2.1 13 (by decide)

end Moonlight
